import Mathlib

/-!
Verification development for the Moodle recommendation engine
(`api/recommenders/popular.py`, `collaborative.py`, `content_based.py`,
`interests_based.py`, `hybrid.py`, over `api/services/moodle_client.py`).

Modelling conventions.

* A Python dict with a known key set is a structure of `Option` fields
  (`none` = key absent).  `d.copy()` followed by key insertion is a record
  update.  Python floats are `ℚ` (all constants in the source are exact
  decimals) and `time.time()` is the context field `now`.
* Every Moodle-client call is a field of `MoodleClient` returning
  `Except Unit α`: `Except.error ()` models an exception raised inside the
  call, while the client's own error indicator (empty list / empty dict)
  is an ordinary value.  The recommenders' `try`/`except` blocks are
  translated as explicit `match`es on `Except`.
* External numeric routines that are out of the engine's algorithmic scope
  (scikit-learn TF-IDF cosine similarity, `math.sqrt`, `f"{x:.2f}"`
  formatting) and the pure text-normalisation pass `_clean_text` (a regex
  pipeline) are oracle fields of `Ctx`; theorems quantify over them, so
  they hold in particular for the real implementations, and concrete
  counterexamples instantiate them with the exact values the real
  computation produces on the chosen inputs.
* Python dicts preserve insertion order; they are modelled as association
  lists where `aset` updates an existing key in place and appends a new
  one.  Python's (stable) `sorted` is `List.insertionSort`, which has the
  same stable-sort semantics.
-/

deriving instance DecidableEq for Except

namespace RecEngine

/-- Course or activity record as supplied by the Moodle client: a JSON
object whose possibly-absent keys are modelled as `Option` fields. -/
structure Entity where
  id : Option Nat := none
  timecreated : Option Int := none
  fullname : Option String := none
  summary : Option String := none
  categoryid : Option Nat := none
  categoryname : Option String := none
  name : Option String := none
  description : Option String := none
  modname : Option String := none
deriving DecidableEq, Repr

/-- Recommendation entry: the copied entity dict plus the annotation keys
the recommenders may add (`course.copy()` + `rec['key'] = value`). -/
structure Item where
  entity : Entity
  content_similarity_score : Option ℚ := none
  collaborative_score : Option ℚ := none
  popularity_score : Option ℚ := none
  interest_match_score : Option ℚ := none
  engagement_score : Option ℚ := none
  normalized_score : Option ℚ := none
  hybrid_score : Option ℚ := none
  recommendation_reason : Option String := none
  tags : Option (List String) := none
  recommendation_sources : Option (List String) := none
deriving DecidableEq, Repr

/-- Wrap a raw entity as a recommendation entry with no annotations
(the fallback paths that return Moodle records unmodified). -/
def Item.ofEntity (e : Entity) : Item := { entity := e }

/-- Enrolled-user record (`get_course_enrolled_users` element). -/
structure MUser where
  id : Option Nat := none
deriving DecidableEq, Repr

/-- One element of `completion_data['statuses']`. -/
structure CmStatus where
  cmid : Option Nat := none
  state : Option Int := none
  viewed : Option Bool := none
deriving DecidableEq, Repr

/-- One section of a course content tree (`get_course_contents` element);
`modules` is `none` when the section dict has no `modules` key. -/
structure CourseSection where
  modules : Option (List Entity) := none
deriving DecidableEq, Repr

/-- The Moodle client interface consumed by the recommenders.
`Except.error ()` models an exception raised inside the call;
`get_course_tags` elements are the `name` values of tag dicts (`none` for
a malformed element without a usable name); `get_all_course_tags` is the
bulk `course_id -> [tag_name]` mapping. -/
structure MoodleClient where
  get_site_courses : Except Unit (List Entity)
  get_user_courses : Nat → Except Unit (List Entity)
  get_course_contents : Nat → Except Unit (List CourseSection)
  get_course_enrolled_users : Nat → Except Unit (List MUser)
  get_activities_completion_status : Nat → Nat → Except Unit (Option (List CmStatus))
  get_course_tags : Nat → Except Unit (List (Option String))
  get_all_course_tags : Except Unit (List (Nat × List String))

/-- Request context: the client plus the out-of-scope oracles.
`user_interests` is `InterestsBasedRecommender._get_user_interests`
(it catches internally and returns a plain list).  `tfidf_max_sim_courses`
and `tfidf_max_sim_activities` model the scikit-learn block "fit TF-IDF on
references ++ candidates, return per-candidate max cosine against any
reference"; `pair_cosine` models the one-on-one TF-IDF cosine of
`interests_based.py`; `sqrtq` models `math.sqrt`; `fmt2` models
`f"{x:.2f}"`; `clean_text` models `_clean_text`; `now` is `time.time()`. -/
structure Ctx where
  client : MoodleClient
  user_interests : Nat → List String
  clean_text : String → String
  tfidf_max_sim_courses : List String → List String → Except Unit (List ℚ)
  tfidf_max_sim_activities : List String → List String → Except Unit (List ℚ)
  pair_cosine : String → String → Except Unit ℚ
  sqrtq : ℚ → ℚ
  fmt2 : ℚ → String
  now : Int

/-- Dict lookup `m.get(k)` on an insertion-ordered association list. -/
def aget {α : Type} (m : List (Nat × α)) (k : Nat) : Option α :=
  (m.find? (fun p => p.1 == k)).map (·.2)

/-- Dict assignment `m[k] = v`: update an existing key in place, append a
new one (Python dicts keep the original key position on update). -/
def aset {α : Type} (m : List (Nat × α)) (k : Nat) (v : α) : List (Nat × α) :=
  if (m.find? (fun p => p.1 == k)).isSome then
    m.map (fun p => if p.1 == k then (k, v) else p)
  else m ++ [(k, v)]

/-- Dict deletion `del m[k]` (no-op when the key is absent, matching the
guarded deletes in the source). -/
def adel {α : Type} (m : List (Nat × α)) (k : Nat) : List (Nat × α) :=
  m.filter (fun p => p.1 ≠ k)

/-- `defaultdict(float)` accumulation `m[k] += v`. -/
def addf (m : List (Nat × ℚ)) (k : Nat) (v : ℚ) : List (Nat × ℚ) :=
  aset m k ((aget m k).getD 0 + v)

/-- Python `min(l)` with the source's explicit default for an empty list. -/
def pyMin (l : List ℚ) (dflt : ℚ) : ℚ :=
  match l with
  | [] => dflt
  | x :: xs => xs.foldl min x

/-- Python `max(l)` with the source's explicit default for an empty list. -/
def pyMax (l : List ℚ) (dflt : ℚ) : ℚ :=
  match l with
  | [] => dflt
  | x :: xs => xs.foldl max x

/-- Python's stable `sorted(l, key=key, reverse=True)`. -/
def pySortedByDesc {α β : Type} [LinearOrder β] (key : α → β) (l : List α) : List α :=
  List.insertionSort (fun a b => key b ≤ key a) l

/-- Python's stable `sorted(l, key=key)`. -/
def pySortedBy {α β : Type} [LinearOrder β] (key : α → β) (l : List α) : List α :=
  List.insertionSort (fun a b => key a ≤ key b) l

/-- Python substring test `needle in hay`. -/
def pyIn (needle hay : String) : Prop := needle.toList <:+: hay.toList

instance (needle hay : String) : Decidable (pyIn needle hay) :=
  List.decidableInfix needle.toList hay.toList

/-- Mandatory dict access `course['id']`: raises `KeyError` when absent. -/
def Entity.getIdE (c : Entity) : Except Unit Nat :=
  match c.id with
  | some i => Except.ok i
  | none => Except.error ()

/-- Sequential evaluation of `[course['id'] for course in courses]` /
`set(course['id'] for course in courses)`: the first record without an id
raises, exactly as the comprehensions in the source. -/
def mapIdsE : List Entity → Except Unit (List Nat)
  | [] => Except.ok []
  | c :: cs =>
    match c.id with
    | none => Except.error ()
    | some i =>
      match mapIdsE cs with
      | Except.error e => Except.error e
      | Except.ok r => Except.ok (i :: r)

/-- Pair every course with its mandatory id, raising on the first record
without one (the filter comprehensions that access `course['id']`). -/
def pairIdsE : List Entity → Except Unit (List (Entity × Nat))
  | [] => Except.ok []
  | c :: cs =>
    match c.id with
    | none => Except.error ()
    | some i =>
      match pairIdsE cs with
      | Except.error e => Except.error e
      | Except.ok r => Except.ok ((c, i) :: r)

/-- `{course['id']: course for course in all_courses}` with the raising
id access. -/
def courseMapE (l : List Entity) : Except Unit (List (Nat × Entity)) :=
  match pairIdsE l with
  | Except.error e => Except.error e
  | Except.ok pairs => Except.ok (pairs.foldl (fun m p => aset m p.2 p.1) [])

/-- Insertion-ordered set union (`python_set.update(iterable)`). -/
def setUnion (s l : List String) : List String :=
  l.foldl (fun s t => if t ∈ s then s else s ++ [t]) s

/-- The ranked-emission loop shared by the scored paths of the source
(`for x in sorted_xs: if skip(x): continue; [maybe append]; if
len(recs) >= limit: break`), with the limit check at loop level and a
possibly effectful body (some loop bodies fetch tags from the client). -/
def emitLoopM {α β : Type} (limit : Nat) (skip : α → Bool)
    (step : α → Except Unit (Option β)) :
    List α → List β → Except Unit (List β)
  | [], acc => Except.ok acc
  | x :: xs, acc =>
    if skip x then emitLoopM limit skip step xs acc
    else
      match step x with
      | Except.error e => Except.error e
      | Except.ok ob =>
        let acc' := match ob with
          | some b => acc ++ [b]
          | none => acc
        if limit ≤ acc'.length then Except.ok acc'
        else emitLoopM limit skip step xs acc'

/-- Pure instance of the ranked-emission loop (loop bodies that make no
client call). -/
def emitLoop {α β : Type} (limit : Nat) (skip : α → Bool) (step : α → Option β) :
    List α → List β → List β
  | [], acc => acc
  | x :: xs, acc =>
    if skip x then emitLoop limit skip step xs acc
    else
      let acc' := match step x with
        | some b => acc ++ [b]
        | none => acc
      if limit ≤ acc'.length then acc'
      else emitLoop limit skip step xs acc'

/-- The padding loop shared by the "top up to the limit" blocks
(`for a in xs: if eligible(a): append; if len(recs) >= limit: break`),
with the limit check inside the conditional, after an append. -/
def padLoop {α β : Type} (limit : Nat) (step : α → Option β) :
    List α → List β → List β
  | [], acc => acc
  | x :: xs, acc =>
    match step x with
    | none => padLoop limit step xs acc
    | some b =>
      let acc' := acc ++ [b]
      if limit ≤ acc'.length then acc' else padLoop limit step xs acc'

/-- Feature bundle of `_extract_course_features` (the helper is duplicated
verbatim in `content_based.py` and `interests_based.py`, with identical
config values, so it is defined once here). -/
structure CourseFeatures where
  id : Nat
  content : String
  category_id : Nat
  category_name : String
  tags : List String
deriving DecidableEq, Repr

/-- Feature bundle of `_extract_activity_features` (content_based.py). -/
structure ActivityFeatures where
  id : Nat
  content : String
  module_name : String
deriving DecidableEq, Repr

/-- The `_get_course_tags` helper shared by content/interests recommenders:
use the pre-fetched bulk mapping when it is given and has the course,
otherwise fetch individually from the client (which may raise). -/
def get_course_tags (ctx : Ctx) (course_id : Nat)
    (all_course_tags : Option (List (Nat × List String))) : Except Unit (List String) :=
  match all_course_tags with
  | some m =>
    match aget m course_id with
    | some tag_names => Except.ok tag_names
    | none => do
      let tags ← ctx.client.get_course_tags course_id
      Except.ok (tags.filterMap id)
  | none => do
    let tags ← ctx.client.get_course_tags course_id
    Except.ok (tags.filterMap id)

/-- Helper for the `if field in course and course[field]:` content-part
pattern: keep a field's cleaned text when the key is present and truthy. -/
def contentPart (ctx : Ctx) (v : Option String) : List String :=
  match v with
  | some s => if s ≠ "" then [ctx.clean_text s] else []
  | none => []

/-- The `_extract_course_features` helper shared by the content-based and
interests-based recommenders: assemble cleaned text from
fullname/summary/categoryname and append the tag text three times. -/
def extract_course_features (ctx : Ctx) (course : Entity)
    (all_course_tags : Option (List (Nat × List String))) : Except Unit CourseFeatures := do
  let content_parts :=
    contentPart ctx course.fullname ++ contentPart ctx course.summary ++
      contentPart ctx course.categoryname
  let content0 := String.intercalate " " content_parts
  let course_id := course.id.getD 0
  if course_id > 0 then do
    let tags ← get_course_tags ctx course_id all_course_tags
    let content1 :=
      if tags ≠ [] then
        let tag_text := String.intercalate " " tags
        content0 ++ " " ++ String.intercalate " " [tag_text, tag_text, tag_text]
      else content0
    Except.ok { id := course_id, content := content1,
                category_id := course.categoryid.getD 0,
                category_name := course.categoryname.getD "", tags := tags }
  else
    Except.ok { id := course_id, content := content0,
                category_id := course.categoryid.getD 0,
                category_name := course.categoryname.getD "", tags := [] }

/-- ContentBasedRecommender._extract_activity_features (pure). -/
def extract_activity_features (ctx : Ctx) (activity : Entity) : ActivityFeatures :=
  { id := activity.id.getD 0,
    content := String.intercalate " "
      (contentPart ctx activity.name ++ contentPart ctx activity.description ++
        contentPart ctx activity.modname),
    module_name := activity.modname.getD "" }

/-- Flattening of a course content tree into its activity list
(`for section in course_sections: if 'modules' in section: extend`). -/
def flattenActivities (course_sections : List CourseSection) : List Entity :=
  course_sections.foldl (fun acc s => acc ++ s.modules.getD []) []

/-- The completed-activity collection shared (verbatim) by
popular.recommend_activities and interests_based.recommend_activities:
ids of the statuses with `state == 1` (`cmid` defaulting to 0). -/
def completedActivityIds (completion_data : Option (List CmStatus)) : List Nat :=
  match completion_data with
  | none => []
  | some statuses => statuses.filterMap (fun st =>
      if st.state = some 1 then some (st.cmid.getD 0) else none)

namespace Popular

/-- POPULARITY_CONFIG of `popular.py`. -/
def ENROLLMENT_WEIGHT : ℚ := 8/10
def RECENCY_WEIGHT : ℚ := 2/10
def MAX_ENROLLMENT_SCORE : ℚ := 5
def RECENCY_PERIOD_DAYS : Int := 30
def DEFAULT_SCORE : ℚ := 2
def COMPLETION_WEIGHT : ℚ := 2
def VIEW_WEIGHT : ℚ := 1
def MAX_ACTIVITY_SCORE : ℚ := 5

/-- PopularRecommender._calculate_course_popularity_scores.  Total: every
client call inside is wrapped in its own `try` in the source (an error
contributes an enrollment count of 0), so the outer `try` never fires. -/
def calculate_course_popularity_scores (ctx : Ctx) (all_courses : List Entity) :
    List (Nat × ℚ) :=
  let popularity1 : List (Nat × ℚ) :=
    (all_courses.filterMap (·.id)).foldl (fun m i => aset m i DEFAULT_SCORE) []
  let course_map : List (Nat × Entity) :=
    (all_courses.filterMap (fun c => c.id.map (fun i => (i, c)))).foldl
      (fun m p => aset m p.1 p.2) []
  let days_seconds : Int := RECENCY_PERIOD_DAYS * 24 * 60 * 60
  let popularity2 := course_map.foldl (fun m p =>
    match p.2.timecreated with
    | none => m
    | some tc =>
      let time_diff : Int := ctx.now - tc
      if time_diff < days_seconds then
        let recency_score : ℚ := 1 * (1 - (time_diff : ℚ) / (days_seconds : ℚ))
        aset m p.1 (((aget m p.1).getD 0) * (1 - RECENCY_WEIGHT) +
          recency_score * RECENCY_WEIGHT)
      else m) popularity1
  let popularity3 := adel popularity2 1
  let course_ids := (course_map.map (·.1)).filter (fun i => i ≠ 1)
  let enrollment_counts : List (Nat × ℚ) := course_ids.foldl (fun m cid =>
    match ctx.client.get_course_enrolled_users cid with
    | Except.ok users => aset m cid ((users.length : ℚ))
    | Except.error _ => aset m cid 0) []
  enrollment_counts.foldl (fun m p =>
    if (aget m p.1).isSome then
      let enrollment_score := min (p.2 / 10) MAX_ENROLLMENT_SCORE
      let original_score := (aget m p.1).getD 0
      aset m p.1 (enrollment_score * ENROLLMENT_WEIGHT + original_score * RECENCY_WEIGHT)
    else m) popularity3

/-- PopularRecommender._get_activity_engagement_scores.  Total: the outer
`try` catches client exceptions and returns the scores built so far (still
empty at that point), the per-user completion fetch is inner-caught. -/
def get_activity_engagement_scores (ctx : Ctx) (course_id : Nat) : List (Nat × ℚ) :=
  match ctx.client.get_course_enrolled_users course_id with
  | Except.error _ => []
  | Except.ok enrolled_users =>
    if enrolled_users = [] then []
    else
      let activity_counts : List (Nat × ℚ) := enrolled_users.foldl (fun m user =>
        match user.id with
        | none => m
        | some 0 => m
        | some uid =>
          match ctx.client.get_activities_completion_status uid course_id with
          | Except.error _ => m
          | Except.ok none => m
          | Except.ok (some statuses) =>
            statuses.foldl (fun m2 st =>
              let activity_id := st.cmid.getD 0
              if activity_id = 0 then m2
              else if st.state = some 1 then addf m2 activity_id COMPLETION_WEIGHT
              else if st.viewed.getD false then addf m2 activity_id VIEW_WEIGHT
              else m2) m) []
      if activity_counts = [] then []
      else
        let max_count := pyMax (activity_counts.map (·.2)) 1
        activity_counts.map (fun p => (p.1, p.2 / max_count * MAX_ACTIVITY_SCORE))

/-- The explanation string attached to a popular course recommendation
(lines 282-288). -/
def course_reason (ctx : Ctx) (score : ℚ) (enrollment_count : Nat)
    (timecreated : Option Int) : String :=
  let reason0 := "This course is popular (score: " ++ ctx.fmt2 score ++ ") with " ++
    toString enrollment_count ++ " enrollments"
  match timecreated with
  | some tc =>
    if ctx.now - tc < RECENCY_PERIOD_DAYS * 24 * 60 * 60 then
      reason0 ++ " and is relatively new"
    else reason0
  | none => reason0

/-- Body of PopularRecommender.recommend_courses (inside the outer `try`). -/
def recommend_courses_body (ctx : Ctx) (user_id limit : Nat) : Except Unit (List Item) := do
  let all_courses ← ctx.client.get_site_courses
  let user_courses ← ctx.client.get_user_courses user_id
  let user_course_ids ← mapIdsE user_courses
  let pairs ← pairIdsE all_courses
  let potential_recommendations :=
    pairs.filter (fun p => decide (p.2 ∉ user_course_ids ∧ p.2 ≠ 1))
  let popularity_scores := calculate_course_popularity_scores ctx all_courses
  let sorted_recommendations :=
    pySortedByDesc (fun p => (aget popularity_scores p.2).getD 0) potential_recommendations
  let result := (sorted_recommendations.take limit).map (fun p =>
    let score := (aget popularity_scores p.2).getD 0
    let enrollment_count : Nat :=
      match ctx.client.get_course_enrolled_users p.2 with
      | Except.ok users => users.length
      | Except.error _ => 0
    { entity := p.1, popularity_score := some score,
      recommendation_reason := some (course_reason ctx score enrollment_count p.1.timecreated) })
  Except.ok result

/-- PopularRecommender.recommend_courses with its outer
`except Exception: return []` made explicit. -/
def recommend_coursesE (ctx : Ctx) (user_id limit : Nat) : Except Unit (List Item) :=
  match recommend_courses_body ctx user_id limit with
  | Except.ok r => Except.ok r
  | Except.error _ => Except.ok []

/-- PopularRecommender.recommend_courses as seen by the caller. -/
def recommend_courses (ctx : Ctx) (user_id limit : Nat) : List Item :=
  match recommend_coursesE ctx user_id limit with
  | Except.ok r => r
  | Except.error _ => []

/-- Body of PopularRecommender.recommend_activities (inside the outer `try`). -/
def recommend_activities_body (ctx : Ctx) (user_id course_id limit : Nat) :
    Except Unit (List Item) := do
  let course_sections ← ctx.client.get_course_contents course_id
  let all_activities := flattenActivities course_sections
  let completion_data ← ctx.client.get_activities_completion_status user_id course_id
  let completed_activities := completedActivityIds completion_data
  let potential_activities := all_activities.filter (fun a =>
    a.id.all (fun i => decide (i ∉ completed_activities)))
  let engagement_scores := get_activity_engagement_scores ctx course_id
  let sorted_activities :=
    pySortedByDesc (fun a => (aget engagement_scores (a.id.getD 0)).getD 0)
      potential_activities
  let result := (sorted_activities.take limit).map (fun a =>
    let score := (aget engagement_scores (a.id.getD 0)).getD 0
    { entity := a, engagement_score := some score,
      recommendation_reason := some
        ("This activity is popular with other students (engagement score: " ++
          ctx.fmt2 score ++ ")") })
  Except.ok result

/-- PopularRecommender.recommend_activities with its outer
`except Exception: return []` made explicit. -/
def recommend_activitiesE (ctx : Ctx) (user_id course_id limit : Nat) :
    Except Unit (List Item) :=
  match recommend_activities_body ctx user_id course_id limit with
  | Except.ok r => Except.ok r
  | Except.error _ => Except.ok []

/-- PopularRecommender.recommend_activities as seen by the caller. -/
def recommend_activities (ctx : Ctx) (user_id course_id limit : Nat) : List Item :=
  match recommend_activitiesE ctx user_id course_id limit with
  | Except.ok r => r
  | Except.error _ => []

end Popular

namespace Collaborative

/-- COLLABORATIVE_CONFIG of `collaborative.py`. -/
def MIN_COMMON_COURSES : Nat := 1
def MAX_SIMILAR_USERS : Nat := 10
def SIMILARITY_THRESHOLD : ℚ := 1/10
def COURSE_SCORE_THRESHOLD : ℚ := 1/5
def ACTIVITY_COMPLETION_WEIGHT : ℚ := 3
def ACTIVITY_VIEW_WEIGHT : ℚ := 1
def ACTIVITY_SCORE_THRESHOLD : ℚ := 1/10

/-- CollaborativeRecommender._build_user_course_matrix.  Total: the outer
`try` catches a failing course listing and returns `{}`, the per-course
enrollment fetch is caught inside the loop and just skips the course. -/
def build_user_course_matrix (ctx : Ctx) : List (Nat × List (Nat × ℚ)) :=
  match ctx.client.get_site_courses with
  | Except.error _ => []
  | Except.ok all_courses =>
    let course_ids := (all_courses.filterMap (·.id)).filter (fun i => i ≠ 1)
    course_ids.foldl (fun matrix course_id =>
      match ctx.client.get_course_enrolled_users course_id with
      | Except.error _ => matrix
      | Except.ok enrolled_users =>
        enrolled_users.foldl (fun m user =>
          match user.id with
          | none => m
          | some 0 => m
          | some uid => aset m uid (aset ((aget m uid).getD []) course_id 1)) matrix) []

/-- CollaborativeRecommender._get_user_activities.  Total: its `try`
catches a failing completion fetch and returns the (still empty) map. -/
def get_user_activities (ctx : Ctx) (user_id course_id : Nat) : List (Nat × ℚ) :=
  match ctx.client.get_activities_completion_status user_id course_id with
  | Except.error _ => []
  | Except.ok none => []
  | Except.ok (some statuses) =>
    statuses.foldl (fun m st =>
      let activity_id := st.cmid.getD 0
      if activity_id = 0 then m
      else
        let engagement : ℚ :=
          (if st.state = some 1 then ACTIVITY_COMPLETION_WEIGHT else 0) +
          (if st.viewed.getD false then ACTIVITY_VIEW_WEIGHT else 0)
        if engagement > 0 then aset m activity_id engagement else m) []

/-- CollaborativeRecommender._calculate_user_similarity (pure in the
matrix; `math.sqrt` is the context oracle `sqrtq`).  The inner association
lists are built only through `aset`, so their keys are distinct and list
intersection coincides with the source's set intersection of dict keys. -/
def calculate_user_similarity (ctx : Ctx) (user_id : Nat)
    (all_users_matrix : List (Nat × List (Nat × ℚ))) : List (Nat × ℚ) :=
  match aget all_users_matrix user_id with
  | none => []
  | some user_courses =>
    if user_courses = [] then []
    else
      all_users_matrix.foldl (fun scores p =>
        if p.1 = user_id then scores
        else
          let other_courses := p.2
          let common_courses :=
            (user_courses.map (·.1)).filter (fun c => (aget other_courses c).isSome)
          if common_courses.length < MIN_COMMON_COURSES then scores
          else
            let dot_product := common_courses.foldl (fun s c =>
              s + ((aget user_courses c).getD 0) * ((aget other_courses c).getD 0)) 0
            let user_magnitude := ctx.sqrtq (user_courses.foldl (fun s q => s + q.2 * q.2) 0)
            let other_magnitude := ctx.sqrtq (other_courses.foldl (fun s q => s + q.2 * q.2) 0)
            if user_magnitude > 0 ∧ other_magnitude > 0 then
              let similarity := dot_product / (user_magnitude * other_magnitude)
              if SIMILARITY_THRESHOLD ≤ similarity then aset scores p.1 similarity
              else scores
            else scores) []

/-- The course-score accumulation over the top similar users
(lines 275-291): per similar user, record their course map and add
`similarity * rating` for every course the target neither holds nor is
the site course. -/
def collect_course_scores (user_course_matrix : List (Nat × List (Nat × ℚ)))
    (user_course_ids : List Nat) (top_similar_users : List (Nat × ℚ)) :
    List (Nat × ℚ) × List (Nat × List (Nat × ℚ)) :=
  top_similar_users.foldl
    (fun st su =>
      match aget user_course_matrix su.1 with
      | none => st
      | some user_enrolled_courses =>
        let suc := aset st.2 su.1 user_enrolled_courses
        let cs := user_enrolled_courses.foldl (fun cs q =>
          if q.1 ∉ user_course_ids ∧ q.1 ≠ 1 then addf cs q.1 (su.2 * q.2) else cs) st.1
        (cs, suc)) ([], [])

/-- The per-entry builder of the scored course-recommendation loop
(lines 298-326). -/
def course_step (ctx : Ctx) (course_map : List (Nat × Entity))
    (similar_user_courses : List (Nat × List (Nat × ℚ))) (p : Nat × ℚ) : Option Item :=
  match aget course_map p.1 with
  | none => none
  | some course_data =>
    let recommenders :=
      (similar_user_courses.filter (fun q => (aget q.2 p.1).isSome)).map (·.1)
    let recommender_count := recommenders.length
    let reason :=
      if recommender_count > 0 then
        "Recommended because " ++ toString recommender_count ++
          " similar users are enrolled in this course (score: " ++ ctx.fmt2 p.2 ++ ")"
      else "Collaborative recommendation (score: " ++ ctx.fmt2 p.2 ++ ")"
    some { entity := course_data, collaborative_score := some p.2,
           recommendation_reason := some reason }

/-- The fallback decoration of recommend_courses (lines 260-264). -/
def fallback_course_dec (p : Entity × Nat) : Item :=
  { entity := p.1,
    recommendation_reason := some "Recent course (no collaborative data available)" }

/-- Body of CollaborativeRecommender.recommend_courses (inside the outer
`try`). -/
def recommend_courses_body (ctx : Ctx) (user_id limit : Nat) : Except Unit (List Item) := do
  let user_course_matrix := build_user_course_matrix ctx
  let user_courses ← ctx.client.get_user_courses user_id
  let user_course_ids ← mapIdsE user_courses
  let similar_users := calculate_user_similarity ctx user_id user_course_matrix
  if similar_users = [] then do
    let all_courses ← ctx.client.get_site_courses
    let pairs ← pairIdsE all_courses
    let potential_courses := pairs.filter (fun p => decide (p.2 ∉ user_course_ids ∧ p.2 ≠ 1))
    let sorted_courses := pySortedByDesc (fun p => p.1.timecreated.getD 0) potential_courses
    Except.ok ((sorted_courses.take limit).map fallback_course_dec)
  else
    let top_similar_users := (pySortedByDesc (·.2) similar_users).take MAX_SIMILAR_USERS
    let st := collect_course_scores user_course_matrix user_course_ids top_similar_users
    let course_scores := st.1
    let similar_user_courses := st.2
    let all_courses ← ctx.client.get_site_courses
    let course_map ← courseMapE all_courses
    let recommendations := emitLoop limit
      (fun p => decide (p.2 < COURSE_SCORE_THRESHOLD))
      (course_step ctx course_map similar_user_courses)
      (pySortedByDesc (·.2) course_scores) []
    Except.ok recommendations

/-- CollaborativeRecommender.recommend_courses with its outer
`except Exception: return []` made explicit. -/
def recommend_coursesE (ctx : Ctx) (user_id limit : Nat) : Except Unit (List Item) :=
  match recommend_courses_body ctx user_id limit with
  | Except.ok r => Except.ok r
  | Except.error _ => Except.ok []

/-- CollaborativeRecommender.recommend_courses as seen by the caller. -/
def recommend_courses (ctx : Ctx) (user_id limit : Nat) : List Item :=
  match recommend_coursesE ctx user_id limit with
  | Except.ok r => r
  | Except.error _ => []

/-- The "top up with course-structure suggestions" block of
CollaborativeRecommender.recommend_activities (lines 443-459): when fewer
than `limit` scored recommendations exist, append activities (in course
content order) that are neither already recommended nor engaged by the
user, tagged with the fixed fallback reason and no collaborative score. -/
def pad_activity_recommendations (all_activities : List Entity)
    (user_activity_ids : List Nat) (recommendations : List Item) (limit : Nat) : List Item :=
  if recommendations.length < limit then
    let recommended_ids := recommendations.filterMap (fun r => r.entity.id)
    padLoop limit (fun a =>
      match a.id with
      | none => none
      | some i =>
        if i ∉ recommended_ids ∧ i ∉ user_activity_ids then
          some { entity := a,
                 recommendation_reason := some "Additional suggestion based on course structure" }
        else none) all_activities recommendations
  else recommendations

/-- The activity-score accumulation over the top similar users
(lines 404-418). -/
def collect_activity_scores (ctx : Ctx) (course_id : Nat) (user_activity_ids : List Nat)
    (top_similar_users : List (Nat × ℚ)) : List (Nat × ℚ) × List (Nat × Nat) :=
  top_similar_users.foldl
    (fun st su =>
      let similar_user_activities := get_user_activities ctx su.1 course_id
      similar_user_activities.foldl (fun st2 q =>
        if q.1 ∉ user_activity_ids then
          (addf st2.1 q.1 (su.2 * q.2), aset st2.2 q.1 (((aget st2.2 q.1).getD 0) + 1))
        else st2) st) ([], [])

/-- The per-entry builder of the scored activity loop (lines 420-441). -/
def activity_step (ctx : Ctx) (activity_map : List (Nat × Entity))
    (recommender_counts : List (Nat × Nat)) (p : Nat × ℚ) : Option Item :=
  match aget activity_map p.1 with
  | none => none
  | some activity_data =>
    let recommender_count := (aget recommender_counts p.1).getD 0
    some { entity := activity_data, collaborative_score := some p.2,
           recommendation_reason := some
             ("Recommended because " ++ toString recommender_count ++
               " similar users engaged with this activity (score: " ++
               ctx.fmt2 p.2 ++ ")") }

/-- The fallback decoration of recommend_activities (lines 389-393). -/
def fallback_activity_dec (a : Entity) : Item :=
  { entity := a,
    recommendation_reason := some "Suggested activity (no collaborative data available)" }

/-- Body of CollaborativeRecommender.recommend_activities (inside the
outer `try`). -/
def recommend_activities_body (ctx : Ctx) (user_id course_id limit : Nat) :
    Except Unit (List Item) := do
  let course_sections ← ctx.client.get_course_contents course_id
  let all_activities := flattenActivities course_sections
  let activity_map := (all_activities.filterMap (fun a => a.id.map (fun i => (i, a)))).foldl
    (fun m p => aset m p.1 p.2) []
  let user_activities := get_user_activities ctx user_id course_id
  let user_activity_ids := user_activities.map (·.1)
  let user_course_matrix := build_user_course_matrix ctx
  let similar_users := calculate_user_similarity ctx user_id user_course_matrix
  if similar_users = [] then
    let sorted_activities := pySortedBy (fun a => a.name.getD "")
      (all_activities.filter (fun a => a.id.all (fun i => decide (i ∉ user_activity_ids))))
    Except.ok ((sorted_activities.take limit).map fallback_activity_dec)
  else
    let top_similar_users := (pySortedByDesc (·.2) similar_users).take MAX_SIMILAR_USERS
    let st := collect_activity_scores ctx course_id user_activity_ids top_similar_users
    let activity_scores := st.1
    let recommender_counts := st.2
    let recommendations := emitLoop limit
      (fun p => decide (p.2 < ACTIVITY_SCORE_THRESHOLD))
      (activity_step ctx activity_map recommender_counts)
      (pySortedByDesc (·.2) activity_scores) []
    Except.ok (pad_activity_recommendations all_activities user_activity_ids recommendations limit)

/-- CollaborativeRecommender.recommend_activities with its outer
`except Exception: return []` made explicit. -/
def recommend_activitiesE (ctx : Ctx) (user_id course_id limit : Nat) :
    Except Unit (List Item) :=
  match recommend_activities_body ctx user_id course_id limit with
  | Except.ok r => Except.ok r
  | Except.error _ => Except.ok []

/-- CollaborativeRecommender.recommend_activities as seen by the caller. -/
def recommend_activities (ctx : Ctx) (user_id course_id limit : Nat) : List Item :=
  match recommend_activitiesE ctx user_id course_id limit with
  | Except.ok r => r
  | Except.error _ => []

end Collaborative

namespace ContentBased

/-- CONTENT_CONFIG of `content_based.py`. -/
def MIN_DESCRIPTION_LENGTH : Nat := 10
def SIMILARITY_THRESHOLD : ℚ := 1/10
def DEFAULT_SCORE : ℚ := 1
def ITEM_SCORE_THRESHOLD : ℚ := 1/5

/-- Inner accumulator of `_calculate_course_content_similarity` that walks
the candidate courses exactly as `for i, course_id in
enumerate(other_course_ids)`, reading column `i` of the similarity matrix
computed over the FILTERED candidate texts.  When short texts were dropped
by the length filter the indices are misaligned with the features, exactly
as in the source (`sims` holds one per-candidate max similarity per
filtered text, so position `i` need not belong to candidate `i`). -/
def course_similarity_scores (other_course_ids : List Nat)
    (other_courses_features : List CourseFeatures) (other_course_texts : List String)
    (user_course_tags : List String) (sims : List ℚ) : List (Nat × ℚ) :=
  ((other_course_ids.zip other_courses_features).enum).foldl (fun m p =>
    let i := p.1
    let course_id := p.2.1
    let features_i := p.2.2
    if i < other_course_texts.length then
      let max_sim : ℚ := if i < other_course_texts.length then sims.getD i 0 else 0
      if SIMILARITY_THRESHOLD ≤ max_sim then
        let m1 := aset m course_id max_sim
        let course_tags := features_i.tags.dedup
        let common_tags := course_tags.filter (fun t => decide (t ∈ user_course_tags))
        if common_tags ≠ [] then
          let tag_boost := min ((common_tags.length : ℚ) * (1/10)) (4/10)
          let original_score := (aget m1 course_id).getD 0
          aset m1 course_id (min (original_score + tag_boost) 1)
        else m1
      else m
    else m) []

/-- The user-side feature-collection loop of
`_calculate_course_content_similarity` (lines 215-221): look up each
enrolled course in the site list and extract its features, accumulating
the feature list and the insertion-ordered tag set. -/
def user_features_fold (ctx : Ctx) (all_courses : List Entity)
    (all_course_tags : List (Nat × List String)) :
    List Nat → (List CourseFeatures × List String) →
    Except Unit (List CourseFeatures × List String)
  | [], st => Except.ok st
  | course_id :: rest, st =>
    match all_courses.find? (fun c => c.id == some course_id) with
    | none => user_features_fold ctx all_courses all_course_tags rest st
    | some course_data =>
      match extract_course_features ctx course_data (some all_course_tags) with
      | Except.error e => Except.error e
      | Except.ok features =>
        user_features_fold ctx all_courses all_course_tags rest
          (st.1 ++ [features], setUnion st.2 features.tags)

/-- The candidate-side feature-collection loop of
`_calculate_course_content_similarity` (lines 234-239): every course with
a truthy id that the user does not hold and that is not the site course. -/
def other_features_fold (ctx : Ctx) (user_course_ids : List Nat)
    (all_course_tags : List (Nat × List String)) :
    List Entity → (List CourseFeatures × List Nat) →
    Except Unit (List CourseFeatures × List Nat)
  | [], st => Except.ok st
  | course :: rest, st =>
    match course.id with
    | none => other_features_fold ctx user_course_ids all_course_tags rest st
    | some 0 => other_features_fold ctx user_course_ids all_course_tags rest st
    | some cid =>
      if cid ∉ user_course_ids ∧ cid ≠ 1 then
        match extract_course_features ctx course (some all_course_tags) with
        | Except.error e => Except.error e
        | Except.ok features =>
          other_features_fold ctx user_course_ids all_course_tags rest
            (st.1 ++ [features], st.2 ++ [cid])
      else other_features_fold ctx user_course_ids all_course_tags rest st

/-- ContentBasedRecommender._calculate_course_content_similarity as an
`Except` computation; any raise is caught by the outer `except`, at which
point the score map is still empty, so the caught result is `{}`. -/
def calculate_course_content_similarityE (ctx : Ctx) (user_id : Nat)
    (all_courses : List Entity) : Except Unit (List (Nat × ℚ)) := do
  let user_courses ← ctx.client.get_user_courses user_id
  let user_course_ids ← mapIdsE user_courses
  if user_course_ids = [] then Except.ok []
  else do
    let all_course_tags ← ctx.client.get_all_course_tags
    let ufstate ← user_features_fold ctx all_courses all_course_tags user_course_ids ([], [])
    let user_course_features := ufstate.1
    let user_course_tags := ufstate.2
    if user_course_features = [] then Except.ok []
    else do
      let ofstate ← other_features_fold ctx user_course_ids all_course_tags all_courses ([], [])
      let other_courses_features := ofstate.1
      let other_course_ids := ofstate.2
      if other_courses_features = [] then Except.ok []
      else
        let user_course_texts := (user_course_features.map (·.content)).filter
          (fun t => decide (MIN_DESCRIPTION_LENGTH ≤ t.length))
        let other_course_texts := (other_courses_features.map (·.content)).filter
          (fun t => decide (MIN_DESCRIPTION_LENGTH ≤ t.length))
        if user_course_texts = [] ∨ other_course_texts = [] then Except.ok []
        else
          match ctx.tfidf_max_sim_courses user_course_texts other_course_texts with
          | Except.error _ => Except.ok []
          | Except.ok sims =>
            Except.ok (course_similarity_scores other_course_ids other_courses_features
              other_course_texts user_course_tags sims)

/-- The per-entry builder of the scored course-recommendation loop of
recommend_courses (lines 354-378); it refetches the course tags
individually, which may raise. -/
def course_step (ctx : Ctx) (course_map : List (Nat × Entity)) (p : Nat × ℚ) :
    Except Unit (Option Item) :=
  match aget course_map p.1 with
  | none => Except.ok none
  | some course_data =>
    match get_course_tags ctx p.1 none with
    | Except.error e => Except.error e
    | Except.ok ctags =>
      let reason0 := "This course has similar content to courses you\x27re enrolled in " ++
        "(similarity score: " ++ ctx.fmt2 p.2 ++ ")"
      let reason :=
        if ctags ≠ [] then
          reason0 ++ " and shares tags: " ++ String.intercalate ", " (ctags.take 3)
        else reason0
      Except.ok (some { entity := course_data,
                        content_similarity_score := some p.2,
                        tags := some ctags,
                        recommendation_reason := some reason })

/-- ContentBasedRecommender._calculate_course_content_similarity as seen
by its caller (total; every raise degrades to an empty score map). -/
def calculate_course_content_similarity (ctx : Ctx) (user_id : Nat)
    (all_courses : List Entity) : List (Nat × ℚ) :=
  match calculate_course_content_similarityE ctx user_id all_courses with
  | Except.ok m => m
  | Except.error _ => []

/-- Body of ContentBasedRecommender.recommend_courses (inside the outer
`try`).  Note the recency fallback returns the raw course records with no
`recommendation_reason` annotation. -/
def recommend_courses_body (ctx : Ctx) (user_id limit : Nat) : Except Unit (List Item) := do
  let all_courses ← ctx.client.get_site_courses
  let similarity_scores := calculate_course_content_similarity ctx user_id all_courses
  if similarity_scores = [] then do
    let user_courses ← ctx.client.get_user_courses user_id
    let user_course_ids ← mapIdsE user_courses
    let potential_courses := all_courses.filter (fun c =>
      match c.id with
      | none => false
      | some 0 => false
      | some i => decide (i ∉ user_course_ids ∧ i ≠ 1))
    let sorted_courses := pySortedByDesc (fun c => c.timecreated.getD 0) potential_courses
    Except.ok ((sorted_courses.take limit).map Item.ofEntity)
  else do
    let course_map := (all_courses.filterMap (fun c => c.id.map (fun i => (i, c)))).foldl
      (fun m p => aset m p.1 p.2) []
    let recommendations ← emitLoopM limit
      (fun p => decide (p.2 < ITEM_SCORE_THRESHOLD))
      (course_step ctx course_map)
      (pySortedByDesc (·.2) similarity_scores) []
    Except.ok recommendations

/-- ContentBasedRecommender.recommend_courses with its outer
`except Exception: return []` made explicit. -/
def recommend_coursesE (ctx : Ctx) (user_id limit : Nat) : Except Unit (List Item) :=
  match recommend_courses_body ctx user_id limit with
  | Except.ok r => Except.ok r
  | Except.error _ => Except.ok []

/-- ContentBasedRecommender.recommend_courses as seen by the caller. -/
def recommend_courses (ctx : Ctx) (user_id limit : Nat) : List Item :=
  match recommend_coursesE ctx user_id limit with
  | Except.ok r => r
  | Except.error _ => []

/-- The per-candidate similarity collection of recommend_activities
(lines 490-502): for every candidate position, look the candidate's
content up in the FILTERED text list (first occurrence) and keep the
corresponding max similarity when it reaches the item threshold. -/
def activity_similarity_scores (other_activities : List Nat)
    (other_features : List ActivityFeatures) (other_texts : List String)
    (sims : List ℚ) : List (Nat × ℚ) :=
  ((other_activities.zip other_features).enum).foldl
    (fun m p =>
      let i := p.1
      let aid := p.2.1
      let feat := p.2.2
      if i < other_texts.length ∧ MIN_DESCRIPTION_LENGTH ≤ feat.content.length then
        match other_texts.indexOf? feat.content with
        | none => m
        | some text_index =>
          if text_index < other_texts.length then
            let max_sim := sims.getD text_index 0
            if ITEM_SCORE_THRESHOLD ≤ max_sim then aset m aid max_sim else m
          else m
      else m) []

/-- The per-entry builder of the scored activity loop of
recommend_activities (lines 504-517). -/
def activity_step (activity_map : List (Nat × Entity)) (p : Nat × ℚ) : Option Item :=
  match aget activity_map p.1 with
  | none => none
  | some activity_data =>
    some { entity := activity_data, content_similarity_score := some p.2,
           recommendation_reason := some "Similar to activities you\x27ve engaged with" }

/-- The "top up in section order" block of recommend_activities
(lines 519-534). -/
def pad_activity_recs (all_activities : List Entity) (engaged_ids : List Nat)
    (recommendations : List Item) (limit : Nat) : List Item :=
  if recommendations.length < limit then
    let recommended_ids := recommendations.filterMap (fun r => r.entity.id)
    padLoop limit (fun a =>
      match a.id with
      | none => none
      | some i =>
        if i ∉ recommended_ids ∧ i ∉ engaged_ids then
          some { entity := a,
                 recommendation_reason := some "Suggested based on course structure" }
        else none) all_activities recommendations
  else recommendations

/-- Completed/viewed split of the completion statuses
(content_based.recommend_activities lines 424-433). -/
def completion_split (completion_data : Option (List CmStatus)) : List Nat × List Nat :=
  match completion_data with
  | none => ([], [])
  | some statuses => statuses.foldl (fun st s =>
      let activity_id := s.cmid.getD 0
      if activity_id = 0 then st
      else if s.state = some 1 then (st.1 ++ [activity_id], st.2)
      else if s.viewed.getD false then (st.1, st.2 ++ [activity_id])
      else st) ([], [])

/-- The engaged-activity list of recommend_activities (line 440):
completed ids first, then viewed-but-not-completed ids. -/
def engaged_of (completion_data : Option (List CmStatus)) : List Nat :=
  let cs := completion_split completion_data
  cs.1 ++ cs.2.filter (fun a => decide (a ∉ cs.1))

/-- Body of ContentBasedRecommender.recommend_activities (inside the outer
`try`).  The three section-order fallbacks return raw activity records
without a `recommendation_reason`. -/
def recommend_activities_body (ctx : Ctx) (user_id course_id limit : Nat) :
    Except Unit (List Item) := do
  let course_sections ← ctx.client.get_course_contents course_id
  let all_activities := flattenActivities course_sections
  let activity_map := (all_activities.filterMap (fun a => a.id.map (fun i => (i, a)))).foldl
    (fun m p => aset m p.1 p.2) []
  let completion_data ← ctx.client.get_activities_completion_status user_id course_id
  let engaged_activities := engaged_of completion_data
  if engaged_activities = [] then
    Except.ok ((all_activities.take limit).map Item.ofEntity)
  else
    let activity_features := all_activities.foldl (fun m a =>
      match a.id with
      | none => m
      | some 0 => m
      | some aid => aset m aid (extract_activity_features ctx a)) []
    let dflt : ActivityFeatures := { id := 0, content := "", module_name := "" }
    let engaged_features := engaged_activities.map (fun aid =>
      (aget activity_features aid).getD dflt)
    let engaged_texts := (engaged_features.map (·.content)).filter
      (fun t => decide (MIN_DESCRIPTION_LENGTH ≤ t.length))
    let other_activities := (activity_map.map (·.1)).filter
      (fun aid => decide (aid ∉ engaged_activities))
    let other_features := other_activities.map (fun aid =>
      (aget activity_features aid).getD dflt)
    let other_texts := (other_features.map (·.content)).filter
      (fun t => decide (MIN_DESCRIPTION_LENGTH ≤ t.length))
    if engaged_texts = [] ∨ other_texts = [] then
      Except.ok (((all_activities.filter
        (fun a => a.id.all (fun i => decide (i ∉ engaged_activities)))).take limit).map
          Item.ofEntity)
    else
      match ctx.tfidf_max_sim_activities engaged_texts other_texts with
      | Except.error _ =>
        Except.ok (((all_activities.filter
          (fun a => a.id.all (fun i => decide (i ∉ engaged_activities)))).take limit).map
            Item.ofEntity)
      | Except.ok sims =>
        let similarity_scores := activity_similarity_scores other_activities
          other_features other_texts sims
        let recommendations := emitLoop limit (fun _ => false)
          (activity_step activity_map)
          (pySortedByDesc (·.2) similarity_scores) []
        Except.ok (pad_activity_recs all_activities engaged_activities recommendations limit)

/-- ContentBasedRecommender.recommend_activities with its outer
`except Exception: return []` made explicit. -/
def recommend_activitiesE (ctx : Ctx) (user_id course_id limit : Nat) :
    Except Unit (List Item) :=
  match recommend_activities_body ctx user_id course_id limit with
  | Except.ok r => Except.ok r
  | Except.error _ => Except.ok []

/-- ContentBasedRecommender.recommend_activities as seen by the caller. -/
def recommend_activities (ctx : Ctx) (user_id course_id limit : Nat) : List Item :=
  match recommend_activitiesE ctx user_id course_id limit with
  | Except.ok r => r
  | Except.error _ => []

end ContentBased

namespace InterestsBased

/-- INTERESTS_CONFIG of `interests_based.py`. -/
def MIN_DESCRIPTION_LENGTH : Nat := 10
def ITEM_SCORE_THRESHOLD : ℚ := 1/5
def DIRECT_INTEREST_MATCH_WEIGHT : ℚ := 2
def TAG_MATCH_WEIGHT : ℚ := 3/2
def CONTENT_SIMILARITY_WEIGHT : ℚ := 1

/-- The feature-collection loop of `_calculate_interest_course_matches`
(lines 250-254): every course with a truthy id other than the site
course, keyed by id. -/
def interest_features_fold (ctx : Ctx) (all_course_tags : Option (List (Nat × List String))) :
    List Entity → List (Nat × CourseFeatures) → Except Unit (List (Nat × CourseFeatures))
  | [], m => Except.ok m
  | course :: rest, m =>
    match course.id with
    | none => interest_features_fold ctx all_course_tags rest m
    | some 0 => interest_features_fold ctx all_course_tags rest m
    | some cid =>
      if cid ≠ 1 then
        match extract_course_features ctx course all_course_tags with
        | Except.error e => Except.error e
        | Except.ok features => interest_features_fold ctx all_course_tags rest (aset m cid features)
      else interest_features_fold ctx all_course_tags rest m

/-- Per-course loop body of `_calculate_interest_course_matches`
(lines 259-302): the three signals accumulated sequentially — a flat
weight per interest found verbatim in the content, a flat weight per
(interest, tag) pair whose cleaned forms substring-match in either
direction, and the weighted one-on-one cosine similarity (whose own
`try` drops the contribution on an exception). -/
def interest_course_score (ctx : Ctx) (user_interests : List String)
    (interest_text : String) (features : CourseFeatures) : ℚ :=
  let course_content := features.content
  let course_tags := features.tags
  let s1 := user_interests.foldl (fun s interest =>
    let clean_interest := ctx.clean_text interest
    if clean_interest ≠ "" ∧ pyIn clean_interest course_content then
      s + DIRECT_INTEREST_MATCH_WEIGHT
    else s) 0
  let s2 := user_interests.foldl (fun s interest =>
    let clean_interest := ctx.clean_text interest
    course_tags.foldl (fun s2 tag =>
      let clean_tag := ctx.clean_text tag
      if clean_interest ≠ "" ∧ clean_tag ≠ "" ∧
          (pyIn clean_interest clean_tag ∨ pyIn clean_tag clean_interest) then
        s2 + TAG_MATCH_WEIGHT
      else s2) s) s1
  if course_content ≠ "" ∧ interest_text ≠ "" then
    match ctx.pair_cosine interest_text course_content with
    | Except.ok cosine_sim => s2 + cosine_sim * CONTENT_SIMILARITY_WEIGHT
    | Except.error _ => s2
  else s2

/-- The scoring rule as the specification words it (one flat tag weight per
INTEREST that substring-matches some course tag, rather than one per
matching (interest, tag) pair).  Modelled from the spec text alone, for
comparison against the implemented `interest_course_score`. -/
def interest_course_score_spec_per_interest (ctx : Ctx) (user_interests : List String)
    (interest_text : String) (features : CourseFeatures) : ℚ :=
  DIRECT_INTEREST_MATCH_WEIGHT *
    ((user_interests.filter (fun interest =>
      decide (ctx.clean_text interest ≠ "" ∧
        pyIn (ctx.clean_text interest) features.content))).length : ℚ) +
  TAG_MATCH_WEIGHT *
    ((user_interests.filter (fun interest =>
      decide (ctx.clean_text interest ≠ "" ∧ ∃ tag ∈ features.tags,
        ctx.clean_text tag ≠ "" ∧
        (pyIn (ctx.clean_text interest) (ctx.clean_text tag) ∨
         pyIn (ctx.clean_text tag) (ctx.clean_text interest))))).length : ℚ) +
  (if features.content ≠ "" ∧ interest_text ≠ "" then
    match ctx.pair_cosine interest_text features.content with
    | Except.ok cosine_sim => cosine_sim * CONTENT_SIMILARITY_WEIGHT
    | Except.error _ => 0
  else 0)

/-- InterestsBasedRecommender._calculate_interest_course_matches as an
`Except` computation (a raise can only come from the per-course tag fetch
inside feature extraction, before any score is recorded). -/
def calculate_interest_course_matchesE (ctx : Ctx) (user_id : Nat)
    (all_courses : List Entity) (all_course_tags : Option (List (Nat × List String))) :
    Except Unit (List (Nat × ℚ)) := do
  let user_interests := ctx.user_interests user_id
  if user_interests = [] then Except.ok []
  else do
    let interest_text := String.intercalate " " (user_interests.map ctx.clean_text)
    let course_features ← interest_features_fold ctx all_course_tags all_courses []
    Except.ok (course_features.foldl (fun m p =>
      if p.2.content.length < MIN_DESCRIPTION_LENGTH then m
      else
        let match_score := interest_course_score ctx user_interests interest_text p.2
        if match_score > ITEM_SCORE_THRESHOLD then aset m p.1 (min match_score 5)
        else m) [])

/-- InterestsBasedRecommender._calculate_interest_course_matches as seen
by its caller (total; its outer `except` returns the — still empty —
score map). -/
def calculate_interest_course_matches (ctx : Ctx) (user_id : Nat)
    (all_courses : List Entity) (all_course_tags : Option (List (Nat × List String))) :
    List (Nat × ℚ) :=
  match calculate_interest_course_matchesE ctx user_id all_courses all_course_tags with
  | Except.ok m => m
  | Except.error _ => []

/-- The matching-interest collection of the course-recommendation loop
(lines 392-405): interests appearing in the cleaned title+summary, plus
interests substring-matching a tag (appended once). -/
def matching_interests_for (ctx : Ctx) (user_interests : List String)
    (course_content : String) (course_tags : List String) : List String :=
  user_interests.foldl (fun acc interest =>
    let clean_interest := ctx.clean_text interest
    let acc1 := if pyIn clean_interest course_content then acc ++ [interest] else acc
    course_tags.foldl (fun acc2 tag =>
      let clean_tag := ctx.clean_text tag
      if pyIn clean_interest clean_tag ∨ pyIn clean_tag clean_interest then
        if interest ∉ acc2 then acc2 ++ [interest] else acc2
      else acc2) acc1) []

/-- Per-entry builder of the scored course loop of recommend_courses
(lines 381-416). -/
def course_rec_step (ctx : Ctx) (user_id : Nat) (all_course_tags : List (Nat × List String))
    (course_map : List (Nat × Entity)) (p : Nat × ℚ) : Except Unit (Option Item) :=
  match aget course_map p.1 with
  | none => Except.ok none
  | some course_data => do
    let course_tags ← get_course_tags ctx p.1 (some all_course_tags)
    let user_interests := ctx.user_interests user_id
    let course_content := ctx.clean_text
      ((course_data.fullname.getD "") ++ " " ++ (course_data.summary.getD ""))
    let matching_interests :=
      matching_interests_for ctx user_interests course_content course_tags
    let reason :=
      if matching_interests ≠ [] then
        "Matches your interests: " ++ String.intercalate ", " matching_interests ++
          " (score: " ++ ctx.fmt2 p.2 ++ ")"
      else "Content related to your interests (score: " ++ ctx.fmt2 p.2 ++ ")"
    Except.ok (some { entity := course_data,
                      interest_match_score := some p.2,
                      recommendation_reason := some reason,
                      tags := some course_tags })

/-- Body of InterestsBasedRecommender.recommend_courses (inside the outer
`try`). -/
def recommend_courses_body (ctx : Ctx) (user_id limit : Nat) : Except Unit (List Item) := do
  let all_courses ← ctx.client.get_site_courses
  let user_courses ← ctx.client.get_user_courses user_id
  let user_course_ids ← mapIdsE user_courses
  let all_course_tags ← ctx.client.get_all_course_tags
  let interest_match_scores :=
    calculate_interest_course_matches ctx user_id all_courses (some all_course_tags)
  if interest_match_scores = [] then
    let potential_courses := all_courses.filter (fun c =>
      match c.id with
      | none => false
      | some 0 => false
      | some i => decide (i ∉ user_course_ids ∧ i ≠ 1))
    let sorted_courses := pySortedByDesc (fun c => c.timecreated.getD 0) potential_courses
    Except.ok ((sorted_courses.take limit).map (fun c =>
      { entity := c, recommendation_reason := some "Recent course (no interest matches found)" }))
  else do
    let course_map := (all_courses.filterMap (fun c => c.id.map (fun i => (i, c)))).foldl
      (fun m p => aset m p.1 p.2) []
    let recommendations ← emitLoopM limit
      (fun p => decide (p.1 ∈ user_course_ids))
      (course_rec_step ctx user_id all_course_tags course_map)
      (pySortedByDesc (·.2) interest_match_scores) []
    Except.ok recommendations

/-- InterestsBasedRecommender.recommend_courses with its outer
`except Exception: return []` made explicit. -/
def recommend_coursesE (ctx : Ctx) (user_id limit : Nat) : Except Unit (List Item) :=
  match recommend_courses_body ctx user_id limit with
  | Except.ok r => Except.ok r
  | Except.error _ => Except.ok []

/-- InterestsBasedRecommender.recommend_courses as seen by the caller. -/
def recommend_courses (ctx : Ctx) (user_id limit : Nat) : List Item :=
  match recommend_coursesE ctx user_id limit with
  | Except.ok r => r
  | Except.error _ => []

/-- Per-activity interest score of recommend_activities (lines 498-542):
direct keyword weight plus weighted one-on-one cosine similarity. -/
def interest_activity_score (ctx : Ctx) (user_interests : List String)
    (interest_text activity_content : String) : ℚ :=
  let s1 := user_interests.foldl (fun s interest =>
    let clean_interest := ctx.clean_text interest
    if clean_interest ≠ "" ∧ pyIn clean_interest activity_content then
      s + DIRECT_INTEREST_MATCH_WEIGHT
    else s) 0
  if activity_content ≠ "" ∧ interest_text ≠ "" then
    match ctx.pair_cosine interest_text activity_content with
    | Except.ok cosine_sim => s1 + cosine_sim * CONTENT_SIMILARITY_WEIGHT
    | Except.error _ => s1
  else s1

/-- Per-entry builder of the scored activity loop of recommend_activities
(lines 558-585): activities whose looked-up score is positive get
annotated; the rest are dropped. -/
def activity_rec_step (ctx : Ctx) (user_interests : List String)
    (activity_scores : List (Nat × ℚ)) (a : Entity) : Option Item :=
  let aid := a.id.getD 0
  let score := (aget activity_scores aid).getD 0
  if score > 0 then
    let activity_content := ctx.clean_text
      ((a.name.getD "") ++ " " ++ (a.description.getD ""))
    let matching_interests := user_interests.filter
      (fun interest => decide (pyIn (ctx.clean_text interest) activity_content))
    let reason :=
      if matching_interests ≠ [] then
        "Matches your interests: " ++ String.intercalate ", " matching_interests ++
          " (score: " ++ ctx.fmt2 score ++ ")"
      else "Content related to your interests (score: " ++ ctx.fmt2 score ++ ")"
    some { entity := a, interest_match_score := some score,
           recommendation_reason := some reason }
  else none

/-- The "top up in section order" block of recommend_activities
(lines 587-601). -/
def pad_interest_acts (all_activities : List Entity) (completed_activities : List Nat)
    (result : List Item) (limit : Nat) : List Item :=
  if result.length < limit then
    let recommended_ids := result.map (fun r => r.entity.id.getD 0)
    padLoop limit (fun a =>
      let activity_id := a.id.getD 0
      if activity_id ∉ recommended_ids ∧ activity_id ∉ completed_activities then
        some { entity := a,
               recommendation_reason := some "Suggested based on course structure" }
      else none) all_activities result
  else result

/-- Body of InterestsBasedRecommender.recommend_activities (inside the
outer `try`).  With no stated interests it returns the course's activities
in section order, unannotated and with no exclusion of completed ones. -/
def recommend_activities_body (ctx : Ctx) (user_id course_id limit : Nat) :
    Except Unit (List Item) := do
  let user_interests := ctx.user_interests user_id
  if user_interests = [] then do
    let course_sections ← ctx.client.get_course_contents course_id
    let all_activities := flattenActivities course_sections
    Except.ok ((all_activities.take limit).map Item.ofEntity)
  else do
    let course_sections ← ctx.client.get_course_contents course_id
    let all_activities := flattenActivities course_sections
    let completion_data ← ctx.client.get_activities_completion_status user_id course_id
    let completed_activities := completedActivityIds completion_data
    let potential_activities := all_activities.filter (fun a =>
      a.id.all (fun i => decide (i ∉ completed_activities)))
    let interest_text := String.intercalate " " (user_interests.map ctx.clean_text)
    let activity_scores := potential_activities.foldl (fun m a =>
      match a.id with
      | none => m
      | some 0 => m
      | some aid =>
        let activity_content := ctx.clean_text
          ((a.name.getD "") ++ " " ++ (a.description.getD "") ++ " " ++ (a.modname.getD ""))
        if activity_content.length < MIN_DESCRIPTION_LENGTH then m
        else
          let match_score := interest_activity_score ctx user_interests interest_text
            activity_content
          if match_score > ITEM_SCORE_THRESHOLD then aset m aid (min match_score 5)
          else m) []
    let sorted_activities := pySortedByDesc
      (fun a => (aget activity_scores (a.id.getD 0)).getD 0) potential_activities
    let result := emitLoop limit (fun _ => false)
      (activity_rec_step ctx user_interests activity_scores) sorted_activities []
    Except.ok (pad_interest_acts all_activities completed_activities result limit)

/-- InterestsBasedRecommender.recommend_activities with its outer
`except Exception: return []` made explicit. -/
def recommend_activitiesE (ctx : Ctx) (user_id course_id limit : Nat) :
    Except Unit (List Item) :=
  match recommend_activities_body ctx user_id course_id limit with
  | Except.ok r => Except.ok r
  | Except.error _ => Except.ok []

/-- InterestsBasedRecommender.recommend_activities as seen by the caller. -/
def recommend_activities (ctx : Ctx) (user_id course_id limit : Nat) : List Item :=
  match recommend_activitiesE ctx user_id course_id limit with
  | Except.ok r => r
  | Except.error _ => []

end InterestsBased

namespace Hybrid

/-- HYBRID_CONFIG of `hybrid.py` (SCORE_NORMALIZATION is `True`, so the
combination step always reads `normalized_score`). -/
def CONTENT_BASED_WEIGHT : ℚ := 1/4
def COLLABORATIVE_WEIGHT : ℚ := 1/4
def POPULARITY_WEIGHT : ℚ := 3/20
def INTERESTS_BASED_WEIGHT : ℚ := 7/20
def MIN_RECOMMENDATION_SCORE : ℚ := 1/10
def DEFAULT_SCORE_VALUE : ℚ := 1/2

/-- The four score keys `_normalize_scores` recognises, in probe order. -/
inductive ScoreKey
  | content
  | collab
  | pop
  | interest
deriving DecidableEq, Repr

/-- Read the dict entry a score key denotes. -/
def ScoreKey.get : ScoreKey → Item → Option ℚ
  | ScoreKey.content, r => r.content_similarity_score
  | ScoreKey.collab, r => r.collaborative_score
  | ScoreKey.pop, r => r.popularity_score
  | ScoreKey.interest, r => r.interest_match_score

/-- Score-key detection of `_normalize_scores`: the four recognised keys
are probed, in order, on the FIRST entry of the source list only. -/
def detect_score_key (recs : List Item) : Option ScoreKey :=
  match recs with
  | [] => none
  | r :: _ =>
    if r.content_similarity_score.isSome then some ScoreKey.content
    else if r.collaborative_score.isSome then some ScoreKey.collab
    else if r.popularity_score.isSome then some ScoreKey.pop
    else if r.interest_match_score.isSome then some ScoreKey.interest
    else none

/-- Per-source body of HybridRecommender._normalize_scores: rescale the
observed scores (`rec.get(score_key, 0)`) linearly by the source's own
min/max, with the range forced to 1 when max equals min, writing the
result into `normalized_score`; sources without a recognised score key on
their first entry pass through unmodified. -/
def normalize_source (recs : List Item) : List Item :=
  if recs = [] then []
  else
    match detect_score_key recs with
    | none => recs
    | some key =>
      let scores := recs.map (fun r => (key.get r).getD 0)
      let min_score := pyMin scores 0
      let max_score := pyMax scores 1
      let score_range0 := max_score - min_score
      let score_range := if score_range0 = 0 then 1 else score_range0
      recs.map (fun r =>
        { r with normalized_score := some (((key.get r).getD 0 - min_score) / score_range) })

/-- HybridRecommender._normalize_scores. -/
def normalize_scores (recommendations_list : List (List Item)) : List (List Item) :=
  recommendations_list.map normalize_source

/-- Accumulator of the four source-processing loops of
`_combine_recommendations`. -/
structure CombineState where
  combined_scores : List (Nat × ℚ)
  item_sources : List (Nat × List (String × ℚ))
  item_data : List (Nat × Item)
deriving Repr

/-- One source-processing loop of `_combine_recommendations`: skip entries
without a truthy id, accumulate `normalized_score` (default 0.5) times the
source weight, record the per-source contribution, and keep the first-seen
record as the entity payload. -/
def process_source (weight : ℚ) (source_name : String) (recs : List Item)
    (st : CombineState) : CombineState :=
  recs.foldl (fun st rec =>
    match rec.entity.id with
    | none => st
    | some 0 => st
    | some item_id =>
      let score := rec.normalized_score.getD DEFAULT_SCORE_VALUE
      { combined_scores := addf st.combined_scores item_id (score * weight),
        item_sources := aset st.item_sources item_id
          (((aget st.item_sources item_id).getD []) ++ [(source_name, score)]),
        item_data :=
          if (aget st.item_data item_id).isSome then st.item_data
          else aset st.item_data item_id rec }) st

/-- The last-write-wins extraction of one source type's contribution from
the `sources` list (lines 255-263). -/
def contribution_of (sources : List (String × ℚ)) (source_name : String) : ℚ :=
  sources.foldl (fun v s => if s.1 = source_name then s.2 else v) 0

/-- Per-entry builder of the final loop of `_combine_recommendations`
(lines 227-292): look the payload up, attach the hybrid score, and when
per-source contributions were recorded rewrite the reason and sources. -/
def combine_step (ctx : Ctx) (st : CombineState) (p : Nat × ℚ) : Option Item :=
  match aget st.item_data p.1 with
  | none => none
  | some base =>
    let item0 := { base with hybrid_score := some p.2 }
    let sources := (aget st.item_sources p.1).getD []
    if sources ≠ [] then
      let interests_contribution := contribution_of sources "interests-based"
      let content_contribution := contribution_of sources "content-based"
      let collaborative_contribution := contribution_of sources "collaborative"
      let popularity_contribution := contribution_of sources "popularity"
      let source_descriptions := sources.map (fun s =>
        s.1 ++ " (" ++ ctx.fmt2 s.2 ++ ")")
      let main_reason :=
        if interests_contribution > 0 ∧
            pyIn "interests" ((base.recommendation_reason.getD "").toLower) then
          base.recommendation_reason.getD ""
        else
          let contributions : List (ℚ × String) :=
            [(interests_contribution * INTERESTS_BASED_WEIGHT, "matches your interests"),
             (content_contribution * CONTENT_BASED_WEIGHT,
               "has similar content to courses you\x27re taking"),
             (collaborative_contribution * COLLABORATIVE_WEIGHT,
               "is popular with similar users"),
             (popularity_contribution * POPULARITY_WEIGHT, "is highly rated overall")]
          let top_reason := match contributions with
            | [] => ((0 : ℚ), "")
            | c :: rest =>
              rest.foldl (fun (best x : ℚ × String) =>
                if best.1 < x.1 then x else best) c
          "Primarily recommended because it " ++ top_reason.2
      some { item0 with
             recommendation_reason :=
               some (main_reason ++ " (hybrid score: " ++ ctx.fmt2 p.2 ++ ")"),
             recommendation_sources := some source_descriptions,
             tags := base.tags }
    else some item0

/-- The nested four-source accumulation of `_combine_recommendations`,
applied to the already-normalized source lists. -/
def combined_state (cb co po ib : List Item) : CombineState :=
  process_source INTERESTS_BASED_WEIGHT "interests-based" ib
    (process_source POPULARITY_WEIGHT "popularity" po
      (process_source COLLABORATIVE_WEIGHT "collaborative" co
        (process_source CONTENT_BASED_WEIGHT "content-based" cb
          { combined_scores := [], item_sources := [], item_data := [] })))

/-- HybridRecommender._combine_recommendations. -/
def combine_recommendations (ctx : Ctx)
    (content_based_recs collaborative_recs popularity_recs interests_based_recs : List Item)
    (limit : Nat) : List Item :=
  let n := normalize_scores
    [content_based_recs, collaborative_recs, popularity_recs, interests_based_recs]
  let st := combined_state (n.getD 0 []) (n.getD 1 []) (n.getD 2 []) (n.getD 3 [])
  let sorted_items := pySortedByDesc (·.2) st.combined_scores
  emitLoop limit (fun p => decide (p.2 < MIN_RECOMMENDATION_SCORE))
    (combine_step ctx st) sorted_items []

/-- Body of HybridRecommender.recommend_courses (inside the outer `try`):
the tag pre-fetch is the only direct client call and the only possible
raise (the four sub-recommenders catch at their own boundary). -/
def recommend_courses_body (ctx : Ctx) (user_id limit : Nat) : Except Unit (List Item) := do
  let extended_limit := limit * 2
  let _ ← ctx.client.get_all_course_tags
  let content_based_recs := ContentBased.recommend_courses ctx user_id extended_limit
  let collaborative_recs := Collaborative.recommend_courses ctx user_id extended_limit
  let popularity_recs := Popular.recommend_courses ctx user_id extended_limit
  let interests_based_recs := InterestsBased.recommend_courses ctx user_id extended_limit
  Except.ok (combine_recommendations ctx content_based_recs collaborative_recs
    popularity_recs interests_based_recs limit)

/-- HybridRecommender.recommend_courses with its `except` fallback chain
(interests-based, then popularity-based) made explicit; the fallback's own
`try` cannot raise because both sub-recommenders are total. -/
def recommend_coursesE (ctx : Ctx) (user_id limit : Nat) : Except Unit (List Item) :=
  match recommend_courses_body ctx user_id limit with
  | Except.ok r => Except.ok r
  | Except.error _ =>
    let interests_recs := InterestsBased.recommend_courses ctx user_id limit
    if interests_recs ≠ [] then Except.ok interests_recs
    else Except.ok (Popular.recommend_courses ctx user_id limit)

/-- HybridRecommender.recommend_courses as seen by the caller. -/
def recommend_courses (ctx : Ctx) (user_id limit : Nat) : List Item :=
  match recommend_coursesE ctx user_id limit with
  | Except.ok r => r
  | Except.error _ => []

/-- Body of HybridRecommender.recommend_activities (inside the outer
`try`): only sub-recommender calls, all total, so it cannot raise. -/
def recommend_activities_body (ctx : Ctx) (user_id course_id limit : Nat) :
    Except Unit (List Item) := do
  let extended_limit := limit * 2
  let content_based_recs := ContentBased.recommend_activities ctx user_id course_id extended_limit
  let collaborative_recs := Collaborative.recommend_activities ctx user_id course_id extended_limit
  let popularity_recs := Popular.recommend_activities ctx user_id course_id extended_limit
  let interests_based_recs :=
    InterestsBased.recommend_activities ctx user_id course_id extended_limit
  Except.ok (combine_recommendations ctx content_based_recs collaborative_recs
    popularity_recs interests_based_recs limit)

/-- HybridRecommender.recommend_activities with its `except` fallback
chain (interests-based, then content-based) made explicit. -/
def recommend_activitiesE (ctx : Ctx) (user_id course_id limit : Nat) :
    Except Unit (List Item) :=
  match recommend_activities_body ctx user_id course_id limit with
  | Except.ok r => Except.ok r
  | Except.error _ =>
    let interests_recs := InterestsBased.recommend_activities ctx user_id course_id limit
    if interests_recs ≠ [] then Except.ok interests_recs
    else Except.ok (ContentBased.recommend_activities ctx user_id course_id limit)

/-- HybridRecommender.recommend_activities as seen by the caller. -/
def recommend_activities (ctx : Ctx) (user_id course_id limit : Nat) : List Item :=
  match recommend_activitiesE ctx user_id course_id limit with
  | Except.ok r => r
  | Except.error _ => []

end Hybrid

/-- The five strategies of the dispatcher (`recommendation_types` in
`main.py` / `recommenders/__init__.py`). -/
inductive Strategy
  | popular
  | collaborative
  | content_based
  | interests_based
  | hybrid
deriving DecidableEq, Repr

/-- Dispatch of `recommend_courses` over the strategy table. -/
def recommendCourses : Strategy → Ctx → Nat → Nat → List Item
  | Strategy.popular => Popular.recommend_courses
  | Strategy.collaborative => Collaborative.recommend_courses
  | Strategy.content_based => ContentBased.recommend_courses
  | Strategy.interests_based => InterestsBased.recommend_courses
  | Strategy.hybrid => Hybrid.recommend_courses

/-- Dispatch of `recommend_activities` over the strategy table. -/
def recommendActivities : Strategy → Ctx → Nat → Nat → Nat → List Item
  | Strategy.popular => Popular.recommend_activities
  | Strategy.collaborative => Collaborative.recommend_activities
  | Strategy.content_based => ContentBased.recommend_activities
  | Strategy.interests_based => InterestsBased.recommend_activities
  | Strategy.hybrid => Hybrid.recommend_activities

/-- Dispatch of the `Except`-level course entry points (the public method
with the final catch/fallback made explicit). -/
def recommendCoursesE : Strategy → Ctx → Nat → Nat → Except Unit (List Item)
  | Strategy.popular => Popular.recommend_coursesE
  | Strategy.collaborative => Collaborative.recommend_coursesE
  | Strategy.content_based => ContentBased.recommend_coursesE
  | Strategy.interests_based => InterestsBased.recommend_coursesE
  | Strategy.hybrid => Hybrid.recommend_coursesE

/-- Dispatch of the `Except`-level activity entry points. -/
def recommendActivitiesE : Strategy → Ctx → Nat → Nat → Nat → Except Unit (List Item)
  | Strategy.popular => Popular.recommend_activitiesE
  | Strategy.collaborative => Collaborative.recommend_activitiesE
  | Strategy.content_based => ContentBased.recommend_activitiesE
  | Strategy.interests_based => InterestsBased.recommend_activitiesE
  | Strategy.hybrid => Hybrid.recommend_activitiesE

/-- The strategy-specific score field of a course recommendation. -/
def Strategy.courseScoreField : Strategy → Item → Option ℚ
  | Strategy.popular => fun r => r.popularity_score
  | Strategy.collaborative => fun r => r.collaborative_score
  | Strategy.content_based => fun r => r.content_similarity_score
  | Strategy.interests_based => fun r => r.interest_match_score
  | Strategy.hybrid => fun r => r.hybrid_score

/-- The strategy-specific score field of an activity recommendation. -/
def Strategy.activityScoreField : Strategy → Item → Option ℚ
  | Strategy.popular => fun r => r.engagement_score
  | Strategy.collaborative => fun r => r.collaborative_score
  | Strategy.content_based => fun r => r.content_similarity_score
  | Strategy.interests_based => fun r => r.interest_match_score
  | Strategy.hybrid => fun r => r.hybrid_score

/-- Non-increasing score fields along a returned list: any two entries in
list order that both carry the given score field have the earlier one's
value at least the later one's. -/
def ScoresDesc (f : Item → Option ℚ) (l : List Item) : Prop :=
  l.Pairwise (fun a b => ∀ x y, f a = some x → f b = some y → y ≤ x)

namespace Witness

/-- Concrete course record for the evaluation scenarios. -/
def course (i : Nat) (tc : Int) (fn : String) : Entity :=
  { id := some i, timecreated := some tc, fullname := some fn }

/-- Concrete activity record for the evaluation scenarios. -/
def act (i : Nat) (nm : String) : Entity := { id := some i, name := some nm }

/-- Scenario 1: target user 10 holds course 2; user 20 holds courses
2,3,4,5; so their cosine similarity is 1/sqrt(4) = 1/2 and courses 3,4,5
are collaborative candidates at score 1/2 each. -/
def client1 : MoodleClient :=
  { get_site_courses :=
      Except.ok [course 2 0 "a2", course 3 0 "a3", course 4 0 "a4", course 5 0 "a5"],
    get_user_courses := fun u => Except.ok (if u = 10 then [course 2 0 "a2"] else []),
    get_course_contents := fun _ => Except.ok [],
    get_course_enrolled_users := fun c =>
      Except.ok (if c = 2 then [{ id := some 10 }, { id := some 20 }]
        else if c = 3 ∨ c = 4 ∨ c = 5 then [{ id := some 20 }] else []),
    get_activities_completion_status := fun _ _ => Except.ok none,
    get_course_tags := fun _ => Except.ok [],
    get_all_course_tags := Except.ok [] }

/-- Context for scenario 1.  `sqrtq` returns the exact value `math.sqrt`
produces on the two sums of squares that occur (1 and 4). -/
def ctx1 : Ctx :=
  { client := client1, user_interests := fun _ => [], clean_text := id,
    tfidf_max_sim_courses := fun _ _ => Except.ok [],
    tfidf_max_sim_activities := fun _ _ => Except.ok [],
    pair_cosine := fun _ _ => Except.ok 0,
    sqrtq := fun q => if q = 1 then 1 else if q = 4 then 2 else 0,
    fmt2 := fun _ => "s", now := 1000000000 }

/-- Scenario 2: course 2 has activities 7 and 8; user 10 has VIEWED (not
completed) activity 7 and is the only enrolled user. -/
def client2 : MoodleClient :=
  { get_site_courses := Except.ok [],
    get_user_courses := fun _ => Except.ok [],
    get_course_contents := fun c =>
      Except.ok (if c = 2 then [{ modules := some [act 7 "quiz", act 8 "forum"] }] else []),
    get_course_enrolled_users := fun c =>
      Except.ok (if c = 2 then [{ id := some 10 }] else []),
    get_activities_completion_status := fun u c =>
      Except.ok (if u = 10 ∧ c = 2 then
        some [{ cmid := some 7, state := some 0, viewed := some true }] else none),
    get_course_tags := fun _ => Except.ok [],
    get_all_course_tags := Except.ok [] }

/-- Context for scenario 2 (user 10 has no stated interests). -/
def ctx2 : Ctx := { ctx1 with client := client2 }

/-- Scenario 8: one non-root course whose content is
"python programming" plus its two tags repeated, and a single stated
interest "python" that substring-matches both tags.  `clean_text` is the
identity (all texts are already in cleaned form) and the cosine oracle
returns 0. -/
def client8 : MoodleClient :=
  { client2 with
    get_site_courses := Except.ok [course 2 0 "python programming"],
    get_all_course_tags := Except.ok [(2, ["python basics", "python advanced"])] }

/-- Context for scenario 8. -/
def ctx8 : Ctx :=
  { ctx1 with
    client := client8,
    user_interests := fun u => if u = 10 then ["python"] else [] }

/-- Scenario 9: user 10 holds course 2 ("machine learning basics");
candidate course 3 has content "ml" (2 characters, below the 10-character
minimum) and candidate course 4 has content identical to course 2's.  The
TF-IDF oracle returns max similarity 1 for the single surviving candidate
text (course 4's), the value scikit-learn produces for identical texts. -/
def client9 : MoodleClient :=
  { client2 with
    get_site_courses := Except.ok [course 2 0 "machine learning basics",
      course 3 0 "ml", course 4 0 "machine learning basics"],
    get_user_courses := fun u =>
      Except.ok (if u = 10 then [course 2 0 "machine learning basics"] else []) }

/-- Context for scenario 9. -/
def ctx9 : Ctx :=
  { ctx1 with
    client := client9,
    tfidf_max_sim_courses := fun _ _ => Except.ok [1] }

/-- The first collaborative course recommendation of scenario 1, written
out in full. -/
def collabItem1 : Item :=
  { entity := course 3 0 "a3", collaborative_score := some (1/2),
    recommendation_reason :=
      some "Recommended because 1 similar users are enrolled in this course (score: s)" }

/-- The feature record extracted for scenario 8's course (tags repeated
three times inside the content, as `_extract_course_features` builds it). -/
def F8 : CourseFeatures :=
  { id := 2,
    content := "python programming python basics python advanced python basics python advanced python basics python advanced",
    category_id := 0, category_name := "", tags := ["python basics", "python advanced"] }

end Witness

/-! Generic lemmas about the dict / loop / sort combinators. -/

theorem mem_aset {α : Type} {m : List (Nat × α)} {k : Nat} {v : α} {p : Nat × α}
    (h : p ∈ aset m k v) : p = (k, v) ∨ p ∈ m := by
  unfold aset at h
  split at h
  · rcases List.mem_map.1 h with ⟨q, hq, hEq⟩
    by_cases hk : (q.1 == k) = true
    · rw [if_pos hk] at hEq
      exact Or.inl hEq.symm
    · rw [if_neg hk] at hEq
      exact Or.inr (hEq ▸ hq)
  · rcases List.mem_append.1 h with h' | h'
    · exact Or.inr h'
    · exact Or.inl (List.mem_singleton.1 h')

theorem mem_addf {m : List (Nat × ℚ)} {k : Nat} {v : ℚ} {p : Nat × ℚ}
    (h : p ∈ addf m k v) : p.1 = k ∨ p ∈ m := by
  rcases mem_aset h with h' | h'
  · exact Or.inl (by rw [h'])
  · exact Or.inr h'

/-- Invariant preservation along a left fold. -/
theorem foldl_preserve {α β : Type} {P : β → Prop} {f : β → α → β}
    (hf : ∀ b a, P b → P (f b a)) :
    ∀ (l : List α) (b : β), P b → P (l.foldl f b) := by
  intro l
  induction l with
  | nil => intro b hb; exact hb
  | cons x xs ih => intro b hb; exact ih (f b x) (hf b x hb)

/-- Invariant preservation along a left fold, when the step invariant may
use membership of the consumed element. -/
theorem foldl_preserve_mem {α β : Type} {P : β → Prop} {f : β → α → β} :
    ∀ (l : List α) (b : β), (∀ b a, a ∈ l → P b → P (f b a)) → P b → P (l.foldl f b) := by
  intro l
  induction l with
  | nil => intro b _ hb; exact hb
  | cons x xs ih =>
    intro b hf hb
    exact ih (f b x) (fun b' a ha hb' => hf b' a (List.mem_cons_of_mem x ha) hb')
      (hf b x (List.mem_cons_self x xs) hb)

theorem emitLoopM_ok_mem {α β : Type} {limit : Nat} {skip : α → Bool}
    {step : α → Except Unit (Option β)} :
    ∀ {xs : List α} {acc out : List β},
      emitLoopM limit skip step xs acc = Except.ok out →
      ∀ b ∈ out, b ∈ acc ∨ ∃ a ∈ xs, skip a = false ∧ step a = Except.ok (some b) := by
  intro xs
  induction xs with
  | nil =>
    intro acc out h b hb
    unfold emitLoopM at h
    cases h
    exact Or.inl hb
  | cons x xs ih =>
    intro acc out h b hb
    unfold emitLoopM at h
    by_cases hs : skip x = true
    · rw [if_pos hs] at h
      rcases ih h b hb with h' | ⟨a, ha, hsk, hst⟩
      · exact Or.inl h'
      · exact Or.inr ⟨a, List.mem_cons_of_mem x ha, hsk, hst⟩
    · rw [if_neg hs] at h
      cases hstep : step x with
      | error e => rw [hstep] at h; cases h
      | ok ob =>
        rw [hstep] at h
        simp only at h
        have memacc' : ∀ c, c ∈ (match ob with | some b => acc ++ [b] | none => acc) →
            c ∈ acc ∨ step x = Except.ok (some c) := by
          intro c hc
          cases ob with
          | none => exact Or.inl hc
          | some b' =>
            rcases List.mem_append.1 hc with h' | h'
            · exact Or.inl h'
            · exact Or.inr (by rw [hstep, List.mem_singleton.1 h'])
        split at h
        · cases h
          rcases memacc' b hb with h' | h'
          · exact Or.inl h'
          · exact Or.inr ⟨x, List.mem_cons_self x xs, Bool.not_eq_true _ ▸ hs, h'⟩
        · rcases ih h b hb with h' | ⟨a, ha, hsk, hst⟩
          · rcases memacc' b h' with h'' | h''
            · exact Or.inl h''
            · exact Or.inr ⟨x, List.mem_cons_self x xs, Bool.not_eq_true _ ▸ hs, h''⟩
          · exact Or.inr ⟨a, List.mem_cons_of_mem x ha, hsk, hst⟩

theorem emitLoopM_ok_length {α β : Type} {limit : Nat} {skip : α → Bool}
    {step : α → Except Unit (Option β)} :
    ∀ {xs : List α} {acc out : List β},
      emitLoopM limit skip step xs acc = Except.ok out →
      out.length ≤ max limit (acc.length + 1) := by
  intro xs
  induction xs with
  | nil =>
    intro acc out h
    unfold emitLoopM at h
    cases h
    omega
  | cons x xs ih =>
    intro acc out h
    unfold emitLoopM at h
    by_cases hs : skip x = true
    · rw [if_pos hs] at h
      exact ih h
    · rw [if_neg hs] at h
      cases hstep : step x with
      | error e => rw [hstep] at h; cases h
      | ok ob =>
        rw [hstep] at h
        simp only at h
        have hlen : (match ob with | some b => acc ++ [b] | none => acc).length ≤
            acc.length + 1 := by
          cases ob <;> simp
        split at h
        · rename_i hbreak
          cases h
          omega
        · rename_i hbreak
          push_neg at hbreak
          have := ih h
          omega

theorem emitLoopM_pairwise {α β : Type} {R' : α → α → Prop} {R : β → β → Prop}
    {limit : Nat} {skip : α → Bool} {step : α → Except Unit (Option β)}
    (hstep : ∀ a b r s, R' a b → step a = Except.ok (some r) →
      step b = Except.ok (some s) → R r s) :
    ∀ {xs : List α} {acc out : List β}, xs.Pairwise R' → acc.Pairwise R →
      (∀ b ∈ acc, ∀ a ∈ xs, ∀ r, step a = Except.ok (some r) → R b r) →
      emitLoopM limit skip step xs acc = Except.ok out → out.Pairwise R := by
  intro xs
  induction xs with
  | nil =>
    intro acc out _ hacc _ h
    unfold emitLoopM at h
    cases h
    exact hacc
  | cons x xs ih =>
    intro acc out hxs hacc hcross h
    have hxhead : ∀ a ∈ xs, R' x a := (List.pairwise_cons.1 hxs).1
    have hxs' : xs.Pairwise R' := (List.pairwise_cons.1 hxs).2
    unfold emitLoopM at h
    by_cases hs : skip x = true
    · rw [if_pos hs] at h
      exact ih hxs' hacc
        (fun b hb a ha r hr => hcross b hb a (List.mem_cons_of_mem x ha) r hr) h
    · rw [if_neg hs] at h
      cases hstep' : step x with
      | error e => rw [hstep'] at h; cases h
      | ok ob =>
        rw [hstep'] at h
        simp only at h
        have hacc' : (match ob with | some b => acc ++ [b] | none => acc).Pairwise R := by
          cases ob with
          | none => exact hacc
          | some b' =>
            refine List.pairwise_append.2 ⟨hacc, List.pairwise_singleton _ _, ?_⟩
            intro a ha c hc
            rw [List.mem_singleton.1 hc]
            exact hcross a ha x (List.mem_cons_self x xs) b' hstep'
        have hcross' : ∀ b ∈ (match ob with | some b => acc ++ [b] | none => acc),
            ∀ a ∈ xs, ∀ r, step a = Except.ok (some r) → R b r := by
          intro b hb a ha r hr
          cases ob with
          | none => exact hcross b hb a (List.mem_cons_of_mem x ha) r hr
          | some b' =>
            rcases List.mem_append.1 hb with h' | h'
            · exact hcross b h' a (List.mem_cons_of_mem x ha) r hr
            · rw [List.mem_singleton.1 h']
              exact hstep x a b' r (hxhead a ha) hstep' hr
        split at h
        · cases h; exact hacc'
        · exact ih hxs' hacc' hcross' h

theorem emitLoop_mem {α β : Type} {limit : Nat} {skip : α → Bool}
    {step : α → Option β} :
    ∀ {xs : List α} {acc : List β} {b : β}, b ∈ emitLoop limit skip step xs acc →
      b ∈ acc ∨ ∃ a ∈ xs, skip a = false ∧ step a = some b := by
  intro xs
  induction xs with
  | nil => intro acc b hb; exact Or.inl hb
  | cons x xs ih =>
    intro acc b hb
    unfold emitLoop at hb
    by_cases hs : skip x = true
    · rw [if_pos hs] at hb
      rcases ih hb with h' | ⟨a, ha, hsk, hst⟩
      · exact Or.inl h'
      · exact Or.inr ⟨a, List.mem_cons_of_mem x ha, hsk, hst⟩
    · rw [if_neg hs] at hb
      simp only at hb
      have memacc' : ∀ c, c ∈ (match step x with | some b => acc ++ [b] | none => acc) →
          c ∈ acc ∨ step x = some c := by
        intro c hc
        cases hstep : step x with
        | none => rw [hstep] at hc; exact Or.inl hc
        | some b' =>
          rw [hstep] at hc
          rcases List.mem_append.1 hc with h' | h'
          · exact Or.inl h'
          · exact Or.inr (by rw [List.mem_singleton.1 h'])
      split at hb
      · rcases memacc' b hb with h' | h'
        · exact Or.inl h'
        · exact Or.inr ⟨x, List.mem_cons_self x xs, Bool.not_eq_true _ ▸ hs, h'⟩
      · rcases ih hb with h' | ⟨a, ha, hsk, hst⟩
        · rcases memacc' b h' with h'' | h''
          · exact Or.inl h''
          · exact Or.inr ⟨x, List.mem_cons_self x xs, Bool.not_eq_true _ ▸ hs, h''⟩
        · exact Or.inr ⟨a, List.mem_cons_of_mem x ha, hsk, hst⟩

theorem emitLoop_length {α β : Type} {limit : Nat} {skip : α → Bool}
    {step : α → Option β} :
    ∀ {xs : List α} {acc : List β},
      (emitLoop limit skip step xs acc).length ≤ max limit (acc.length + 1) := by
  intro xs
  induction xs with
  | nil => intro acc; unfold emitLoop; omega
  | cons x xs ih =>
    intro acc
    unfold emitLoop
    by_cases hs : skip x = true
    · rw [if_pos hs]; exact ih
    · rw [if_neg hs]
      simp only
      have hlen : (match step x with | some b => acc ++ [b] | none => acc).length ≤
          acc.length + 1 := by
        cases step x <;> simp
      split
      · rename_i hbreak; omega
      · rename_i hbreak
        push_neg at hbreak
        have := @ih (match step x with | some b => acc ++ [b] | none => acc)
        omega

theorem emitLoop_pairwise {α β : Type} {R' : α → α → Prop} {R : β → β → Prop}
    {limit : Nat} {skip : α → Bool} {step : α → Option β}
    (hstep : ∀ a b r s, R' a b → step a = some r → step b = some s → R r s) :
    ∀ {xs : List α} {acc : List β}, xs.Pairwise R' → acc.Pairwise R →
      (∀ b ∈ acc, ∀ a ∈ xs, ∀ r, step a = some r → R b r) →
      (emitLoop limit skip step xs acc).Pairwise R := by
  intro xs
  induction xs with
  | nil => intro acc _ hacc _; exact hacc
  | cons x xs ih =>
    intro acc hxs hacc hcross
    have hxhead : ∀ a ∈ xs, R' x a := (List.pairwise_cons.1 hxs).1
    have hxs' : xs.Pairwise R' := (List.pairwise_cons.1 hxs).2
    unfold emitLoop
    by_cases hs : skip x = true
    · rw [if_pos hs]
      exact ih hxs' hacc (fun b hb a ha r hr => hcross b hb a (List.mem_cons_of_mem x ha) r hr)
    · rw [if_neg hs]
      simp only
      have hacc' : (match step x with | some b => acc ++ [b] | none => acc).Pairwise R := by
        cases hstep' : step x with
        | none => exact hacc
        | some b' =>
          refine List.pairwise_append.2 ⟨hacc, List.pairwise_singleton _ _, ?_⟩
          intro a ha c hc
          rw [List.mem_singleton.1 hc]
          exact hcross a ha x (List.mem_cons_self x xs) b' hstep'
      have hcross' : ∀ b ∈ (match step x with | some b => acc ++ [b] | none => acc),
          ∀ a ∈ xs, ∀ r, step a = some r → R b r := by
        intro b hb a ha r hr
        cases hstep' : step x with
        | none => rw [hstep'] at hb; exact hcross b hb a (List.mem_cons_of_mem x ha) r hr
        | some b' =>
          rw [hstep'] at hb
          rcases List.mem_append.1 hb with h' | h'
          · exact hcross b h' a (List.mem_cons_of_mem x ha) r hr
          · rw [List.mem_singleton.1 h']
            exact hstep x a b' r (hxhead a ha) hstep' hr
      split
      · exact hacc'
      · exact ih hxs' hacc' hcross'

theorem padLoop_eq_append {α β : Type} {limit : Nat} {step : α → Option β} :
    ∀ {xs : List α} {acc : List β}, ∃ pad ys,
      padLoop limit step xs acc = acc ++ pad ∧ ys.Sublist xs ∧
      List.Forall₂ (fun a b => step a = some b) ys pad := by
  intro xs
  induction xs with
  | nil =>
    intro acc
    exact ⟨[], [], by simp [padLoop], List.Sublist.refl [], List.Forall₂.nil⟩
  | cons x xs ih =>
    intro acc
    unfold padLoop
    cases hstep : step x with
    | none =>
      rcases @ih acc with ⟨pad, ys, h1, h2, h3⟩
      exact ⟨pad, ys, h1, h2.cons x, h3⟩
    | some b =>
      simp only
      split
      · exact ⟨[b], [x], by simp, (List.nil_sublist xs).cons₂ x, by
          exact List.Forall₂.cons hstep List.Forall₂.nil⟩
      · rcases @ih (acc ++ [b]) with ⟨pad, ys, h1, h2, h3⟩
        refine ⟨b :: pad, x :: ys, by simpa using h1, h2.cons₂ x, ?_⟩
        exact List.Forall₂.cons hstep h3

theorem exists_left_of_forall₂ {α β : Type} {R : α → β → Prop} :
    ∀ {ys : List α} {pad : List β}, List.Forall₂ R ys pad →
      ∀ b ∈ pad, ∃ a ∈ ys, R a b := by
  intro ys pad h
  induction h with
  | nil => intro b hb; cases hb
  | cons h1 _ ih =>
    intro b hb
    rcases List.mem_cons.1 hb with rfl | hb'
    · exact ⟨_, List.mem_cons_self _ _, h1⟩
    · rcases ih b hb' with ⟨a, ha, hr⟩
      exact ⟨a, List.mem_cons_of_mem _ ha, hr⟩

theorem padLoop_mem {α β : Type} {limit : Nat} {step : α → Option β}
    {xs : List α} {acc : List β} {b : β}
    (hb : b ∈ padLoop limit step xs acc) : b ∈ acc ∨ ∃ a ∈ xs, step a = some b := by
  rcases @padLoop_eq_append _ _ limit step xs acc with ⟨pad, ys, h1, h2, h3⟩
  rw [h1] at hb
  rcases List.mem_append.1 hb with h' | h'
  · exact Or.inl h'
  · rcases exists_left_of_forall₂ h3 b h' with ⟨a, ha, hr⟩
    exact Or.inr ⟨a, h2.subset ha, hr⟩

theorem padLoop_length_le {α β : Type} {limit : Nat} {step : α → Option β} :
    ∀ {xs : List α} {acc : List β}, acc.length < limit →
      (padLoop limit step xs acc).length ≤ limit := by
  intro xs
  induction xs with
  | nil => intro acc h; unfold padLoop; omega
  | cons x xs ih =>
    intro acc h
    unfold padLoop
    cases hstep : step x with
    | none => exact ih h
    | some b =>
      simp only
      split
      · rename_i hbreak; simp at hbreak ⊢; omega
      · rename_i hbreak
        refine ih ?_
        simp at hbreak ⊢
        omega

theorem padLoop_exhaust {α β : Type} {limit : Nat} {step : α → Option β} :
    ∀ {xs : List α} {acc : List β},
      (padLoop limit step xs acc).length < limit →
      ∀ a ∈ xs, ∀ b, step a = some b → b ∈ padLoop limit step xs acc := by
  intro xs
  induction xs with
  | nil => intro acc _ a ha; cases ha
  | cons x xs ih =>
    intro acc hlt a ha b hb
    unfold padLoop at hlt ⊢
    cases hstep : step x with
    | none =>
      rw [hstep] at hlt
      rcases List.mem_cons.1 ha with rfl | ha'
      · rw [hstep] at hb; cases hb
      · exact ih hlt a ha' b hb
    | some b' =>
      rw [hstep] at hlt
      simp only at hlt ⊢
      split
      · rename_i hbreak
        rw [if_pos hbreak] at hlt
        simp at hlt hbreak
        omega
      · rename_i hbreak
        rw [if_neg hbreak] at hlt
        rcases List.mem_cons.1 ha with rfl | ha'
        · rw [hstep] at hb
          injection hb with hb'
          rcases @padLoop_eq_append _ _ limit step xs (acc ++ [b']) with ⟨pad, ys, h1, _, _⟩
          rw [h1, ← hb']
          simp
        · exact ih hlt a ha' b hb

theorem mem_pySortedByDesc {α β : Type} [LinearOrder β] {key : α → β} {l : List α}
    {a : α} : a ∈ pySortedByDesc key l ↔ a ∈ l :=
  List.mem_insertionSort _

theorem mem_pySortedBy {α β : Type} [LinearOrder β] {key : α → β} {l : List α}
    {a : α} : a ∈ pySortedBy key l ↔ a ∈ l :=
  List.mem_insertionSort _

theorem pairwise_pySortedByDesc {α β : Type} [LinearOrder β] (key : α → β)
    (l : List α) : (pySortedByDesc key l).Pairwise (fun a b => key b ≤ key a) := by
  have ht : IsTotal α (fun a b => key b ≤ key a) :=
    ⟨fun a b => le_total (key b) (key a)⟩
  have htr : IsTrans α (fun a b => key b ≤ key a) :=
    ⟨fun a b c h1 h2 => le_trans h2 h1⟩
  exact List.sorted_insertionSort _ l

theorem pair_sublist_pySortedByDesc {α β : Type} [LinearOrder β] {key : α → β}
    {l : List α} {a b : α} (hab : key b ≤ key a) (h : [a, b].Sublist l) :
    [a, b].Sublist (pySortedByDesc key l) :=
  List.pair_sublist_insertionSort hab h

theorem length_pySortedByDesc {α β : Type} [LinearOrder β] (key : α → β)
    (l : List α) : (pySortedByDesc key l).length = l.length :=
  List.length_insertionSort _ l

theorem string_eq_empty_of_length {s : String} (h : s.length = 0) : s = "" := by
  cases s with
  | mk data =>
    cases data with
    | nil => rfl
    | cons c cs => simp [String.length] at h

theorem append_ne_empty_left {s : String} (t : String) (h : s ≠ "") : s ++ t ≠ "" := by
  intro he
  have h2 : (s ++ t).length = 0 := by rw [he]; rfl
  rw [String.length_append] at h2
  exact h (string_eq_empty_of_length (by omega))

theorem append_ne_empty_right (s : String) {t : String} (h : t ≠ "") : s ++ t ≠ "" := by
  intro he
  have h2 : (s ++ t).length = 0 := by rw [he]; rfl
  rw [String.length_append] at h2
  exact h (string_eq_empty_of_length (by omega))

theorem scoresDesc_of_none {f : Item → Option ℚ} {l : List Item}
    (h : ∀ r ∈ l, f r = none) : ScoresDesc f l := by
  induction l with
  | nil => exact List.Pairwise.nil
  | cons x xs ih =>
    refine List.pairwise_cons.2 ⟨?_, ih (fun r hr => h r (List.mem_cons_of_mem x hr))⟩
    intro b _ u v hu _
    rw [h x (List.mem_cons_self x xs)] at hu
    cases hu

theorem scoresDesc_append {f : Item → Option ℚ} {l₁ l₂ : List Item}
    (h1 : ScoresDesc f l₁) (h2 : ∀ r ∈ l₂, f r = none) : ScoresDesc f (l₁ ++ l₂) := by
  refine List.pairwise_append.2 ⟨h1, scoresDesc_of_none h2, ?_⟩
  intro a _ b hb u v _ hv
  rw [h2 b hb] at hv
  cases hv

theorem scoresDesc_take {f : Item → Option ℚ} {l : List Item} {n : Nat}
    (h : ScoresDesc f l) : ScoresDesc f (l.take n) :=
  List.Pairwise.sublist (List.take_sublist n l) h

theorem scoresDesc_map_key {α : Type} {f : Item → Option ℚ} {dec : α → Item}
    {key : α → ℚ} (hdec : ∀ p, f (dec p) = some (key p)) {l : List α}
    (h : l.Pairwise fun a b => key b ≤ key a) : ScoresDesc f (l.map dec) := by
  refine List.pairwise_map.2 (h.imp ?_)
  intro a b hab u v hu hv
  rw [hdec a] at hu
  rw [hdec b] at hv
  injection hu with hu
  injection hv with hv
  rw [← hu, ← hv]
  exact hab

/-- A tied pair that survives truncation keeps its order inside the
truncated prefix (needs distinct elements to speak of positions). -/
theorem pair_sublist_take {α : Type} :
    ∀ {l : List α} {a b : α} {n : Nat}, [a, b].Sublist l → l.Nodup →
      a ∈ l.take n → b ∈ l.take n → [a, b].Sublist (l.take n) := by
  intro l
  induction l with
  | nil => intro a b n h _ ha _; simp at ha
  | cons x t ih =>
    intro a b n h hnd ha hb
    cases n with
    | zero => simp at ha
    | succ m =>
      simp only [List.take_succ_cons] at ha hb ⊢
      have hxt : x ∉ t := (List.nodup_cons.1 hnd).1
      have hndt : t.Nodup := (List.nodup_cons.1 hnd).2
      cases h with
      | cons _ h' =>
        have ha' : a ∈ t.take m := by
          rcases List.mem_cons.1 ha with rfl | h''
          · exact absurd (h'.subset (by simp)) hxt
          · exact h''
        have hb' : b ∈ t.take m := by
          rcases List.mem_cons.1 hb with rfl | h''
          · exact absurd (h'.subset (by simp)) hxt
          · exact h''
        exact (ih h' hndt ha' hb').cons x
      | cons₂ _ h' =>
        have hb' : b ∈ t.take m := by
          rcases List.mem_cons.1 hb with rfl | h''
          · exact absurd (h'.subset (by simp)) hxt
          · exact h''
        exact (List.singleton_sublist.2 hb').cons₂ _

theorem mapIdsE_ok_eq : ∀ {l : List Entity} {out : List Nat},
    mapIdsE l = Except.ok out → out = l.filterMap (·.id) := by
  intro l
  induction l with
  | nil => intro out h; cases h; rfl
  | cons c cs ih =>
    intro out h
    unfold mapIdsE at h
    cases hid : c.id with
    | none => rw [hid] at h; cases h
    | some i =>
      rw [hid] at h
      cases hm : mapIdsE cs with
      | error e => rw [hm] at h; cases h
      | ok r =>
        rw [hm] at h
        cases h
        simp [List.filterMap_cons, hid, ih hm]

theorem pairIdsE_ok_mem : ∀ {l : List Entity} {out : List (Entity × Nat)},
    pairIdsE l = Except.ok out → ∀ p ∈ out, p.1.id = some p.2 ∧ p.1 ∈ l := by
  intro l
  induction l with
  | nil => intro out h p hp; cases h; cases hp
  | cons c cs ih =>
    intro out h p hp
    unfold pairIdsE at h
    cases hid : c.id with
    | none => rw [hid] at h; cases h
    | some i =>
      rw [hid] at h
      cases hm : pairIdsE cs with
      | error e => rw [hm] at h; cases h
      | ok r =>
        rw [hm] at h
        cases h
        rcases List.mem_cons.1 hp with rfl | hp'
        · exact ⟨hid, List.mem_cons_self c cs⟩
        · rcases ih hm p hp' with ⟨h1, h2⟩
          exact ⟨h1, List.mem_cons_of_mem c h2⟩

theorem courseMapE_ok_mem {l : List Entity} {m : List (Nat × Entity)}
    (h : courseMapE l = Except.ok m) : ∀ p ∈ m, p.2.id = some p.1 := by
  unfold courseMapE at h
  cases hp : pairIdsE l with
  | error e => rw [hp] at h; cases h
  | ok pairs =>
    rw [hp] at h
    cases h
    refine foldl_preserve_mem (P := fun (m : List (Nat × Entity)) => ∀ p ∈ m, p.2.id = some p.1)
      pairs [] ?_ (by intro p hp'; cases hp')
    intro m q hq hm p hpm
    rcases mem_aset hpm with rfl | h'
    · exact (pairIdsE_ok_mem hp q hq).1
    · exact hm p h'

theorem aget_some_mem {α : Type} {m : List (Nat × α)} {k : Nat} {v : α}
    (h : aget m k = some v) : (k, v) ∈ m := by
  unfold aget at h
  cases hf : m.find? (fun p => p.1 == k) with
  | none => rw [hf] at h; cases h
  | some q =>
    rw [hf] at h
    injection h with h
    have hq := List.find?_some hf
    have hqm := List.mem_of_find?_eq_some hf
    have : q.1 = k := by simpa using hq
    have : q = (k, v) := by
      cases q
      simp only at h this
      rw [h, this]
    exact this ▸ hqm

/-! Per-method facts about the recommenders, assembled into the claim
theorems below. -/

theorem exists_reason {x : String} (h : x ≠ "") :
    ∃ s, some x = some s ∧ s ≠ "" := ⟨x, rfl, h⟩

theorem popular_course_reason_ne (ctx : Ctx) (score : ℚ) (n : Nat) (t : Option Int) :
    Popular.course_reason ctx score n t ≠ "" := by
  unfold Popular.course_reason
  cases t
  all_goals simp only
  all_goals try split
  all_goals repeat apply append_ne_empty_left
  all_goals decide

theorem popular_courses_spec (ctx : Ctx) (u l : Nat) :
    ∀ r ∈ Popular.recommend_courses ctx u l,
      (∃ i, r.entity.id = some i ∧ i ≠ 1 ∧
        ∀ ucs, ctx.client.get_user_courses u = Except.ok ucs → i ∉ ucs.filterMap (·.id)) ∧
      (∃ s, r.recommendation_reason = some s ∧ s ≠ "") := by
  intro r hr
  unfold Popular.recommend_courses at hr
  cases hE : Popular.recommend_coursesE ctx u l with
  | error e => rw [hE] at hr; cases hr
  | ok out =>
    rw [hE] at hr
    unfold Popular.recommend_coursesE at hE
    cases hB : Popular.recommend_courses_body ctx u l with
    | error e => rw [hB] at hE; injection hE with hE; subst hE; cases hr
    | ok out2 =>
      rw [hB] at hE
      injection hE with hE
      subst hE
      unfold Popular.recommend_courses_body at hB
      cases h1 : ctx.client.get_site_courses with
      | error e => rw [h1] at hB; exact Except.noConfusion hB
      | ok all_courses =>
        rw [h1] at hB
        simp only [Bind.bind, Except.bind] at hB
        cases h2 : ctx.client.get_user_courses u with
        | error e => rw [h2] at hB; exact Except.noConfusion hB
        | ok ucs =>
          rw [h2] at hB
          simp only at hB
          cases h3 : mapIdsE ucs with
          | error e => rw [h3] at hB; exact Except.noConfusion hB
          | ok uids =>
            rw [h3] at hB
            simp only at hB
            cases h4 : pairIdsE all_courses with
            | error e => rw [h4] at hB; exact Except.noConfusion hB
            | ok pairs =>
              rw [h4] at hB
              simp only [Except.ok.injEq] at hB
              subst hB
              simp only at hr
              rcases List.mem_map.1 hr with ⟨p, hp, hdec⟩
              have hp2 : p ∈ pairs.filter
                  (fun p => decide (p.2 ∉ uids ∧ p.2 ≠ 1)) :=
                mem_pySortedByDesc.1 (List.take_subset _ _ hp)
              have hfil := List.mem_filter.1 hp2
              have hcond : p.2 ∉ uids ∧ p.2 ≠ 1 := by
                have := hfil.2
                simpa using this
              have hid : p.1.id = some p.2 := (pairIdsE_ok_mem h4 p hfil.1).1
              constructor
              · refine ⟨p.2, ?_, hcond.2, ?_⟩
                · rw [← hdec]; exact hid
                · intro ucs' hucs'
                  injection hucs' with hucs2
                  subst hucs2
                  rw [← mapIdsE_ok_eq h3]
                  exact hcond.1
              · rw [← hdec]
                exact exists_reason (popular_course_reason_ne ctx _ _ _)

/-- The decoration applied to a ranked popular course (copy + score +
reason), as a named function for reuse in lemma statements. -/
def popularCourseDec (ctx : Ctx) (popularity_scores : List (Nat × ℚ))
    (p : Entity × Nat) : Item :=
  { entity := p.1,
    popularity_score := some ((aget popularity_scores p.2).getD 0),
    recommendation_reason := some (Popular.course_reason ctx
      ((aget popularity_scores p.2).getD 0)
      (match ctx.client.get_course_enrolled_users p.2 with
       | Except.ok users => users.length
       | Except.error _ => 0) p.1.timecreated) }

theorem popular_courses_shape (ctx : Ctx) (u l : Nat) :
    Popular.recommend_courses ctx u l = [] ∨
    ∃ (all_courses : List Entity) (uids : List Nat) (pairs : List (Entity × Nat)),
      pairIdsE all_courses = Except.ok pairs ∧
      Popular.recommend_courses ctx u l =
        ((pySortedByDesc
          (fun p => (aget (Popular.calculate_course_popularity_scores ctx all_courses) p.2).getD 0)
          (pairs.filter (fun (p : Entity × Nat) => decide (p.2 ∉ uids ∧ p.2 ≠ 1)))).take l).map
          (popularCourseDec ctx (Popular.calculate_course_popularity_scores ctx all_courses)) := by
  unfold Popular.recommend_courses Popular.recommend_coursesE Popular.recommend_courses_body
  cases h1 : ctx.client.get_site_courses with
  | error e => exact Or.inl rfl
  | ok all_courses =>
    simp only [Bind.bind, Except.bind]
    cases h2 : ctx.client.get_user_courses u with
    | error e => exact Or.inl rfl
    | ok ucs =>
      simp only
      cases h3 : mapIdsE ucs with
      | error e => exact Or.inl rfl
      | ok uids =>
        simp only
        cases h4 : pairIdsE all_courses with
        | error e => exact Or.inl rfl
        | ok pairs =>
          simp only
          exact Or.inr ⟨all_courses, uids, pairs, h4, rfl⟩

theorem popular_courses_scoresDesc (ctx : Ctx) (u l : Nat) :
    ScoresDesc (fun r => r.popularity_score) (Popular.recommend_courses ctx u l) := by
  rcases popular_courses_shape ctx u l with h | ⟨ac, uids, pairs, _, h⟩
  · rw [h]; exact List.Pairwise.nil
  · rw [h]
    exact @scoresDesc_map_key (Entity × Nat) (fun r => r.popularity_score)
      (popularCourseDec ctx (Popular.calculate_course_popularity_scores ctx ac))
      (fun p => (aget (Popular.calculate_course_popularity_scores ctx ac) p.2).getD 0)
      (fun p => rfl) _
      (List.Pairwise.sublist (List.take_sublist _ _) (pairwise_pySortedByDesc _ _))

theorem popular_courses_length (ctx : Ctx) (u l : Nat) :
    (Popular.recommend_courses ctx u l).length ≤ l := by
  rcases popular_courses_shape ctx u l with h | ⟨ac, uids, pairs, _, h⟩
  · rw [h]; exact Nat.zero_le l
  · rw [h, List.length_map]
    exact List.length_take_le l _

/-- The decoration applied to a ranked popular activity. -/
def popularActivityDec (ctx : Ctx) (engagement_scores : List (Nat × ℚ))
    (a : Entity) : Item :=
  { entity := a,
    engagement_score := some ((aget engagement_scores (a.id.getD 0)).getD 0),
    recommendation_reason := some
      ("This activity is popular with other students (engagement score: " ++
        ctx.fmt2 ((aget engagement_scores (a.id.getD 0)).getD 0) ++ ")") }

theorem popular_acts_shape (ctx : Ctx) (u c l : Nat) :
    Popular.recommend_activities ctx u c l = [] ∨
    ∃ (sections : List CourseSection) (stat : Option (List CmStatus)),
      ctx.client.get_course_contents c = Except.ok sections ∧
      ctx.client.get_activities_completion_status u c = Except.ok stat ∧
      Popular.recommend_activities ctx u c l =
        ((pySortedByDesc
          (fun a => (aget (Popular.get_activity_engagement_scores ctx c) (a.id.getD 0)).getD 0)
          ((flattenActivities sections).filter (fun a =>
            a.id.all (fun i => decide (i ∉ completedActivityIds stat))))).take l).map
          (popularActivityDec ctx (Popular.get_activity_engagement_scores ctx c)) := by
  unfold Popular.recommend_activities Popular.recommend_activitiesE
    Popular.recommend_activities_body
  cases h1 : ctx.client.get_course_contents c with
  | error e => exact Or.inl rfl
  | ok sections =>
    simp only [Bind.bind, Except.bind]
    cases h2 : ctx.client.get_activities_completion_status u c with
    | error e => exact Or.inl rfl
    | ok stat =>
      simp only
      exact Or.inr ⟨sections, stat, rfl, rfl, rfl⟩

theorem popular_acts_spec (ctx : Ctx) (u c l : Nat) :
    ∀ r ∈ Popular.recommend_activities ctx u c l,
      (∀ stat, ctx.client.get_activities_completion_status u c = Except.ok stat →
        ∀ i, r.entity.id = some i → i ∉ completedActivityIds stat) ∧
      (∃ s, r.recommendation_reason = some s ∧ s ≠ "") := by
  intro r hr
  rcases popular_acts_shape ctx u c l with h | ⟨sections, stat, h1, h2, h⟩
  · rw [h] at hr; cases hr
  · rw [h] at hr
    rcases List.mem_map.1 hr with ⟨a, ha, hdec⟩
    have ha2 := mem_pySortedByDesc.1 (List.take_subset _ _ ha)
    have hfil := List.mem_filter.1 ha2
    constructor
    · intro stat' hstat' i hi
      have : stat' = stat := by
        have := h2.symm.trans hstat'
        injection this with h'
        exact h'.symm
      subst this
      have hcond := hfil.2
      rw [← hdec] at hi
      simp only [popularCourseDec, popularActivityDec] at hi
      rw [hi] at hcond
      simpa using hcond
    · rw [← hdec]
      exact exists_reason (append_ne_empty_left _ (append_ne_empty_left _ (by decide)))

theorem popular_acts_scoresDesc (ctx : Ctx) (u c l : Nat) :
    ScoresDesc (fun r => r.engagement_score) (Popular.recommend_activities ctx u c l) := by
  rcases popular_acts_shape ctx u c l with h | ⟨sections, stat, _, _, h⟩
  · rw [h]; exact List.Pairwise.nil
  · rw [h]
    exact @scoresDesc_map_key Entity (fun r => r.engagement_score)
      (popularActivityDec ctx (Popular.get_activity_engagement_scores ctx c))
      (fun a => (aget (Popular.get_activity_engagement_scores ctx c) (a.id.getD 0)).getD 0)
      (fun p => rfl) _
      (List.Pairwise.sublist (List.take_sublist _ _) (pairwise_pySortedByDesc _ _))

theorem popular_acts_length (ctx : Ctx) (u c l : Nat) :
    (Popular.recommend_activities ctx u c l).length ≤ l := by
  rcases popular_acts_shape ctx u c l with h | ⟨sections, stat, _, _, h⟩
  · rw [h]; exact Nat.zero_le l
  · rw [h, List.length_map]
    exact List.length_take_le l _

theorem collect_course_scores_keys (m : List (Nat × List (Nat × ℚ)))
    (uids : List Nat) (top : List (Nat × ℚ)) :
    ∀ p ∈ (Collaborative.collect_course_scores m uids top).1, p.1 ∉ uids ∧ p.1 ≠ 1 := by
  unfold Collaborative.collect_course_scores
  refine foldl_preserve
    (P := fun (st : List (Nat × ℚ) × List (Nat × List (Nat × ℚ))) =>
      ∀ p ∈ st.1, p.1 ∉ uids ∧ p.1 ≠ 1) ?_ top ([], []) (by intro p hp; cases hp)
  intro st su hst
  cases aget m su.1 with
  | none => exact hst
  | some uec =>
    simp only
    refine foldl_preserve
      (P := fun (cs : List (Nat × ℚ)) => ∀ p ∈ cs, p.1 ∉ uids ∧ p.1 ≠ 1) ?_ uec st.1 hst
    intro cs q hcs
    by_cases hq : q.1 ∉ uids ∧ q.1 ≠ 1
    · rw [if_pos hq]
      intro p hp
      rcases mem_addf hp with h' | h'
      · rw [h']; exact hq
      · exact hcs p h'
    · rw [if_neg hq]
      exact hcs

theorem collab_courses_shape (ctx : Ctx) (u l : Nat) :
    Collaborative.recommend_courses ctx u l = [] ∨
    (∃ (ucs : List Entity) (uids : List Nat) (pairs : List (Entity × Nat)),
      ctx.client.get_user_courses u = Except.ok ucs ∧ mapIdsE ucs = Except.ok uids ∧
      (∀ p ∈ pairs, p.1.id = some p.2) ∧
      Collaborative.recommend_courses ctx u l =
        ((pySortedByDesc (fun p => p.1.timecreated.getD 0)
          (pairs.filter (fun (p : Entity × Nat) => decide (p.2 ∉ uids ∧ p.2 ≠ 1)))).take l).map
          Collaborative.fallback_course_dec) ∨
    (∃ (ucs : List Entity) (uids : List Nat) (cm : List (Nat × Entity)),
      ctx.client.get_user_courses u = Except.ok ucs ∧ mapIdsE ucs = Except.ok uids ∧
      (∀ p ∈ cm, p.2.id = some p.1) ∧
      Collaborative.recommend_courses ctx u l =
        emitLoop l (fun (p : Nat × ℚ) => decide (p.2 < Collaborative.COURSE_SCORE_THRESHOLD))
          (Collaborative.course_step ctx cm
            (Collaborative.collect_course_scores (Collaborative.build_user_course_matrix ctx)
              uids ((pySortedByDesc (·.2)
                (Collaborative.calculate_user_similarity ctx u
                  (Collaborative.build_user_course_matrix ctx))).take
                Collaborative.MAX_SIMILAR_USERS)).2)
          (pySortedByDesc (·.2)
            (Collaborative.collect_course_scores (Collaborative.build_user_course_matrix ctx)
              uids ((pySortedByDesc (·.2)
                (Collaborative.calculate_user_similarity ctx u
                  (Collaborative.build_user_course_matrix ctx))).take
                Collaborative.MAX_SIMILAR_USERS)).1)
          []) := by
  unfold Collaborative.recommend_courses Collaborative.recommend_coursesE
    Collaborative.recommend_courses_body
  cases h2 : ctx.client.get_user_courses u with
  | error e => exact Or.inl rfl
  | ok ucs =>
    simp only [Bind.bind, Except.bind]
    cases h3 : mapIdsE ucs with
    | error e => exact Or.inl rfl
    | ok uids =>
      simp only
      by_cases hsim : Collaborative.calculate_user_similarity ctx u
          (Collaborative.build_user_course_matrix ctx) = []
      · rw [if_pos hsim]
        cases h1 : ctx.client.get_site_courses with
        | error e => exact Or.inl rfl
        | ok ac =>
          simp only
          cases h4 : pairIdsE ac with
          | error e => exact Or.inl rfl
          | ok pairs =>
            simp only
            exact Or.inr (Or.inl ⟨ucs, uids, pairs, rfl, h3,
              fun p hp => (pairIdsE_ok_mem h4 p hp).1, rfl⟩)
      · rw [if_neg hsim]
        cases h1 : ctx.client.get_site_courses with
        | error e => exact Or.inl rfl
        | ok ac =>
          simp only
          cases h4 : courseMapE ac with
          | error e => exact Or.inl rfl
          | ok cm =>
            simp only
            exact Or.inr (Or.inr ⟨ucs, uids, cm, rfl, h3, courseMapE_ok_mem h4, rfl⟩)

theorem collab_courses_spec (ctx : Ctx) (u l : Nat) :
    ∀ r ∈ Collaborative.recommend_courses ctx u l,
      (∃ i, r.entity.id = some i ∧ i ≠ 1 ∧
        ∀ ucs, ctx.client.get_user_courses u = Except.ok ucs → i ∉ ucs.filterMap (·.id)) ∧
      (∃ s, r.recommendation_reason = some s ∧ s ≠ "") := by
  intro r hr
  rcases collab_courses_shape ctx u l with h | ⟨ucs, uids, pairs, h2, h3, hpid, h⟩ |
    ⟨ucs, uids, cm, h2, h3, hcm, h⟩
  · rw [h] at hr; cases hr
  · rw [h] at hr
    rcases List.mem_map.1 hr with ⟨p, hp, hdec⟩
    have hp2 := mem_pySortedByDesc.1 (List.take_subset _ _ hp)
    have hfil := List.mem_filter.1 hp2
    have hcond : p.2 ∉ uids ∧ p.2 ≠ 1 := by simpa using hfil.2
    constructor
    · refine ⟨p.2, ?_, hcond.2, ?_⟩
      · rw [← hdec]; exact hpid p hfil.1
      · intro ucs' hucs'
        have he := h2.symm.trans hucs'
        injection he with he
        subst he
        rw [← mapIdsE_ok_eq h3]
        exact hcond.1
    · rw [← hdec]
      exact exists_reason (by decide)
  · rw [h] at hr
    rcases emitLoop_mem hr with h' | ⟨p, hp, hskip, hstep⟩
    · cases h'
    · have hpcs := mem_pySortedByDesc.1 hp
      have hkey := collect_course_scores_keys
        (Collaborative.build_user_course_matrix ctx) uids _ p hpcs
      unfold Collaborative.course_step at hstep
      cases hcd : aget cm p.1 with
      | none => rw [hcd] at hstep; cases hstep
      | some course_data =>
        rw [hcd] at hstep
        simp only [Option.some.injEq] at hstep
        have hcdid : course_data.id = some p.1 := hcm _ (aget_some_mem hcd)
        constructor
        · refine ⟨p.1, ?_, hkey.2, ?_⟩
          · rw [← hstep]; exact hcdid
          · intro ucs' hucs'
            have he := h2.symm.trans hucs'
            injection he with he
            subst he
            rw [← mapIdsE_ok_eq h3]
            exact hkey.1
        · rw [← hstep]
          simp only
          split
          · exact exists_reason (append_ne_empty_left _ (append_ne_empty_left _
              (append_ne_empty_left _ (append_ne_empty_left _ (by decide)))))
          · exact exists_reason (append_ne_empty_left _ (append_ne_empty_left _ (by decide)))

theorem collab_courses_scoresDesc (ctx : Ctx) (u l : Nat) :
    ScoresDesc (fun r => r.collaborative_score) (Collaborative.recommend_courses ctx u l) := by
  rcases collab_courses_shape ctx u l with h | ⟨ucs, uids, pairs, _, _, _, h⟩ |
    ⟨ucs, uids, cm, _, _, _, h⟩
  · rw [h]; exact List.Pairwise.nil
  · rw [h]
    refine scoresDesc_of_none ?_
    intro r hr
    rcases List.mem_map.1 hr with ⟨p, _, hdec⟩
    rw [← hdec]
    rfl
  · rw [h]
    refine emitLoop_pairwise ?_ (pairwise_pySortedByDesc _ _) List.Pairwise.nil
      (by intro b hb; cases hb)
    intro a b r s hab hr hs x y hx hy
    unfold Collaborative.course_step at hr hs
    cases hra : aget cm a.1 with
    | none => rw [hra] at hr; cases hr
    | some ca =>
      rw [hra] at hr
      simp only [Option.some.injEq] at hr
      cases hrb : aget cm b.1 with
      | none => rw [hrb] at hs; cases hs
      | some cb =>
        rw [hrb] at hs
        simp only [Option.some.injEq] at hs
        rw [← hr] at hx
        rw [← hs] at hy
        simp only at hx hy
        injection hx with hx
        injection hy with hy
        rw [← hx, ← hy]
        exact hab

theorem collab_courses_length (ctx : Ctx) (u l : Nat) :
    (Collaborative.recommend_courses ctx u l).length ≤ max l 1 := by
  rcases collab_courses_shape ctx u l with h | ⟨ucs, uids, pairs, _, _, _, h⟩ |
    ⟨ucs, uids, cm, _, _, _, h⟩
  · rw [h]; simp
  · rw [h, List.length_map]
    exact le_trans (List.length_take_le l _) (le_max_left l 1)
  · rw [h]
    exact le_trans emitLoop_length (by simp)

theorem idMap_mem (l : List Entity) :
    ∀ p ∈ (l.filterMap (fun a => a.id.map (fun i => (i, a)))).foldl
      (fun m q => aset m q.1 q.2) [], p.2.id = some p.1 ∧ p.2 ∈ l := by
  have hsrc : ∀ q ∈ l.filterMap (fun a => a.id.map (fun i => (i, a))),
      q.2.id = some q.1 ∧ q.2 ∈ l := by
    intro q hq
    rcases List.mem_filterMap.1 hq with ⟨a, ha, hfa⟩
    cases hid : a.id with
    | none => rw [hid] at hfa; cases hfa
    | some i =>
      rw [hid] at hfa
      injection hfa with hfa
      rw [← hfa]
      exact ⟨hid, ha⟩
  refine foldl_preserve_mem
    (P := fun (m : List (Nat × Entity)) => ∀ p ∈ m, p.2.id = some p.1 ∧ p.2 ∈ l)
    _ [] ?_ (by intro p hp; cases hp)
  intro m q hq hm p hp
  rcases mem_aset hp with rfl | h'
  · exact hsrc q hq
  · exact hm p h'

theorem collect_activity_scores_keys (ctx : Ctx) (c : Nat) (uids : List Nat)
    (top : List (Nat × ℚ)) :
    ∀ p ∈ (Collaborative.collect_activity_scores ctx c uids top).1, p.1 ∉ uids := by
  unfold Collaborative.collect_activity_scores
  refine foldl_preserve
    (P := fun (st : List (Nat × ℚ) × List (Nat × Nat)) => ∀ p ∈ st.1, p.1 ∉ uids)
    ?_ top ([], []) (by intro p hp; cases hp)
  intro st su hst
  simp only
  refine foldl_preserve
    (P := fun (st2 : List (Nat × ℚ) × List (Nat × Nat)) => ∀ p ∈ st2.1, p.1 ∉ uids)
    ?_ _ st hst
  intro st2 q hst2
  by_cases hq : q.1 ∉ uids
  · rw [if_pos hq]
    intro p hp
    rcases mem_addf hp with h' | h'
    · rw [h']; exact hq
    · exact hst2 p h'
  · rw [if_neg hq]
    exact hst2

theorem pad_activity_spec (all : List Entity) (uids : List Nat) (recs : List Item)
    (limit : Nat) :
    ∃ pad, Collaborative.pad_activity_recommendations all uids recs limit = recs ++ pad ∧
      ∀ b ∈ pad, b.collaborative_score = none ∧ b.engagement_score = none ∧
        ∃ a ∈ all, ∃ i, a.id = some i ∧ i ∉ recs.filterMap (fun r => r.entity.id) ∧
          i ∉ uids ∧
          b = { entity := a, recommendation_reason :=
            some "Additional suggestion based on course structure" } := by
  unfold Collaborative.pad_activity_recommendations
  split
  · rcases @padLoop_eq_append Entity Item limit _ all recs with ⟨pad, ys, h1, h2, h3⟩
    refine ⟨pad, h1, ?_⟩
    intro b hb
    rcases exists_left_of_forall₂ h3 b hb with ⟨a, ha, hr⟩
    cases hid : a.id with
    | none => rw [hid] at hr; cases hr
    | some i =>
      rw [hid] at hr
      simp only at hr
      by_cases hcond : i ∉ recs.filterMap (fun r => r.entity.id) ∧ i ∉ uids
      · rw [if_pos hcond] at hr
        injection hr with hr
        rw [← hr]
        exact ⟨rfl, rfl, a, h2.subset ha, i, hid, hcond.1, hcond.2, rfl⟩
      · rw [if_neg hcond] at hr
        cases hr
  · exact ⟨[], by simp, by intro b hb; cases hb⟩

theorem collab_acts_shape (ctx : Ctx) (u c l : Nat) :
    Collaborative.recommend_activities ctx u c l = [] ∨
    (∃ (sections : List CourseSection),
      ctx.client.get_course_contents c = Except.ok sections ∧
      Collaborative.recommend_activities ctx u c l =
        ((pySortedBy (fun a => a.name.getD "")
          ((flattenActivities sections).filter (fun a => a.id.all (fun i =>
            decide (i ∉ (Collaborative.get_user_activities ctx u c).map (·.1)))))).take l).map
          Collaborative.fallback_activity_dec) ∨
    (∃ (sections : List CourseSection),
      ctx.client.get_course_contents c = Except.ok sections ∧
      Collaborative.recommend_activities ctx u c l =
        Collaborative.pad_activity_recommendations (flattenActivities sections)
          ((Collaborative.get_user_activities ctx u c).map (·.1))
          (emitLoop l (fun (p : Nat × ℚ) =>
            decide (p.2 < Collaborative.ACTIVITY_SCORE_THRESHOLD))
            (Collaborative.activity_step ctx
              (((flattenActivities sections).filterMap (fun a =>
                a.id.map (fun i => (i, a)))).foldl (fun m q => aset m q.1 q.2) [])
              (Collaborative.collect_activity_scores ctx c
                ((Collaborative.get_user_activities ctx u c).map (·.1))
                ((pySortedByDesc (·.2) (Collaborative.calculate_user_similarity ctx u
                  (Collaborative.build_user_course_matrix ctx))).take
                  Collaborative.MAX_SIMILAR_USERS)).2)
            (pySortedByDesc (·.2)
              (Collaborative.collect_activity_scores ctx c
                ((Collaborative.get_user_activities ctx u c).map (·.1))
                ((pySortedByDesc (·.2) (Collaborative.calculate_user_similarity ctx u
                  (Collaborative.build_user_course_matrix ctx))).take
                  Collaborative.MAX_SIMILAR_USERS)).1)
            [])
          l) := by
  unfold Collaborative.recommend_activities Collaborative.recommend_activitiesE
    Collaborative.recommend_activities_body
  cases h1 : ctx.client.get_course_contents c with
  | error e => exact Or.inl rfl
  | ok sections =>
    simp only [Bind.bind, Except.bind]
    by_cases hsim : Collaborative.calculate_user_similarity ctx u
        (Collaborative.build_user_course_matrix ctx) = []
    · rw [if_pos hsim]
      exact Or.inr (Or.inl ⟨sections, rfl, rfl⟩)
    · rw [if_neg hsim]
      exact Or.inr (Or.inr ⟨sections, rfl, rfl⟩)

theorem collab_acts_spec (ctx : Ctx) (u c l : Nat) :
    ∀ r ∈ Collaborative.recommend_activities ctx u c l,
      (∀ i, r.entity.id = some i →
        i ∉ (Collaborative.get_user_activities ctx u c).map (·.1)) ∧
      (∃ s, r.recommendation_reason = some s ∧ s ≠ "") := by
  intro r hr
  rcases collab_acts_shape ctx u c l with h | ⟨sections, h1, h⟩ | ⟨sections, h1, h⟩
  · rw [h] at hr; cases hr
  · rw [h] at hr
    rcases List.mem_map.1 hr with ⟨a, ha, hdec⟩
    have ha2 := mem_pySortedBy.1 (List.take_subset _ _ ha)
    have hfil := List.mem_filter.1 ha2
    constructor
    · intro i hi
      rw [← hdec] at hi
      have := hfil.2
      unfold Collaborative.fallback_activity_dec at hi
      simp only at hi
      rw [hi] at this
      simpa using this
    · rw [← hdec]
      exact exists_reason (by decide)
  · rw [h] at hr
    rcases pad_activity_spec (flattenActivities sections)
      ((Collaborative.get_user_activities ctx u c).map (·.1)) _ l with ⟨pad, hpad, hpadspec⟩
    rw [hpad] at hr
    rcases List.mem_append.1 hr with hr' | hr'
    · rcases emitLoop_mem hr' with h' | ⟨p, hp, hskip, hstep⟩
      · cases h'
      · have hpcs := mem_pySortedByDesc.1 hp
        have hkey := collect_activity_scores_keys ctx c _ _ p hpcs
        unfold Collaborative.activity_step at hstep
        cases hcd : aget (((flattenActivities sections).filterMap (fun a =>
            a.id.map (fun i => (i, a)))).foldl (fun m q => aset m q.1 q.2) []) p.1 with
        | none => rw [hcd] at hstep; cases hstep
        | some activity_data =>
          rw [hcd] at hstep
          simp only [Option.some.injEq] at hstep
          have hcdid : activity_data.id = some p.1 :=
            (idMap_mem (flattenActivities sections) _ (aget_some_mem hcd)).1
          constructor
          · intro i hi
            rw [← hstep] at hi
            simp only at hi
            rw [hcdid] at hi
            injection hi with hi
            rw [← hi]
            exact hkey
          · rw [← hstep]
            exact exists_reason (append_ne_empty_left _ (append_ne_empty_left _
              (append_ne_empty_left _ (append_ne_empty_left _ (by decide)))))
    · rcases hpadspec r hr' with ⟨hcs, hes, a, ha, i, hid, hnr, hnu, hre⟩
      constructor
      · intro i' hi'
        rw [hre] at hi'
        simp only at hi'
        rw [hid] at hi'
        injection hi' with hi'
        rw [← hi']
        exact hnu
      · rw [hre]
        exact exists_reason (by decide)

theorem collab_acts_scoresDesc (ctx : Ctx) (u c l : Nat) :
    ScoresDesc (fun r => r.collaborative_score)
      (Collaborative.recommend_activities ctx u c l) := by
  rcases collab_acts_shape ctx u c l with h | ⟨sections, _, h⟩ | ⟨sections, _, h⟩
  · rw [h]; exact List.Pairwise.nil
  · rw [h]
    refine scoresDesc_of_none ?_
    intro r hr
    rcases List.mem_map.1 hr with ⟨a, _, hdec⟩
    rw [← hdec]
    rfl
  · rw [h]
    rcases pad_activity_spec (flattenActivities sections)
      ((Collaborative.get_user_activities ctx u c).map (·.1)) _ l with ⟨pad, hpad, hpadspec⟩
    rw [hpad]
    refine scoresDesc_append ?_ (fun r hr => (hpadspec r hr).1)
    refine emitLoop_pairwise ?_ (pairwise_pySortedByDesc _ _) List.Pairwise.nil
      (by intro b hb; cases hb)
    intro a b r s hab hr hs x y hx hy
    unfold Collaborative.activity_step at hr hs
    cases hra : aget (((flattenActivities sections).filterMap (fun a =>
        a.id.map (fun i => (i, a)))).foldl (fun m q => aset m q.1 q.2) []) a.1 with
    | none => rw [hra] at hr; cases hr
    | some ca =>
      rw [hra] at hr
      simp only [Option.some.injEq] at hr
      cases hrb : aget (((flattenActivities sections).filterMap (fun a =>
          a.id.map (fun i => (i, a)))).foldl (fun m q => aset m q.1 q.2) []) b.1 with
      | none => rw [hrb] at hs; cases hs
      | some cb =>
        rw [hrb] at hs
        simp only [Option.some.injEq] at hs
        rw [← hr] at hx
        rw [← hs] at hy
        simp only at hx hy
        injection hx with hx
        injection hy with hy
        rw [← hx, ← hy]
        exact hab

theorem course_similarity_scores_keys (ids : List Nat) (feats : List CourseFeatures)
    (texts : List String) (utags : List String) (sims : List ℚ) :
    ∀ p ∈ ContentBased.course_similarity_scores ids feats texts utags sims, p.1 ∈ ids := by
  unfold ContentBased.course_similarity_scores
  refine foldl_preserve_mem
    (P := fun (m : List (Nat × ℚ)) => ∀ p ∈ m, p.1 ∈ ids) _ [] ?_ (by intro p hp; cases hp)
  intro m q hq hm p hp
  have hqid : q.2.1 ∈ ids := by
    have h1 := List.snd_mem_of_mem_enum hq
    rcases q with ⟨i, cid, feat⟩
    exact (List.of_mem_zip h1).1
  simp only at hp
  split at hp
  · split at hp
    · split at hp
      · rcases mem_aset hp with rfl | hp'
        · exact hqid
        · rcases mem_aset hp' with rfl | hp''
          · exact hqid
          · exact hm p hp''
      · rcases mem_aset hp with rfl | hp'
        · exact hqid
        · exact hm p hp'
    · exact hm p hp
  · exact hm p hp

theorem other_features_fold_ids (ctx : Ctx) (uids : List Nat)
    (tags : List (Nat × List String)) :
    ∀ {l : List Entity} {st out : List CourseFeatures × List Nat},
      ContentBased.other_features_fold ctx uids tags l st = Except.ok out →
      ∀ cid ∈ out.2, cid ∈ st.2 ∨ (cid ∉ uids ∧ cid ≠ 1) := by
  intro l
  induction l with
  | nil =>
    intro st out h cid hc
    cases h
    exact Or.inl hc
  | cons course rest ih =>
    intro st out h cid hc
    unfold ContentBased.other_features_fold at h
    cases hid : course.id with
    | none => rw [hid] at h; exact ih h cid hc
    | some i =>
      rw [hid] at h
      cases i with
      | zero => exact ih h cid hc
      | succ n =>
        simp only at h
        split at h
        · rename_i hcond
          cases hfe : extract_course_features ctx course (some tags) with
          | error e => rw [hfe] at h; cases h
          | ok features =>
            rw [hfe] at h
            rcases ih h cid hc with h' | h'
            · rcases List.mem_append.1 h' with h'' | h''
              · exact Or.inl h''
              · rw [List.mem_singleton.1 h'']
                exact Or.inr hcond
            · exact Or.inr h'
        · exact ih h cid hc

theorem content_similarity_keys (ctx : Ctx) (u : Nat) (ac : List Entity) :
    ∀ p ∈ ContentBased.calculate_course_content_similarity ctx u ac,
      (∀ ucs, ctx.client.get_user_courses u = Except.ok ucs →
        p.1 ∉ ucs.filterMap (·.id)) ∧ p.1 ≠ 1 := by
  intro p hp
  unfold ContentBased.calculate_course_content_similarity at hp
  cases hE : ContentBased.calculate_course_content_similarityE ctx u ac with
  | error e => rw [hE] at hp; cases hp
  | ok m =>
    rw [hE] at hp
    unfold ContentBased.calculate_course_content_similarityE at hE
    cases h2 : ctx.client.get_user_courses u with
    | error e => rw [h2] at hE; exact Except.noConfusion hE
    | ok ucs =>
      rw [h2] at hE
      simp only [Bind.bind, Except.bind] at hE
      cases h3 : mapIdsE ucs with
      | error e => rw [h3] at hE; exact Except.noConfusion hE
      | ok uids =>
        rw [h3] at hE
        simp only at hE
        by_cases hnil : uids = []
        · rw [if_pos hnil] at hE
          injection hE with hE
          subst hE
          cases hp
        · rw [if_neg hnil] at hE
          cases h4 : ctx.client.get_all_course_tags with
          | error e => rw [h4] at hE; exact Except.noConfusion hE
          | ok tags =>
            rw [h4] at hE
            simp only at hE
            cases h5 : ContentBased.user_features_fold ctx ac tags uids ([], []) with
            | error e => rw [h5] at hE; exact Except.noConfusion hE
            | ok uf =>
              rw [h5] at hE
              simp only at hE
              by_cases hnil2 : uf.1 = []
              · rw [if_pos hnil2] at hE
                injection hE with hE
                subst hE
                cases hp
              · rw [if_neg hnil2] at hE
                cases h6 : ContentBased.other_features_fold ctx uids tags ac ([], []) with
                | error e => rw [h6] at hE; exact Except.noConfusion hE
                | ok ofst =>
                  rw [h6] at hE
                  simp only at hE
                  by_cases hnil3 : ofst.1 = []
                  · rw [if_pos hnil3] at hE
                    injection hE with hE
                    subst hE
                    cases hp
                  · rw [if_neg hnil3] at hE
                    split at hE
                    · injection hE with hE
                      subst hE
                      cases hp
                    · cases h7 : ctx.tfidf_max_sim_courses
                        ((uf.1.map (·.content)).filter
                          (fun t => decide (ContentBased.MIN_DESCRIPTION_LENGTH ≤ t.length)))
                        ((ofst.1.map (·.content)).filter
                          (fun t => decide (ContentBased.MIN_DESCRIPTION_LENGTH ≤ t.length))) with
                      | error e =>
                        rw [h7] at hE
                        injection hE with hE
                        subst hE
                        cases hp
                      | ok sims =>
                        rw [h7] at hE
                        injection hE with hE
                        subst hE
                        have hk := course_similarity_scores_keys _ _ _ _ _ p hp
                        rcases other_features_fold_ids ctx uids tags h6 p.1 hk with h' | h'
                        · cases h'
                        · refine ⟨?_, h'.2⟩
                          intro ucs' hucs'
                          injection hucs' with he
                          subst he
                          rw [← mapIdsE_ok_eq h3]
                          exact h'.1

theorem content_courses_shape (ctx : Ctx) (u l : Nat) :
    ContentBased.recommend_courses ctx u l = [] ∨
    (∃ (ac ucs : List Entity) (uids : List Nat),
      ctx.client.get_user_courses u = Except.ok ucs ∧ mapIdsE ucs = Except.ok uids ∧
      ContentBased.recommend_courses ctx u l =
        ((pySortedByDesc (fun c => c.timecreated.getD 0)
          (ac.filter (fun c =>
            match c.id with
            | none => false
            | some 0 => false
            | some i => decide (i ∉ uids ∧ i ≠ 1)))).take l).map Item.ofEntity) ∨
    (∃ (ac : List Entity) (out : List Item),
      ctx.client.get_site_courses = Except.ok ac ∧
      emitLoopM l (fun (p : Nat × ℚ) => decide (p.2 < ContentBased.ITEM_SCORE_THRESHOLD))
        (ContentBased.course_step ctx
          ((ac.filterMap (fun c => c.id.map (fun i => (i, c)))).foldl
            (fun m p => aset m p.1 p.2) []))
        (pySortedByDesc (·.2) (ContentBased.calculate_course_content_similarity ctx u ac)) [] =
        Except.ok out ∧
      ContentBased.recommend_courses ctx u l = out) := by
  unfold ContentBased.recommend_courses ContentBased.recommend_coursesE
    ContentBased.recommend_courses_body
  cases h1 : ctx.client.get_site_courses with
  | error e => exact Or.inl rfl
  | ok ac =>
    simp only [Bind.bind, Except.bind]
    by_cases hsc : ContentBased.calculate_course_content_similarity ctx u ac = []
    · rw [if_pos hsc]
      cases h2 : ctx.client.get_user_courses u with
      | error e => exact Or.inl rfl
      | ok ucs =>
        simp only
        cases h3 : mapIdsE ucs with
        | error e => exact Or.inl rfl
        | ok uids =>
          simp only
          exact Or.inr (Or.inl ⟨ac, ucs, uids, rfl, h3, rfl⟩)
    · rw [if_neg hsc]
      cases h5 : emitLoopM l
          (fun (p : Nat × ℚ) => decide (p.2 < ContentBased.ITEM_SCORE_THRESHOLD))
          (ContentBased.course_step ctx
            ((ac.filterMap (fun c => c.id.map (fun i => (i, c)))).foldl
              (fun m p => aset m p.1 p.2) []))
          (pySortedByDesc (·.2)
            (ContentBased.calculate_course_content_similarity ctx u ac)) [] with
      | error e => exact Or.inl rfl
      | ok out => exact Or.inr (Or.inr ⟨ac, out, rfl, h5, rfl⟩)

theorem content_courses_spec (ctx : Ctx) (u l : Nat) :
    ∀ r ∈ ContentBased.recommend_courses ctx u l,
      (∃ i, r.entity.id = some i ∧ i ≠ 1 ∧
        ∀ ucs, ctx.client.get_user_courses u = Except.ok ucs → i ∉ ucs.filterMap (·.id)) ∧
      r.recommendation_reason ≠ some "" := by
  intro r hr
  rcases content_courses_shape ctx u l with h | ⟨ac, ucs, uids, h2, h3, h⟩ |
    ⟨ac, out, h1, h5, h⟩
  · rw [h] at hr; cases hr
  · rw [h] at hr
    rcases List.mem_map.1 hr with ⟨c, hc, hdec⟩
    have hc2 := mem_pySortedByDesc.1 (List.take_subset _ _ hc)
    have hfil := List.mem_filter.1 hc2
    have hcond := hfil.2
    constructor
    · cases hid : c.id with
      | none => rw [hid] at hcond; simp at hcond
      | some i =>
        rw [hid] at hcond
        cases i with
        | zero => simp at hcond
        | succ n =>
          simp only at hcond
          have hcond2 : (n + 1) ∉ uids ∧ (n + 1) ≠ 1 := by simpa using hcond
          refine ⟨n + 1, ?_, hcond2.2, ?_⟩
          · rw [← hdec]; exact hid
          · intro ucs' hucs'
            have he := h2.symm.trans hucs'
            injection he with he
            subst he
            rw [← mapIdsE_ok_eq h3]
            exact hcond2.1
    · rw [← hdec]
      intro hcontra
      cases hcontra
  · rw [h] at hr
    rcases emitLoopM_ok_mem h5 r hr with h' | ⟨p, hp, hskip, hstep⟩
    · cases h'
    · have hpm := mem_pySortedByDesc.1 hp
      have hkeys := content_similarity_keys ctx u ac p hpm
      unfold ContentBased.course_step at hstep
      cases hcd : aget ((ac.filterMap (fun c => c.id.map (fun i => (i, c)))).foldl
          (fun m p => aset m p.1 p.2) []) p.1 with
      | none => rw [hcd] at hstep; injection hstep with hstep; cases hstep
      | some course_data =>
        rw [hcd] at hstep
        cases hct : get_course_tags ctx p.1 none with
        | error e => rw [hct] at hstep; cases hstep
        | ok ctags =>
          rw [hct] at hstep
          simp only [Except.ok.injEq, Option.some.injEq] at hstep
          have hcdid : course_data.id = some p.1 :=
            (idMap_mem ac _ (aget_some_mem hcd)).1
          constructor
          · refine ⟨p.1, ?_, hkeys.2, ?_⟩
            · rw [← hstep]; exact hcdid
            · exact hkeys.1
          · rw [← hstep]
            simp only
            intro hcontra
            injection hcontra with hcontra
            revert hcontra
            split
            · exact append_ne_empty_left _ (append_ne_empty_left _ (by
                exact append_ne_empty_left _ (append_ne_empty_left _ (by decide))))
            · exact append_ne_empty_left _ (append_ne_empty_left _ (by decide))

theorem content_courses_scoresDesc (ctx : Ctx) (u l : Nat) :
    ScoresDesc (fun r => r.content_similarity_score)
      (ContentBased.recommend_courses ctx u l) := by
  rcases content_courses_shape ctx u l with h | ⟨ac, ucs, uids, _, _, h⟩ |
    ⟨ac, out, h1, h5, h⟩
  · rw [h]; exact List.Pairwise.nil
  · rw [h]
    refine scoresDesc_of_none ?_
    intro r hr
    rcases List.mem_map.1 hr with ⟨c, _, hdec⟩
    rw [← hdec]
    rfl
  · rw [h]
    refine emitLoopM_pairwise ?_ (pairwise_pySortedByDesc _ _) List.Pairwise.nil
      (by intro b hb; cases hb) h5
    intro a b r s hab hr hs x y hx hy
    unfold ContentBased.course_step at hr hs
    cases hra : aget ((ac.filterMap (fun c => c.id.map (fun i => (i, c)))).foldl
        (fun m p => aset m p.1 p.2) []) a.1 with
    | none => rw [hra] at hr; injection hr with hr; cases hr
    | some ca =>
      rw [hra] at hr
      cases hcta : get_course_tags ctx a.1 none with
      | error e => rw [hcta] at hr; cases hr
      | ok ctagsa =>
        rw [hcta] at hr
        simp only [Except.ok.injEq, Option.some.injEq] at hr
        cases hrb : aget ((ac.filterMap (fun c => c.id.map (fun i => (i, c)))).foldl
            (fun m p => aset m p.1 p.2) []) b.1 with
        | none => rw [hrb] at hs; injection hs with hs; cases hs
        | some cb =>
          rw [hrb] at hs
          cases hctb : get_course_tags ctx b.1 none with
          | error e => rw [hctb] at hs; cases hs
          | ok ctagsb =>
            rw [hctb] at hs
            simp only [Except.ok.injEq, Option.some.injEq] at hs
            rw [← hr] at hx
            rw [← hs] at hy
            simp only at hx hy
            injection hx with hx
            injection hy with hy
            rw [← hx, ← hy]
            exact hab

theorem content_courses_length (ctx : Ctx) (u l : Nat) :
    (ContentBased.recommend_courses ctx u l).length ≤ max l 1 := by
  rcases content_courses_shape ctx u l with h | ⟨ac, ucs, uids, _, _, h⟩ |
    ⟨ac, out, h1, h5, h⟩
  · rw [h]; simp
  · rw [h, List.length_map]
    exact le_trans (List.length_take_le l _) (le_max_left l 1)
  · rw [h]
    exact le_trans (emitLoopM_ok_length h5) (by simp)

theorem activity_similarity_scores_keys (oth : List Nat) (ofeat : List ActivityFeatures)
    (otexts : List String) (sims : List ℚ) :
    ∀ p ∈ ContentBased.activity_similarity_scores oth ofeat otexts sims, p.1 ∈ oth := by
  unfold ContentBased.activity_similarity_scores
  refine foldl_preserve_mem
    (P := fun (m : List (Nat × ℚ)) => ∀ p ∈ m, p.1 ∈ oth) _ [] ?_ (by intro p hp; cases hp)
  intro m q hq hm p hp
  have hqid : q.2.1 ∈ oth := by
    have h1 := List.snd_mem_of_mem_enum hq
    rcases q with ⟨i, aid, feat⟩
    exact (List.of_mem_zip h1).1
  simp only at hp
  split at hp
  · split at hp
    · exact hm p hp
    · split at hp
      · split at hp
        · rcases mem_aset hp with rfl | hp'
          · exact hqid
          · exact hm p hp'
        · exact hm p hp
      · exact hm p hp
  · exact hm p hp

theorem content_pad_spec (all : List Entity) (engaged : List Nat) (recs : List Item)
    (limit : Nat) :
    ∃ pad, ContentBased.pad_activity_recs all engaged recs limit = recs ++ pad ∧
      ∀ b ∈ pad, b.content_similarity_score = none ∧
        ∃ a ∈ all, ∃ i, a.id = some i ∧ i ∉ engaged ∧
          b = { entity := a, recommendation_reason :=
            some "Suggested based on course structure" } := by
  unfold ContentBased.pad_activity_recs
  split
  · rcases @padLoop_eq_append Entity Item limit _ all recs with ⟨pad, ys, h1, h2, h3⟩
    refine ⟨pad, h1, ?_⟩
    intro b hb
    rcases exists_left_of_forall₂ h3 b hb with ⟨a, ha, hr⟩
    cases hid : a.id with
    | none => rw [hid] at hr; cases hr
    | some i =>
      rw [hid] at hr
      simp only at hr
      by_cases hcond : i ∉ recs.filterMap (fun r => r.entity.id) ∧ i ∉ engaged
      · rw [if_pos hcond] at hr
        injection hr with hr
        rw [← hr]
        exact ⟨rfl, a, h2.subset ha, i, hid, hcond.2, rfl⟩
      · rw [if_neg hcond] at hr
        cases hr
  · exact ⟨[], by simp, by intro b hb; cases hb⟩

theorem content_acts_shape (ctx : Ctx) (u c l : Nat) :
    ContentBased.recommend_activities ctx u c l = [] ∨
    (∃ (sections : List CourseSection) (stat : Option (List CmStatus)),
      ctx.client.get_activities_completion_status u c = Except.ok stat ∧
      ContentBased.engaged_of stat = [] ∧
      ContentBased.recommend_activities ctx u c l =
        ((flattenActivities sections).take l).map Item.ofEntity) ∨
    (∃ (sections : List CourseSection) (stat : Option (List CmStatus)),
      ctx.client.get_activities_completion_status u c = Except.ok stat ∧
      ContentBased.recommend_activities ctx u c l =
        (((flattenActivities sections).filter (fun a => a.id.all (fun i =>
          decide (i ∉ ContentBased.engaged_of stat)))).take l).map Item.ofEntity) ∨
    (∃ (sections : List CourseSection) (stat : Option (List CmStatus))
       (ofeat : List ActivityFeatures) (otexts : List String) (sims : List ℚ),
      ctx.client.get_activities_completion_status u c = Except.ok stat ∧
      ContentBased.recommend_activities ctx u c l =
        ContentBased.pad_activity_recs (flattenActivities sections)
          (ContentBased.engaged_of stat)
          (emitLoop l (fun _ => false)
            (ContentBased.activity_step
              (((flattenActivities sections).filterMap (fun a =>
                a.id.map (fun i => (i, a)))).foldl (fun m q => aset m q.1 q.2) []))
            (pySortedByDesc (·.2)
              (ContentBased.activity_similarity_scores
                (((((flattenActivities sections).filterMap (fun a =>
                  a.id.map (fun i => (i, a)))).foldl (fun m q => aset m q.1 q.2) []).map
                    (·.1)).filter
                  (fun aid => decide (aid ∉ ContentBased.engaged_of stat)))
                ofeat otexts sims)) [])
          l) := by
  have hbody : (∃ e, ContentBased.recommend_activities_body ctx u c l = Except.error e) ∨
      (∃ (sections : List CourseSection) (stat : Option (List CmStatus)),
        ctx.client.get_activities_completion_status u c = Except.ok stat ∧
        ContentBased.engaged_of stat = [] ∧
        ContentBased.recommend_activities_body ctx u c l =
          Except.ok (((flattenActivities sections).take l).map Item.ofEntity)) ∨
      (∃ (sections : List CourseSection) (stat : Option (List CmStatus)),
        ctx.client.get_activities_completion_status u c = Except.ok stat ∧
        ContentBased.recommend_activities_body ctx u c l =
          Except.ok ((((flattenActivities sections).filter (fun a => a.id.all (fun i =>
            decide (i ∉ ContentBased.engaged_of stat)))).take l).map Item.ofEntity)) ∨
      (∃ (sections : List CourseSection) (stat : Option (List CmStatus))
         (ofeat : List ActivityFeatures) (otexts : List String) (sims : List ℚ),
        ctx.client.get_activities_completion_status u c = Except.ok stat ∧
        ContentBased.recommend_activities_body ctx u c l =
          Except.ok (ContentBased.pad_activity_recs (flattenActivities sections)
            (ContentBased.engaged_of stat)
            (emitLoop l (fun _ => false)
              (ContentBased.activity_step
                (((flattenActivities sections).filterMap (fun a =>
                  a.id.map (fun i => (i, a)))).foldl (fun m q => aset m q.1 q.2) []))
              (pySortedByDesc (·.2)
                (ContentBased.activity_similarity_scores
                  (((((flattenActivities sections).filterMap (fun a =>
                    a.id.map (fun i => (i, a)))).foldl (fun m q => aset m q.1 q.2) []).map
                      (·.1)).filter
                    (fun aid => decide (aid ∉ ContentBased.engaged_of stat)))
                  ofeat otexts sims)) [])
            l)) := by
    unfold ContentBased.recommend_activities_body
    cases h1 : ctx.client.get_course_contents c with
    | error e => exact Or.inl ⟨e, rfl⟩
    | ok sections =>
      simp only [Bind.bind, Except.bind]
      cases h2 : ctx.client.get_activities_completion_status u c with
      | error e => exact Or.inl ⟨e, rfl⟩
      | ok stat =>
        simp only
        by_cases heng : ContentBased.engaged_of stat = []
        · rw [if_pos heng]
          exact Or.inr (Or.inl ⟨sections, stat, rfl, heng, rfl⟩)
        · rw [if_neg heng]
          split
          · exact Or.inr (Or.inr (Or.inl ⟨sections, stat, rfl, rfl⟩))
          · split
            · exact Or.inr (Or.inr (Or.inl ⟨sections, stat, rfl, rfl⟩))
            · rename_i sims hsims
              exact Or.inr (Or.inr (Or.inr ⟨sections, stat, _, _, sims, rfl, rfl⟩))
  unfold ContentBased.recommend_activities ContentBased.recommend_activitiesE
  rcases hbody with ⟨e, hb⟩ | ⟨sections, stat, h2, heng, hb⟩ |
    ⟨sections, stat, h2, hb⟩ | ⟨sections, stat, ofeat, otexts, sims, h2, hb⟩
  · rw [hb]; exact Or.inl rfl
  · rw [hb]; exact Or.inr (Or.inl ⟨sections, stat, h2, heng, rfl⟩)
  · rw [hb]; exact Or.inr (Or.inr (Or.inl ⟨sections, stat, h2, rfl⟩))
  · rw [hb]
    exact Or.inr (Or.inr (Or.inr ⟨sections, stat, ofeat, otexts, sims, h2, rfl⟩))

theorem content_acts_spec (ctx : Ctx) (u c l : Nat) :
    ∀ r ∈ ContentBased.recommend_activities ctx u c l,
      (∀ stat, ctx.client.get_activities_completion_status u c = Except.ok stat →
        ∀ i, r.entity.id = some i → i ∉ ContentBased.engaged_of stat) ∧
      r.recommendation_reason ≠ some "" := by
  intro r hr
  rcases content_acts_shape ctx u c l with h | ⟨sections, stat, h2, heng, h⟩ |
    ⟨sections, stat, h2, h⟩ | ⟨sections, stat, ofeat, otexts, sims, h2, h⟩
  · rw [h] at hr; cases hr
  · rw [h] at hr
    rcases List.mem_map.1 hr with ⟨a, ha, hdec⟩
    constructor
    · intro stat' hstat' i hi
      have he := h2.symm.trans hstat'
      injection he with he
      subst he
      rw [heng]
      simp
    · rw [← hdec]; intro hx; cases hx
  · rw [h] at hr
    rcases List.mem_map.1 hr with ⟨a, ha, hdec⟩
    have hfil := List.mem_filter.1 (List.take_subset _ _ ha)
    constructor
    · intro stat' hstat' i hi
      have he := h2.symm.trans hstat'
      injection he with he
      subst he
      have := hfil.2
      rw [← hdec] at hi
      simp only [Item.ofEntity] at hi
      rw [hi] at this
      simpa using this
    · rw [← hdec]; intro hx; cases hx
  · rw [h] at hr
    rcases content_pad_spec (flattenActivities sections) (ContentBased.engaged_of stat) _ l
      with ⟨pad, hpad, hpadspec⟩
    rw [hpad] at hr
    rcases List.mem_append.1 hr with hr' | hr'
    · rcases emitLoop_mem hr' with h' | ⟨p, hp, hskip, hstep⟩
      · cases h'
      · have hpm := mem_pySortedByDesc.1 hp
        have hk := activity_similarity_scores_keys _ _ _ _ p hpm
        have hknotin : p.1 ∉ ContentBased.engaged_of stat := by
          have := (List.mem_filter.1 hk).2
          simpa using this
        unfold ContentBased.activity_step at hstep
        cases hcd : aget (((flattenActivities sections).filterMap (fun a =>
            a.id.map (fun i => (i, a)))).foldl (fun m q => aset m q.1 q.2) []) p.1 with
        | none => rw [hcd] at hstep; cases hstep
        | some activity_data =>
          rw [hcd] at hstep
          simp only [Option.some.injEq] at hstep
          have hcdid : activity_data.id = some p.1 :=
            (idMap_mem (flattenActivities sections) _ (aget_some_mem hcd)).1
          constructor
          · intro stat' hstat' i hi
            have he := h2.symm.trans hstat'
            injection he with he
            subst he
            rw [← hstep] at hi
            simp only at hi
            rw [hcdid] at hi
            injection hi with hi
            rw [← hi]
            exact hknotin
          · rw [← hstep]
            intro hx
            injection hx with hx
            exact absurd hx (by decide)
    · rcases hpadspec r hr' with ⟨hcs, a, ha, i, hid, hni, hre⟩
      constructor
      · intro stat' hstat' i' hi'
        have he := h2.symm.trans hstat'
        injection he with he
        subst he
        rw [hre] at hi'
        simp only at hi'
        rw [hid] at hi'
        injection hi' with hi'
        rw [← hi']
        exact hni
      · rw [hre]
        intro hx
        injection hx with hx
        exact absurd hx (by decide)

theorem content_acts_scoresDesc (ctx : Ctx) (u c l : Nat) :
    ScoresDesc (fun r => r.content_similarity_score)
      (ContentBased.recommend_activities ctx u c l) := by
  rcases content_acts_shape ctx u c l with h | ⟨sections, stat, _, _, h⟩ |
    ⟨sections, stat, _, h⟩ | ⟨sections, stat, ofeat, otexts, sims, _, h⟩
  · rw [h]; exact List.Pairwise.nil
  · rw [h]
    refine scoresDesc_of_none ?_
    intro r hr
    rcases List.mem_map.1 hr with ⟨a, _, hdec⟩
    rw [← hdec]; rfl
  · rw [h]
    refine scoresDesc_of_none ?_
    intro r hr
    rcases List.mem_map.1 hr with ⟨a, _, hdec⟩
    rw [← hdec]; rfl
  · rw [h]
    rcases content_pad_spec (flattenActivities sections) (ContentBased.engaged_of stat) _ l
      with ⟨pad, hpad, hpadspec⟩
    rw [hpad]
    refine scoresDesc_append ?_ (fun r hr => (hpadspec r hr).1)
    refine emitLoop_pairwise ?_ (pairwise_pySortedByDesc _ _) List.Pairwise.nil
      (by intro b hb; cases hb)
    intro a b r s hab hr hs x y hx hy
    unfold ContentBased.activity_step at hr hs
    cases hra : aget (((flattenActivities sections).filterMap (fun a =>
        a.id.map (fun i => (i, a)))).foldl (fun m q => aset m q.1 q.2) []) a.1 with
    | none => rw [hra] at hr; cases hr
    | some ca =>
      rw [hra] at hr
      simp only [Option.some.injEq] at hr
      cases hrb : aget (((flattenActivities sections).filterMap (fun a =>
          a.id.map (fun i => (i, a)))).foldl (fun m q => aset m q.1 q.2) []) b.1 with
      | none => rw [hrb] at hs; cases hs
      | some cb =>
        rw [hrb] at hs
        simp only [Option.some.injEq] at hs
        rw [← hr] at hx
        rw [← hs] at hy
        simp only at hx hy
        injection hx with hx
        injection hy with hy
        rw [← hx, ← hy]
        exact hab

theorem content_acts_length (ctx : Ctx) (u c l : Nat) :
    (ContentBased.recommend_activities ctx u c l).length ≤ max l 1 := by
  rcases content_acts_shape ctx u c l with h | ⟨sections, stat, _, _, h⟩ |
    ⟨sections, stat, _, h⟩ | ⟨sections, stat, ofeat, otexts, sims, _, h⟩
  · rw [h]; simp
  · rw [h, List.length_map]
    exact le_trans (List.length_take_le l _) (le_max_left l 1)
  · rw [h, List.length_map]
    exact le_trans (List.length_take_le l _) (le_max_left l 1)
  · rw [h]
    unfold ContentBased.pad_activity_recs
    split
    · rename_i hlt
      exact le_trans (padLoop_length_le hlt) (le_max_left l 1)
    · exact le_trans emitLoop_length (by simp)

theorem collab_acts_length (ctx : Ctx) (u c l : Nat) :
    (Collaborative.recommend_activities ctx u c l).length ≤ max l 1 := by
  rcases collab_acts_shape ctx u c l with h | ⟨sections, _, h⟩ | ⟨sections, _, h⟩
  · rw [h]; simp
  · rw [h, List.length_map]
    exact le_trans (List.length_take_le l _) (le_max_left l 1)
  · rw [h]
    unfold Collaborative.pad_activity_recommendations
    split
    · rename_i hlt
      exact le_trans (padLoop_length_le hlt) (le_max_left l 1)
    · exact le_trans emitLoop_length (by simp)

theorem interest_features_fold_keys (ctx : Ctx) (t : Option (List (Nat × List String))) :
    ∀ (courses : List Entity) (m out : List (Nat × CourseFeatures)),
      InterestsBased.interest_features_fold ctx t courses m = Except.ok out →
      ∀ p ∈ out, p ∈ m ∨ (p.1 ≠ 1 ∧ ∃ c ∈ courses, c.id = some p.1) := by
  intro courses
  induction courses with
  | nil =>
    intro m out h p hp
    unfold InterestsBased.interest_features_fold at h
    injection h with h
    exact Or.inl (h ▸ hp)
  | cons course rest ih =>
    intro m out h p hp
    unfold InterestsBased.interest_features_fold at h
    split at h
    · rcases ih m out h p hp with h' | ⟨h1, c, hc, hcid⟩
      · exact Or.inl h'
      · exact Or.inr ⟨h1, c, List.mem_cons_of_mem _ hc, hcid⟩
    · rcases ih m out h p hp with h' | ⟨h1, c, hc, hcid⟩
      · exact Or.inl h'
      · exact Or.inr ⟨h1, c, List.mem_cons_of_mem _ hc, hcid⟩
    · rename_i cid hcid0
      split at h
      · rename_i hne1
        split at h
        · exact Except.noConfusion h
        · rename_i features hfeat
          rcases ih _ out h p hp with h' | ⟨h1, c, hc, hcid⟩
          · rcases mem_aset h' with rfl | h''
            · exact Or.inr ⟨hne1, course, List.mem_cons_self _ _, hcid0⟩
            · exact Or.inl h''
          · exact Or.inr ⟨h1, c, List.mem_cons_of_mem _ hc, hcid⟩
      · rcases ih m out h p hp with h' | ⟨h1, c, hc, hcid⟩
        · exact Or.inl h'
        · exact Or.inr ⟨h1, c, List.mem_cons_of_mem _ hc, hcid⟩

theorem interest_matches_shape (ctx : Ctx) (u : Nat) (courses : List Entity)
    (t : Option (List (Nat × List String))) :
    InterestsBased.calculate_interest_course_matches ctx u courses t = [] ∨
    ∃ (cf : List (Nat × CourseFeatures)),
      InterestsBased.interest_features_fold ctx t courses [] = Except.ok cf ∧
      InterestsBased.calculate_interest_course_matches ctx u courses t =
        cf.foldl (fun m p =>
          if p.2.content.length < InterestsBased.MIN_DESCRIPTION_LENGTH then m
          else
            if InterestsBased.interest_course_score ctx (ctx.user_interests u)
                (String.intercalate " " ((ctx.user_interests u).map ctx.clean_text)) p.2 >
                InterestsBased.ITEM_SCORE_THRESHOLD then
              aset m p.1 (min (InterestsBased.interest_course_score ctx (ctx.user_interests u)
                (String.intercalate " " ((ctx.user_interests u).map ctx.clean_text)) p.2) 5)
            else m) [] := by
  unfold InterestsBased.calculate_interest_course_matches
    InterestsBased.calculate_interest_course_matchesE
  by_cases hui : ctx.user_interests u = []
  · rw [if_pos hui]
    exact Or.inl rfl
  · rw [if_neg hui]
    simp only [Bind.bind, Except.bind]
    cases hcf : InterestsBased.interest_features_fold ctx t courses [] with
    | error e => exact Or.inl rfl
    | ok cf =>
      simp only
      exact Or.inr ⟨cf, rfl, rfl⟩

theorem interest_matches_keys (ctx : Ctx) (u : Nat) (courses : List Entity)
    (t : Option (List (Nat × List String))) :
    ∀ p ∈ InterestsBased.calculate_interest_course_matches ctx u courses t,
      p.1 ≠ 1 ∧ ∃ c ∈ courses, c.id = some p.1 := by
  intro p hp
  rcases interest_matches_shape ctx u courses t with h | ⟨cf, hcf, h⟩
  · rw [h] at hp; cases hp
  · rw [h] at hp
    refine foldl_preserve_mem (P := fun (m : List (Nat × ℚ)) => ∀ q ∈ m,
      q.1 ≠ 1 ∧ ∃ c ∈ courses, c.id = some q.1) cf [] ?_ (by intro q hq; cases hq) p hp
    intro m q hq hm r hr
    split at hr
    · exact hm r hr
    · split at hr
      · rcases mem_aset hr with rfl | hr'
        · rcases interest_features_fold_keys ctx t courses [] cf hcf q hq with h' | ⟨h1, hc⟩
          · cases h'
          · exact ⟨h1, hc⟩
        · exact hm r hr'
      · exact hm r hr

theorem interests_courses_shape (ctx : Ctx) (u l : Nat) :
    InterestsBased.recommend_courses ctx u l = [] ∨
    (∃ (ac ucs : List Entity) (uids : List Nat),
      ctx.client.get_user_courses u = Except.ok ucs ∧ mapIdsE ucs = Except.ok uids ∧
      InterestsBased.recommend_courses ctx u l =
        ((pySortedByDesc (fun c => c.timecreated.getD 0)
          (ac.filter (fun c =>
            match c.id with
            | none => false
            | some 0 => false
            | some i => decide (i ∉ uids ∧ i ≠ 1)))).take l).map (fun c =>
          { entity := c,
            recommendation_reason :=
              some "Recent course (no interest matches found)" })) ∨
    (∃ (ac ucs : List Entity) (uids : List Nat) (tags : List (Nat × List String))
       (out : List Item),
      ctx.client.get_site_courses = Except.ok ac ∧
      ctx.client.get_user_courses u = Except.ok ucs ∧ mapIdsE ucs = Except.ok uids ∧
      emitLoopM l (fun (p : Nat × ℚ) => decide (p.1 ∈ uids))
        (InterestsBased.course_rec_step ctx u tags
          ((ac.filterMap (fun c => c.id.map (fun i => (i, c)))).foldl
            (fun m p => aset m p.1 p.2) []))
        (pySortedByDesc (·.2)
          (InterestsBased.calculate_interest_course_matches ctx u ac (some tags))) [] =
        Except.ok out ∧
      InterestsBased.recommend_courses ctx u l = out) := by
  unfold InterestsBased.recommend_courses InterestsBased.recommend_coursesE
    InterestsBased.recommend_courses_body
  cases h1 : ctx.client.get_site_courses with
  | error e => exact Or.inl rfl
  | ok ac =>
    simp only [Bind.bind, Except.bind]
    cases h2 : ctx.client.get_user_courses u with
    | error e => exact Or.inl rfl
    | ok ucs =>
      simp only
      cases h3 : mapIdsE ucs with
      | error e => exact Or.inl rfl
      | ok uids =>
        simp only
        cases h4 : ctx.client.get_all_course_tags with
        | error e => exact Or.inl rfl
        | ok tags =>
          simp only
          by_cases hims :
              InterestsBased.calculate_interest_course_matches ctx u ac (some tags) = []
          · rw [if_pos hims]
            exact Or.inr (Or.inl ⟨ac, ucs, uids, rfl, h3, rfl⟩)
          · rw [if_neg hims]
            cases h5 : emitLoopM l (fun (p : Nat × ℚ) => decide (p.1 ∈ uids))
                (InterestsBased.course_rec_step ctx u tags
                  ((ac.filterMap (fun c => c.id.map (fun i => (i, c)))).foldl
                    (fun m p => aset m p.1 p.2) []))
                (pySortedByDesc (·.2)
                  (InterestsBased.calculate_interest_course_matches ctx u ac (some tags)))
                [] with
            | error e => exact Or.inl rfl
            | ok out =>
              exact Or.inr (Or.inr ⟨ac, ucs, uids, tags, out, rfl, rfl, h3, h5, rfl⟩)

theorem interests_courses_spec (ctx : Ctx) (u l : Nat) :
    ∀ r ∈ InterestsBased.recommend_courses ctx u l,
      (∃ i, r.entity.id = some i ∧ i ≠ 1 ∧
        ∀ ucs, ctx.client.get_user_courses u = Except.ok ucs → i ∉ ucs.filterMap (·.id)) ∧
      (∃ s, r.recommendation_reason = some s ∧ s ≠ "") := by
  intro r hr
  rcases interests_courses_shape ctx u l with h | ⟨ac, ucs, uids, h2, h3, h⟩ |
    ⟨ac, ucs, uids, tags, out, h1, h2, h3, h5, h⟩
  · rw [h] at hr; cases hr
  · rw [h] at hr
    rcases List.mem_map.1 hr with ⟨c, hc, hdec⟩
    have hc2 := mem_pySortedByDesc.1 (List.take_subset _ _ hc)
    have hfil := List.mem_filter.1 hc2
    have hcond := hfil.2
    constructor
    · cases hid : c.id with
      | none => rw [hid] at hcond; simp at hcond
      | some i =>
        rw [hid] at hcond
        cases i with
        | zero => simp at hcond
        | succ n =>
          simp only at hcond
          have hcond2 : (n + 1) ∉ uids ∧ (n + 1) ≠ 1 := by simpa using hcond
          refine ⟨n + 1, ?_, hcond2.2, ?_⟩
          · rw [← hdec]; exact hid
          · intro ucs' hucs'
            have he := h2.symm.trans hucs'
            injection he with he
            subst he
            rw [← mapIdsE_ok_eq h3]
            exact hcond2.1
    · rw [← hdec]
      simp only
      exact exists_reason (by decide)
  · rw [h] at hr
    rcases emitLoopM_ok_mem h5 r hr with h' | ⟨p, hp, hskip, hstep⟩
    · cases h'
    · have hpm := mem_pySortedByDesc.1 hp
      have hkeys := interest_matches_keys ctx u ac (some tags) p hpm
      unfold InterestsBased.course_rec_step at hstep
      cases hcd : aget ((ac.filterMap (fun c => c.id.map (fun i => (i, c)))).foldl
          (fun m p => aset m p.1 p.2) []) p.1 with
      | none => rw [hcd] at hstep; injection hstep with hstep; cases hstep
      | some course_data =>
        rw [hcd] at hstep
        cases hct : get_course_tags ctx p.1 (some tags) with
        | error e => rw [hct] at hstep; cases hstep
        | ok ctags =>
          rw [hct] at hstep
          simp only [Bind.bind, Except.bind, Except.ok.injEq, Option.some.injEq] at hstep
          have hcdid : course_data.id = some p.1 :=
            (idMap_mem ac _ (aget_some_mem hcd)).1
          constructor
          · refine ⟨p.1, ?_, hkeys.1, ?_⟩
            · rw [← hstep]; exact hcdid
            · intro ucs' hucs'
              have he := h2.symm.trans hucs'
              injection he with he
              subst he
              rw [← mapIdsE_ok_eq h3]
              simpa using hskip
          · rw [← hstep]
            simp only
            refine exists_reason ?_
            split
            · exact append_ne_empty_left _ (append_ne_empty_left _ (append_ne_empty_left _
                (append_ne_empty_left _ (by decide))))
            · exact append_ne_empty_left _ (append_ne_empty_left _ (by decide))

theorem interests_courses_scoresDesc (ctx : Ctx) (u l : Nat) :
    ScoresDesc (fun r => r.interest_match_score)
      (InterestsBased.recommend_courses ctx u l) := by
  rcases interests_courses_shape ctx u l with h | ⟨ac, ucs, uids, _, _, h⟩ |
    ⟨ac, ucs, uids, tags, out, h1, h2, h3, h5, h⟩
  · rw [h]; exact List.Pairwise.nil
  · rw [h]
    refine scoresDesc_of_none ?_
    intro r hr
    rcases List.mem_map.1 hr with ⟨c, _, hdec⟩
    rw [← hdec]
  · rw [h]
    refine emitLoopM_pairwise ?_ (pairwise_pySortedByDesc _ _) List.Pairwise.nil
      (by intro b hb; cases hb) h5
    intro a b r s hab hr hs x y hx hy
    unfold InterestsBased.course_rec_step at hr hs
    cases hra : aget ((ac.filterMap (fun c => c.id.map (fun i => (i, c)))).foldl
        (fun m p => aset m p.1 p.2) []) a.1 with
    | none => rw [hra] at hr; injection hr with hr; cases hr
    | some ca =>
      rw [hra] at hr
      cases hcta : get_course_tags ctx a.1 (some tags) with
      | error e => rw [hcta] at hr; cases hr
      | ok ctagsa =>
        rw [hcta] at hr
        simp only [Bind.bind, Except.bind, Except.ok.injEq, Option.some.injEq] at hr
        cases hrb : aget ((ac.filterMap (fun c => c.id.map (fun i => (i, c)))).foldl
            (fun m p => aset m p.1 p.2) []) b.1 with
        | none => rw [hrb] at hs; injection hs with hs; cases hs
        | some cb =>
          rw [hrb] at hs
          cases hctb : get_course_tags ctx b.1 (some tags) with
          | error e => rw [hctb] at hs; cases hs
          | ok ctagsb =>
            rw [hctb] at hs
            simp only [Bind.bind, Except.bind, Except.ok.injEq, Option.some.injEq] at hs
            rw [← hr] at hx
            rw [← hs] at hy
            simp only at hx hy
            injection hx with hx
            injection hy with hy
            rw [← hx, ← hy]
            exact hab

theorem interests_courses_length (ctx : Ctx) (u l : Nat) :
    (InterestsBased.recommend_courses ctx u l).length ≤ max l 1 := by
  rcases interests_courses_shape ctx u l with h | ⟨ac, ucs, uids, _, _, h⟩ |
    ⟨ac, ucs, uids, tags, out, _, _, _, h5, h⟩
  · rw [h]; simp
  · rw [h, List.length_map]
    exact le_trans (List.length_take_le l _) (le_max_left l 1)
  · rw [h]
    exact le_trans (emitLoopM_ok_length h5) (by simp)

theorem interests_acts_shape (ctx : Ctx) (u c l : Nat) :
    InterestsBased.recommend_activities ctx u c l = [] ∨
    (∃ (sections : List CourseSection),
      ctx.user_interests u = [] ∧
      InterestsBased.recommend_activities ctx u c l =
        ((flattenActivities sections).take l).map Item.ofEntity) ∨
    (∃ (sections : List CourseSection) (stat : Option (List CmStatus))
       (ascores : List (Nat × ℚ)),
      ctx.user_interests u ≠ [] ∧
      ctx.client.get_activities_completion_status u c = Except.ok stat ∧
      InterestsBased.recommend_activities ctx u c l =
        InterestsBased.pad_interest_acts (flattenActivities sections)
          (completedActivityIds stat)
          (emitLoop l (fun _ => false)
            (InterestsBased.activity_rec_step ctx (ctx.user_interests u) ascores)
            (pySortedByDesc (fun a => (aget ascores (a.id.getD 0)).getD 0)
              ((flattenActivities sections).filter (fun a =>
                a.id.all (fun i => decide (i ∉ completedActivityIds stat))))) [])
          l) := by
  unfold InterestsBased.recommend_activities InterestsBased.recommend_activitiesE
    InterestsBased.recommend_activities_body
  by_cases hui : ctx.user_interests u = []
  · rw [if_pos hui]
    simp only [Bind.bind, Except.bind]
    cases h1 : ctx.client.get_course_contents c with
    | error e => exact Or.inl rfl
    | ok sections =>
      simp only
      exact Or.inr (Or.inl ⟨sections, hui, rfl⟩)
  · rw [if_neg hui]
    simp only [Bind.bind, Except.bind]
    cases h1 : ctx.client.get_course_contents c with
    | error e => exact Or.inl rfl
    | ok sections =>
      simp only
      cases h2 : ctx.client.get_activities_completion_status u c with
      | error e => exact Or.inl rfl
      | ok stat =>
        simp only
        exact Or.inr (Or.inr ⟨sections, stat, _, hui, rfl, rfl⟩)

theorem interests_pad_spec (all : List Entity) (completed : List Nat) (recs : List Item)
    (limit : Nat) :
    ∃ pad, InterestsBased.pad_interest_acts all completed recs limit = recs ++ pad ∧
      ∀ b ∈ pad, b.interest_match_score = none ∧
        ∃ a ∈ all, a.id.getD 0 ∉ completed ∧
          b = { entity := a, recommendation_reason :=
            some "Suggested based on course structure" } := by
  unfold InterestsBased.pad_interest_acts
  split
  · rcases @padLoop_eq_append Entity Item limit _ all recs with ⟨pad, ys, h1, h2, h3⟩
    refine ⟨pad, h1, ?_⟩
    intro b hb
    rcases exists_left_of_forall₂ h3 b hb with ⟨a, ha, hr⟩
    simp only at hr
    by_cases hcond : a.id.getD 0 ∉ recs.map (fun r => r.entity.id.getD 0) ∧
        a.id.getD 0 ∉ completed
    · rw [if_pos hcond] at hr
      injection hr with hr
      rw [← hr]
      exact ⟨rfl, a, h2.subset ha, hcond.2, rfl⟩
    · rw [if_neg hcond] at hr
      cases hr
  · exact ⟨[], by simp, by intro b hb; cases hb⟩

theorem interests_acts_spec (ctx : Ctx) (u c l : Nat) :
    ∀ r ∈ InterestsBased.recommend_activities ctx u c l,
      (ctx.user_interests u ≠ [] →
        (∀ stat, ctx.client.get_activities_completion_status u c = Except.ok stat →
          ∀ i, r.entity.id = some i → i ∉ completedActivityIds stat) ∧
        r.recommendation_reason ≠ none) ∧
      r.recommendation_reason ≠ some "" := by
  intro r hr
  rcases interests_acts_shape ctx u c l with h | ⟨sections, hui, h⟩ |
    ⟨sections, stat, ascores, hui, h2, h⟩
  · rw [h] at hr; cases hr
  · rw [h] at hr
    rcases List.mem_map.1 hr with ⟨a, ha, hdec⟩
    constructor
    · intro hui'; exact absurd hui hui'
    · rw [← hdec]; intro hx; cases hx
  · rw [h] at hr
    rcases interests_pad_spec (flattenActivities sections) (completedActivityIds stat) _ l
      with ⟨pad, hpad, hpadspec⟩
    rw [hpad] at hr
    rcases List.mem_append.1 hr with hr' | hr'
    · rcases emitLoop_mem hr' with h' | ⟨a, ha, hskip, hstep⟩
      · cases h'
      · have ham := mem_pySortedByDesc.1 ha
        have hfil := List.mem_filter.1 ham
        unfold InterestsBased.activity_rec_step at hstep
        simp only at hstep
        by_cases hsc : ((aget ascores (a.id.getD 0)).getD 0) > 0
        · rw [if_pos hsc] at hstep
          injection hstep with hstep
          constructor
          · intro _
            constructor
            · intro stat' hstat' i hi
              have he := h2.symm.trans hstat'
              injection he with he
              subst he
              rw [← hstep] at hi
              simp only at hi
              have hall := hfil.2
              rw [hi] at hall
              simpa using hall
            · rw [← hstep]; intro hx; cases hx
          · rw [← hstep]
            simp only
            intro hx
            injection hx with hx
            revert hx
            split
            · exact append_ne_empty_left _ (append_ne_empty_left _ (append_ne_empty_left _
                (append_ne_empty_left _ (by decide))))
            · exact append_ne_empty_left _ (append_ne_empty_left _ (by decide))
        · rw [if_neg hsc] at hstep
          cases hstep
    · rcases hpadspec r hr' with ⟨hsc, a, ha, hni, hre⟩
      constructor
      · intro _
        constructor
        · intro stat' hstat' i hi
          have he := h2.symm.trans hstat'
          injection he with he
          subst he
          rw [hre] at hi
          simp only at hi
          have hgd : a.id.getD 0 = i := by rw [hi]; rfl
          rw [← hgd]
          exact hni
        · rw [hre]; intro hx; cases hx
      · rw [hre]
        intro hx
        injection hx with hx
        exact absurd hx (by decide)

theorem interests_acts_scoresDesc (ctx : Ctx) (u c l : Nat) :
    ScoresDesc (fun r => r.interest_match_score)
      (InterestsBased.recommend_activities ctx u c l) := by
  rcases interests_acts_shape ctx u c l with h | ⟨sections, _, h⟩ |
    ⟨sections, stat, ascores, _, _, h⟩
  · rw [h]; exact List.Pairwise.nil
  · rw [h]
    refine scoresDesc_of_none ?_
    intro r hr
    rcases List.mem_map.1 hr with ⟨a, _, hdec⟩
    rw [← hdec]; rfl
  · rw [h]
    rcases interests_pad_spec (flattenActivities sections) (completedActivityIds stat) _ l
      with ⟨pad, hpad, hpadspec⟩
    rw [hpad]
    refine scoresDesc_append ?_ (fun r hr => (hpadspec r hr).1)
    refine emitLoop_pairwise ?_ (pairwise_pySortedByDesc _ _) List.Pairwise.nil
      (by intro b hb; cases hb)
    intro a b r s hab hr hs x y hx hy
    unfold InterestsBased.activity_rec_step at hr hs
    simp only at hr hs
    by_cases hsa : ((aget ascores (a.id.getD 0)).getD 0) > 0
    · rw [if_pos hsa] at hr
      injection hr with hr
      by_cases hsb : ((aget ascores (b.id.getD 0)).getD 0) > 0
      · rw [if_pos hsb] at hs
        injection hs with hs
        rw [← hr] at hx
        rw [← hs] at hy
        simp only at hx hy
        injection hx with hx
        injection hy with hy
        rw [← hx, ← hy]
        exact hab
      · rw [if_neg hsb] at hs; cases hs
    · rw [if_neg hsa] at hr; cases hr

theorem aget_aset_eq {α : Type} (m : List (Nat × α)) (k : Nat) (v : α) :
    aget (aset m k v) k = some v := by
  unfold aget aset
  by_cases hf : (m.find? (fun p => p.1 == k)).isSome = true
  · rw [if_pos hf]
    rw [List.find?_map]
    have hpred : ((fun (p : Nat × α) => p.1 == k) ∘
        (fun p => if p.1 == k then (k, v) else p)) = (fun p => p.1 == k) := by
      funext p
      by_cases hp : (p.1 == k) = true
      · simp [Function.comp, hp]
      · simp [Function.comp, hp]
    rw [hpred]
    cases hfind : m.find? (fun p => p.1 == k) with
    | none => rw [hfind] at hf; simp at hf
    | some q =>
      have hq := List.find?_some hfind
      have hq1 : q.1 = k := by simpa using hq
      simp [hq1]
  · rw [if_neg hf]
    rw [List.find?_append]
    have hnone : m.find? (fun p => p.1 == k) = none := by
      cases hfind : m.find? (fun p => p.1 == k) with
      | none => rfl
      | some q => rw [hfind] at hf; simp at hf
    rw [hnone]
    simp [List.find?]

theorem aget_aset_ne {α : Type} (m : List (Nat × α)) (k k' : Nat) (v : α) (h : k' ≠ k) :
    aget (aset m k v) k' = aget m k' := by
  unfold aget aset
  by_cases hf : (m.find? (fun p => p.1 == k)).isSome = true
  · rw [if_pos hf]
    rw [List.find?_map]
    have hpred : ((fun (p : Nat × α) => p.1 == k') ∘
        (fun p => if p.1 == k then (k, v) else p)) = (fun p => p.1 == k') := by
      funext p
      by_cases hp : (p.1 == k) = true
      · have hpk : p.1 = k := by simpa using hp
        simp [Function.comp, hp, hpk]
      · simp [Function.comp, hp]
    rw [hpred]
    cases hfind : m.find? (fun p => p.1 == k') with
    | none => rfl
    | some q =>
      have hq := List.find?_some hfind
      have hq1 : q.1 = k' := by simpa using hq
      have hne : q.1 ≠ k := by rw [hq1]; exact h
      simp [hne]
  · rw [if_neg hf]
    rw [List.find?_append]
    have hsing : List.find? (fun (p : Nat × α) => p.1 == k') [(k, v)] = none := by
      have hkk : ((k, v).1 == k') = false :=
        beq_eq_false_iff_ne.2 (fun hh => h hh.symm)
      simp [List.find?, hkk]
    rw [hsing]
    cases m.find? (fun p => p.1 == k') <;> rfl

theorem normalize_source_mem {recs : List Item} :
    ∀ b ∈ Hybrid.normalize_source recs, ∃ r ∈ recs,
      b.entity = r.entity ∧ b.recommendation_reason = r.recommendation_reason := by
  intro b hb
  unfold Hybrid.normalize_source at hb
  split at hb
  · cases hb
  · split at hb
    · exact ⟨b, hb, rfl, rfl⟩
    · rcases List.mem_map.1 hb with ⟨r, hr, hdec⟩
      exact ⟨r, hr, by rw [← hdec], by rw [← hdec]⟩

theorem process_source_data (w : ℚ) (name : String) (recs : List Item)
    (st : Hybrid.CombineState) :
    ∀ q ∈ (Hybrid.process_source w name recs st).item_data,
      q ∈ st.item_data ∨
      (q.2.entity.id = some q.1 ∧ q.1 ≠ 0 ∧ q.2 ∈ recs) := by
  unfold Hybrid.process_source
  refine foldl_preserve_mem (P := fun (s : Hybrid.CombineState) => ∀ q ∈ s.item_data,
    q ∈ st.item_data ∨ (q.2.entity.id = some q.1 ∧ q.1 ≠ 0 ∧ q.2 ∈ recs)) recs st ?_
    (fun q hq => Or.inl hq)
  intro s rec hrec hP q hq
  cases hid : rec.entity.id with
  | none => rw [hid] at hq; exact hP q hq
  | some i =>
    rw [hid] at hq
    cases i with
    | zero => exact hP q hq
    | succ n =>
      simp only at hq
      split at hq
      · exact hP q hq
      · rcases mem_aset hq with rfl | hq'
        · exact Or.inr ⟨hid, by simp, hrec⟩
        · exact hP q hq'

theorem process_source_link (w : ℚ) (name : String) (recs : List Item)
    (st : Hybrid.CombineState)
    (h : ∀ k, (∃ q ∈ st.combined_scores, q.1 = k) →
      ∃ s, aget st.item_sources k = some s ∧ s ≠ []) :
    ∀ k, (∃ q ∈ (Hybrid.process_source w name recs st).combined_scores, q.1 = k) →
      ∃ s, aget (Hybrid.process_source w name recs st).item_sources k = some s ∧ s ≠ [] := by
  unfold Hybrid.process_source
  refine foldl_preserve (P := fun (s : Hybrid.CombineState) => ∀ k,
    (∃ q ∈ s.combined_scores, q.1 = k) →
      ∃ sl, aget s.item_sources k = some sl ∧ sl ≠ []) ?_ recs st h
  intro s rec hP k hk
  cases hid : rec.entity.id with
  | none => rw [hid] at hk; exact hP k hk
  | some i =>
    rw [hid] at hk
    cases i with
    | zero => exact hP k hk
    | succ n =>
      simp only at hk ⊢
      by_cases hkn : k = n + 1
      · subst hkn
        exact ⟨_, aget_aset_eq _ _ _, by simp⟩
      · rcases hk with ⟨q, hq, hqk⟩
        rcases mem_addf hq with h1 | hq'
        · exact absurd (hqk.symm.trans h1) hkn
        · rcases hP k ⟨q, hq', hqk⟩ with ⟨sl, hsl, hslne⟩
          refine ⟨sl, ?_, hslne⟩
          rw [aget_aset_ne _ _ _ _ hkn]
          exact hsl

theorem combined_state_data (cb co po ib : List Item) :
    ∀ q ∈ (Hybrid.combined_state cb co po ib).item_data,
      q.2.entity.id = some q.1 ∧ q.1 ≠ 0 ∧
      (q.2 ∈ cb ∨ q.2 ∈ co ∨ q.2 ∈ po ∨ q.2 ∈ ib) := by
  intro q hq
  unfold Hybrid.combined_state at hq
  rcases process_source_data _ _ _ _ q hq with hq1 | ⟨h1, h2, h3⟩
  · rcases process_source_data _ _ _ _ q hq1 with hq2 | ⟨h1, h2, h3⟩
    · rcases process_source_data _ _ _ _ q hq2 with hq3 | ⟨h1, h2, h3⟩
      · rcases process_source_data _ _ _ _ q hq3 with hq4 | ⟨h1, h2, h3⟩
        · exact absurd hq4 (List.not_mem_nil q)
        · exact ⟨h1, h2, Or.inl h3⟩
      · exact ⟨h1, h2, Or.inr (Or.inl h3)⟩
    · exact ⟨h1, h2, Or.inr (Or.inr (Or.inl h3))⟩
  · exact ⟨h1, h2, Or.inr (Or.inr (Or.inr h3))⟩

theorem combined_state_link (cb co po ib : List Item) :
    ∀ k, (∃ q ∈ (Hybrid.combined_state cb co po ib).combined_scores, q.1 = k) →
      ∃ s, aget (Hybrid.combined_state cb co po ib).item_sources k = some s ∧ s ≠ [] := by
  unfold Hybrid.combined_state
  refine process_source_link _ _ _ _ (process_source_link _ _ _ _
    (process_source_link _ _ _ _ (process_source_link _ _ _ _ ?_)))
  intro k hk
  rcases hk with ⟨q, hq, _⟩
  exact absurd hq (List.not_mem_nil q)

theorem combine_eq (ctx : Ctx) (cb co po ib : List Item) (l : Nat) :
    Hybrid.combine_recommendations ctx cb co po ib l =
      emitLoop l (fun (p : Nat × ℚ) => decide (p.2 < Hybrid.MIN_RECOMMENDATION_SCORE))
        (Hybrid.combine_step ctx (Hybrid.combined_state (Hybrid.normalize_source cb)
          (Hybrid.normalize_source co) (Hybrid.normalize_source po)
          (Hybrid.normalize_source ib)))
        (pySortedByDesc (·.2) (Hybrid.combined_state (Hybrid.normalize_source cb)
          (Hybrid.normalize_source co) (Hybrid.normalize_source po)
          (Hybrid.normalize_source ib)).combined_scores) [] := rfl

theorem combine_step_score (ctx : Ctx) (st : Hybrid.CombineState) (p : Nat × ℚ) (r : Item)
    (h : Hybrid.combine_step ctx st p = some r) :
    r.hybrid_score = some p.2 ∧ ∃ base, aget st.item_data p.1 = some base ∧
      r.entity = base.entity := by
  unfold Hybrid.combine_step at h
  cases hbase : aget st.item_data p.1 with
  | none => rw [hbase] at h; cases h
  | some base =>
    rw [hbase] at h
    simp only at h
    split at h
    · injection h with h
      refine ⟨?_, base, rfl, ?_⟩ <;> rw [← h]
    · injection h with h
      refine ⟨?_, base, rfl, ?_⟩ <;> rw [← h]

theorem combine_spec (ctx : Ctx) (cb co po ib : List Item) (l : Nat) :
    ∀ r ∈ Hybrid.combine_recommendations ctx cb co po ib l,
      (∃ b, (b ∈ Hybrid.normalize_source cb ∨ b ∈ Hybrid.normalize_source co ∨
          b ∈ Hybrid.normalize_source po ∨ b ∈ Hybrid.normalize_source ib) ∧
        r.entity = b.entity) ∧
      (∃ s, r.recommendation_reason = some s ∧ s ≠ "") := by
  intro r hr
  rw [combine_eq] at hr
  rcases emitLoop_mem hr with h' | ⟨p, hp, hskip, hstep⟩
  · cases h'
  · have hpm := mem_pySortedByDesc.1 hp
    rcases combined_state_link _ _ _ _ p.1 ⟨p, hpm, rfl⟩ with ⟨s, hs, hsne⟩
    unfold Hybrid.combine_step at hstep
    cases hbase : aget (Hybrid.combined_state (Hybrid.normalize_source cb)
        (Hybrid.normalize_source co) (Hybrid.normalize_source po)
        (Hybrid.normalize_source ib)).item_data p.1 with
    | none => rw [hbase] at hstep; cases hstep
    | some base =>
      rw [hbase] at hstep
      simp only at hstep
      rw [hs] at hstep
      simp only [Option.getD_some] at hstep
      rw [if_pos hsne] at hstep
      injection hstep with hstep
      have hdata := combined_state_data _ _ _ _ (p.1, base) (aget_some_mem hbase)
      constructor
      · refine ⟨base, hdata.2.2, ?_⟩
        rw [← hstep]
      · rw [← hstep]
        simp only
        exact exists_reason (append_ne_empty_right _ (by decide))

theorem combine_scoresDesc (ctx : Ctx) (cb co po ib : List Item) (l : Nat) :
    ScoresDesc (fun r => r.hybrid_score)
      (Hybrid.combine_recommendations ctx cb co po ib l) := by
  rw [combine_eq]
  refine emitLoop_pairwise ?_ (pairwise_pySortedByDesc _ _) List.Pairwise.nil
    (by intro b hb; cases hb)
  intro a b r s hab hr hs x y hx hy
  rcases combine_step_score _ _ _ _ hr with ⟨hra, _⟩
  rcases combine_step_score _ _ _ _ hs with ⟨hsb, _⟩
  simp only at hx hy
  rw [hra] at hx
  rw [hsb] at hy
  injection hx with hx
  injection hy with hy
  rw [← hx, ← hy]
  exact hab

theorem combine_length (ctx : Ctx) (cb co po ib : List Item) (l : Nat) :
    (Hybrid.combine_recommendations ctx cb co po ib l).length ≤ max l 1 := by
  rw [combine_eq]
  exact le_trans emitLoop_length (by simp)

theorem hybrid_courses_shape (ctx : Ctx) (u l : Nat) :
    (Hybrid.recommend_courses ctx u l =
      Hybrid.combine_recommendations ctx (ContentBased.recommend_courses ctx u (l * 2))
        (Collaborative.recommend_courses ctx u (l * 2))
        (Popular.recommend_courses ctx u (l * 2))
        (InterestsBased.recommend_courses ctx u (l * 2)) l) ∨
    (Hybrid.recommend_courses ctx u l = InterestsBased.recommend_courses ctx u l) ∨
    (Hybrid.recommend_courses ctx u l = Popular.recommend_courses ctx u l) := by
  unfold Hybrid.recommend_courses Hybrid.recommend_coursesE Hybrid.recommend_courses_body
  cases h1 : ctx.client.get_all_course_tags with
  | error e =>
    simp only [Bind.bind, Except.bind]
    by_cases hir : InterestsBased.recommend_courses ctx u l ≠ []
    · rw [if_pos hir]
      exact Or.inr (Or.inl rfl)
    · rw [if_neg hir]
      exact Or.inr (Or.inr rfl)
  | ok tags =>
    exact Or.inl rfl

theorem hybrid_acts_eq (ctx : Ctx) (u c l : Nat) :
    Hybrid.recommend_activities ctx u c l =
      Hybrid.combine_recommendations ctx
        (ContentBased.recommend_activities ctx u c (l * 2))
        (Collaborative.recommend_activities ctx u c (l * 2))
        (Popular.recommend_activities ctx u c (l * 2))
        (InterestsBased.recommend_activities ctx u c (l * 2)) l := rfl

theorem hybrid_courses_spec (ctx : Ctx) (u l : Nat) :
    ∀ r ∈ Hybrid.recommend_courses ctx u l,
      (∃ i, r.entity.id = some i ∧ i ≠ 1 ∧
        ∀ ucs, ctx.client.get_user_courses u = Except.ok ucs → i ∉ ucs.filterMap (·.id)) ∧
      (∃ s, r.recommendation_reason = some s ∧ s ≠ "") := by
  intro r hr
  rcases hybrid_courses_shape ctx u l with h | h | h
  · rw [h] at hr
    rcases combine_spec ctx _ _ _ _ l r hr with ⟨⟨b, hb, hent⟩, hreason⟩
    refine ⟨?_, hreason⟩
    rcases hb with hb | hb | hb | hb
    · rcases normalize_source_mem b hb with ⟨b0, hb0, he, _⟩
      rcases (content_courses_spec ctx u (l * 2) b0 hb0).1 with ⟨i, hi, hne, hucs⟩
      exact ⟨i, by rw [hent, he]; exact hi, hne, hucs⟩
    · rcases normalize_source_mem b hb with ⟨b0, hb0, he, _⟩
      rcases (collab_courses_spec ctx u (l * 2) b0 hb0).1 with ⟨i, hi, hne, hucs⟩
      exact ⟨i, by rw [hent, he]; exact hi, hne, hucs⟩
    · rcases normalize_source_mem b hb with ⟨b0, hb0, he, _⟩
      rcases (popular_courses_spec ctx u (l * 2) b0 hb0).1 with ⟨i, hi, hne, hucs⟩
      exact ⟨i, by rw [hent, he]; exact hi, hne, hucs⟩
    · rcases normalize_source_mem b hb with ⟨b0, hb0, he, _⟩
      rcases (interests_courses_spec ctx u (l * 2) b0 hb0).1 with ⟨i, hi, hne, hucs⟩
      exact ⟨i, by rw [hent, he]; exact hi, hne, hucs⟩
  · rw [h] at hr
    exact interests_courses_spec ctx u l r hr
  · rw [h] at hr
    exact popular_courses_spec ctx u l r hr

theorem hybrid_acts_spec (ctx : Ctx) (u c l : Nat) :
    ∀ r ∈ Hybrid.recommend_activities ctx u c l,
      ∃ s, r.recommendation_reason = some s ∧ s ≠ "" := by
  intro r hr
  rw [hybrid_acts_eq] at hr
  exact (combine_spec _ _ _ _ _ _ r hr).2

theorem popular_courses_hybrid_none (ctx : Ctx) (u l : Nat) :
    ∀ r ∈ Popular.recommend_courses ctx u l, r.hybrid_score = none := by
  intro r hr
  rcases popular_courses_shape ctx u l with h | ⟨ac, uids, pairs, _, h⟩
  · rw [h] at hr; cases hr
  · rw [h] at hr
    rcases List.mem_map.1 hr with ⟨p, _, hdec⟩
    rw [← hdec]
    rfl

theorem interests_courses_hybrid_none (ctx : Ctx) (u l : Nat) :
    ∀ r ∈ InterestsBased.recommend_courses ctx u l, r.hybrid_score = none := by
  intro r hr
  rcases interests_courses_shape ctx u l with h | ⟨ac, ucs, uids, _, _, h⟩ |
    ⟨ac, ucs, uids, tags, out, h1, h2, h3, h5, h⟩
  · rw [h] at hr; cases hr
  · rw [h] at hr
    rcases List.mem_map.1 hr with ⟨c0, _, hdec⟩
    rw [← hdec]
  · rw [h] at hr
    rcases emitLoopM_ok_mem h5 r hr with h' | ⟨p, hp, hskip, hstep⟩
    · cases h'
    · unfold InterestsBased.course_rec_step at hstep
      cases hcd : aget ((ac.filterMap (fun c => c.id.map (fun i => (i, c)))).foldl
          (fun m p => aset m p.1 p.2) []) p.1 with
      | none => rw [hcd] at hstep; injection hstep with hstep; cases hstep
      | some course_data =>
        rw [hcd] at hstep
        cases hct : get_course_tags ctx p.1 (some tags) with
        | error e => rw [hct] at hstep; cases hstep
        | ok ctags =>
          rw [hct] at hstep
          simp only [Bind.bind, Except.bind, Except.ok.injEq, Option.some.injEq] at hstep
          rw [← hstep]

theorem hybrid_courses_scoresDesc (ctx : Ctx) (u l : Nat) :
    ScoresDesc (fun r => r.hybrid_score) (Hybrid.recommend_courses ctx u l) := by
  rcases hybrid_courses_shape ctx u l with h | h | h
  · rw [h]; exact combine_scoresDesc _ _ _ _ _ _
  · rw [h]
    exact scoresDesc_of_none (interests_courses_hybrid_none ctx u l)
  · rw [h]
    exact scoresDesc_of_none (popular_courses_hybrid_none ctx u l)

theorem hybrid_acts_scoresDesc (ctx : Ctx) (u c l : Nat) :
    ScoresDesc (fun r => r.hybrid_score) (Hybrid.recommend_activities ctx u c l) := by
  rw [hybrid_acts_eq]
  exact combine_scoresDesc _ _ _ _ _ _

theorem hybrid_courses_length (ctx : Ctx) (u l : Nat) :
    (Hybrid.recommend_courses ctx u l).length ≤ max l 1 := by
  rcases hybrid_courses_shape ctx u l with h | h | h
  · rw [h]; exact combine_length _ _ _ _ _ _
  · rw [h]; exact interests_courses_length ctx u l
  · rw [h]; exact le_trans (popular_courses_length ctx u l) (le_max_left l 1)

theorem hybrid_acts_length (ctx : Ctx) (u c l : Nat) :
    (Hybrid.recommend_activities ctx u c l).length ≤ max l 1 := by
  rw [hybrid_acts_eq]
  exact combine_length _ _ _ _ _ _

theorem foldl_min_le : ∀ (xs : List ℚ) (a : ℚ),
    xs.foldl min a ≤ a ∧ ∀ x ∈ xs, xs.foldl min a ≤ x := by
  intro xs
  induction xs with
  | nil => intro a; exact ⟨le_refl a, by intro x hx; cases hx⟩
  | cons y ys ih =>
    intro a
    rcases ih (min a y) with ⟨h1, h2⟩
    refine ⟨le_trans h1 (min_le_left a y), ?_⟩
    intro x hx
    rcases List.mem_cons.1 hx with rfl | hx'
    · exact le_trans h1 (min_le_right a x)
    · exact h2 x hx'

theorem le_foldl_max : ∀ (xs : List ℚ) (a : ℚ),
    a ≤ xs.foldl max a ∧ ∀ x ∈ xs, x ≤ xs.foldl max a := by
  intro xs
  induction xs with
  | nil => intro a; exact ⟨le_refl a, by intro x hx; cases hx⟩
  | cons y ys ih =>
    intro a
    rcases ih (max a y) with ⟨h1, h2⟩
    refine ⟨le_trans (le_max_left a y) h1, ?_⟩
    intro x hx
    rcases List.mem_cons.1 hx with rfl | hx'
    · exact le_trans (le_max_right a x) h1
    · exact h2 x hx'

theorem pyMin_le {l : List ℚ} {d : ℚ} : ∀ x ∈ l, pyMin l d ≤ x := by
  intro x hx
  cases l with
  | nil => cases hx
  | cons y ys =>
    rcases List.mem_cons.1 hx with rfl | hx'
    · exact (foldl_min_le ys x).1
    · exact (foldl_min_le ys y).2 x hx'

theorem le_pyMax {l : List ℚ} {d : ℚ} : ∀ x ∈ l, x ≤ pyMax l d := by
  intro x hx
  cases l with
  | nil => cases hx
  | cons y ys =>
    rcases List.mem_cons.1 hx with rfl | hx'
    · exact (le_foldl_max ys x).1
    · exact (le_foldl_max ys y).2 x hx'

theorem normalize_source_passthrough {recs : List Item}
    (h : Hybrid.detect_score_key recs = none) : Hybrid.normalize_source recs = recs := by
  unfold Hybrid.normalize_source
  split
  · rename_i he; rw [he]
  · rw [h]

theorem normalize_source_bounds {recs : List Item} {key : Hybrid.ScoreKey}
    (h : Hybrid.detect_score_key recs = some key) :
    ∀ b ∈ Hybrid.normalize_source recs,
      ∃ q, b.normalized_score = some q ∧ 0 ≤ q ∧ q ≤ 1 := by
  intro b hb
  unfold Hybrid.normalize_source at hb
  split at hb
  · cases hb
  · rename_i hne
    rw [h] at hb
    simp only at hb
    rcases List.mem_map.1 hb with ⟨r, hr, hdec⟩
    have hxmem : (key.get r).getD 0 ∈ recs.map (fun r => (key.get r).getD 0) :=
      List.mem_map.2 ⟨r, hr, rfl⟩
    have hmin : pyMin (recs.map (fun r => (key.get r).getD 0)) 0 ≤ (key.get r).getD 0 :=
      pyMin_le _ hxmem
    have hmax : (key.get r).getD 0 ≤ pyMax (recs.map (fun r => (key.get r).getD 0)) 1 :=
      le_pyMax _ hxmem
    refine ⟨_, by rw [← hdec], ?_⟩
    set mn := pyMin (recs.map (fun r => (key.get r).getD 0)) 0 with hmn
    set mx := pyMax (recs.map (fun r => (key.get r).getD 0)) 1 with hmx
    by_cases hrng : mx - mn = 0
    · rw [if_pos hrng]
      constructor
      · rw [div_one]
        exact sub_nonneg.2 hmin
      · rw [div_one]
        have : (key.get r).getD 0 - mn ≤ mx - mn := sub_le_sub_right hmax mn
        rw [hrng] at this
        exact le_trans this (by norm_num)
    · rw [if_neg hrng]
      have hpos : 0 < mx - mn := by
        rcases lt_or_eq_of_le (sub_nonneg.2 (le_trans hmin hmax)) with h' | h'
        · exact h'
        · exact absurd h'.symm hrng
      constructor
      · exact div_nonneg (sub_nonneg.2 hmin) (le_of_lt hpos)
      · exact (div_le_one hpos).2 (sub_le_sub_right hmax mn)

theorem normalize_source_id {recs : List Item} {key : Hybrid.ScoreKey}
    (h : Hybrid.detect_score_key recs = some key)
    (hmin : pyMin (recs.map (fun r => (key.get r).getD 0)) 0 = 0)
    (hmax : pyMax (recs.map (fun r => (key.get r).getD 0)) 1 = 1) :
    Hybrid.normalize_source recs =
      recs.map (fun r => { r with normalized_score := some ((key.get r).getD 0) }) := by
  unfold Hybrid.normalize_source
  split
  · rename_i he
    rw [he] at h
    cases h
  · rw [h]
    simp only
    rw [hmin, hmax]
    refine List.map_congr_left ?_
    intro r hr
    have hrng : ¬((1 : ℚ) - 0 = 0) := by norm_num
    rw [if_neg hrng]
    norm_num

theorem foldl_weight_count {α : Type} (P : α → Prop) [DecidablePred P] (w : ℚ) :
    ∀ (l : List α) (s : ℚ),
      l.foldl (fun s x => if P x then s + w else s) s =
        s + w * ((l.filter (fun x => decide (P x))).length : ℚ) := by
  intro l
  induction l with
  | nil => intro s; simp
  | cons x xs ih =>
    intro s
    rw [List.foldl_cons]
    by_cases hx : P x
    · rw [if_pos hx, ih (s + w), List.filter_cons_of_pos (by simpa using hx),
        List.length_cons]
      push_cast
      ring
    · rw [if_neg hx, ih s, List.filter_cons_of_neg (by simpa using hx)]

theorem interest_course_score_closed (ctx : Ctx) (user_interests : List String)
    (interest_text : String) (features : CourseFeatures) :
    InterestsBased.interest_course_score ctx user_interests interest_text features =
      InterestsBased.DIRECT_INTEREST_MATCH_WEIGHT *
        ((user_interests.filter (fun interest =>
          decide (ctx.clean_text interest ≠ "" ∧
            pyIn (ctx.clean_text interest) features.content))).length : ℚ) +
      InterestsBased.TAG_MATCH_WEIGHT *
        ((user_interests.map (fun interest =>
          (((features.tags.filter (fun tag =>
            decide (ctx.clean_text interest ≠ "" ∧ ctx.clean_text tag ≠ "" ∧
              (pyIn (ctx.clean_text interest) (ctx.clean_text tag) ∨
               pyIn (ctx.clean_text tag) (ctx.clean_text interest))))).length : ℚ)))).sum) +
      (if features.content ≠ "" ∧ interest_text ≠ "" then
        match ctx.pair_cosine interest_text features.content with
        | Except.ok cosine_sim => cosine_sim * InterestsBased.CONTENT_SIMILARITY_WEIGHT
        | Except.error _ => 0
      else 0) := by
  unfold InterestsBased.interest_course_score
  simp only
  have h1 : user_interests.foldl (fun s interest =>
      if ctx.clean_text interest ≠ "" ∧ pyIn (ctx.clean_text interest) features.content then
        s + InterestsBased.DIRECT_INTEREST_MATCH_WEIGHT
      else s) 0 =
      0 + InterestsBased.DIRECT_INTEREST_MATCH_WEIGHT *
        ((user_interests.filter (fun interest =>
          decide (ctx.clean_text interest ≠ "" ∧
            pyIn (ctx.clean_text interest) features.content))).length : ℚ) :=
    foldl_weight_count _ _ _ _
  have h2 : ∀ (ints : List String) (s : ℚ),
      ints.foldl (fun s interest =>
        features.tags.foldl (fun s2 tag =>
          if ctx.clean_text interest ≠ "" ∧ ctx.clean_text tag ≠ "" ∧
              (pyIn (ctx.clean_text interest) (ctx.clean_text tag) ∨
               pyIn (ctx.clean_text tag) (ctx.clean_text interest)) then
            s2 + InterestsBased.TAG_MATCH_WEIGHT
          else s2) s) s =
      s + InterestsBased.TAG_MATCH_WEIGHT *
        ((ints.map (fun interest =>
          (((features.tags.filter (fun tag =>
            decide (ctx.clean_text interest ≠ "" ∧ ctx.clean_text tag ≠ "" ∧
              (pyIn (ctx.clean_text interest) (ctx.clean_text tag) ∨
               pyIn (ctx.clean_text tag) (ctx.clean_text interest))))).length : ℚ)))).sum) := by
    intro ints
    induction ints with
    | nil => intro s; simp
    | cons i is ih =>
      intro s
      rw [List.foldl_cons]
      have hinner : features.tags.foldl (fun s2 tag =>
          if ctx.clean_text i ≠ "" ∧ ctx.clean_text tag ≠ "" ∧
              (pyIn (ctx.clean_text i) (ctx.clean_text tag) ∨
               pyIn (ctx.clean_text tag) (ctx.clean_text i)) then
            s2 + InterestsBased.TAG_MATCH_WEIGHT
          else s2) s =
          s + InterestsBased.TAG_MATCH_WEIGHT *
            ((features.tags.filter (fun tag =>
              decide (ctx.clean_text i ≠ "" ∧ ctx.clean_text tag ≠ "" ∧
                (pyIn (ctx.clean_text i) (ctx.clean_text tag) ∨
                 pyIn (ctx.clean_text tag) (ctx.clean_text i))))).length : ℚ) :=
        foldl_weight_count _ _ _ _
      rw [hinner, ih, List.map_cons, List.sum_cons]
      ring
  rw [h2, h1]
  by_cases hc : features.content ≠ "" ∧ interest_text ≠ ""
  · rw [if_pos hc, if_pos hc]
    cases ctx.pair_cosine interest_text features.content with
    | ok c => ring
    | error e => ring
  · rw [if_neg hc, if_neg hc]
    ring

theorem publicE_courses (s : Strategy) (ctx : Ctx) (u l : Nat) :
    ∃ r, recommendCoursesE s ctx u l = Except.ok r ∧ recommendCourses s ctx u l = r := by
  cases s with
  | popular =>
    show ∃ r, Popular.recommend_coursesE ctx u l = Except.ok r ∧
      Popular.recommend_courses ctx u l = r
    unfold Popular.recommend_courses Popular.recommend_coursesE
    cases hb : Popular.recommend_courses_body ctx u l with
    | ok out => exact ⟨out, rfl, rfl⟩
    | error e => exact ⟨[], rfl, rfl⟩
  | collaborative =>
    show ∃ r, Collaborative.recommend_coursesE ctx u l = Except.ok r ∧
      Collaborative.recommend_courses ctx u l = r
    unfold Collaborative.recommend_courses Collaborative.recommend_coursesE
    cases hb : Collaborative.recommend_courses_body ctx u l with
    | ok out => exact ⟨out, rfl, rfl⟩
    | error e => exact ⟨[], rfl, rfl⟩
  | content_based =>
    show ∃ r, ContentBased.recommend_coursesE ctx u l = Except.ok r ∧
      ContentBased.recommend_courses ctx u l = r
    unfold ContentBased.recommend_courses ContentBased.recommend_coursesE
    cases hb : ContentBased.recommend_courses_body ctx u l with
    | ok out => exact ⟨out, rfl, rfl⟩
    | error e => exact ⟨[], rfl, rfl⟩
  | interests_based =>
    show ∃ r, InterestsBased.recommend_coursesE ctx u l = Except.ok r ∧
      InterestsBased.recommend_courses ctx u l = r
    unfold InterestsBased.recommend_courses InterestsBased.recommend_coursesE
    cases hb : InterestsBased.recommend_courses_body ctx u l with
    | ok out => exact ⟨out, rfl, rfl⟩
    | error e => exact ⟨[], rfl, rfl⟩
  | hybrid =>
    show ∃ r, Hybrid.recommend_coursesE ctx u l = Except.ok r ∧
      Hybrid.recommend_courses ctx u l = r
    unfold Hybrid.recommend_courses Hybrid.recommend_coursesE
    cases hb : Hybrid.recommend_courses_body ctx u l with
    | ok out => exact ⟨out, rfl, rfl⟩
    | error e =>
      by_cases hir : InterestsBased.recommend_courses ctx u l ≠ []
      · rw [if_pos hir]
        exact ⟨_, rfl, rfl⟩
      · rw [if_neg hir]
        exact ⟨_, rfl, rfl⟩

theorem publicE_acts (s : Strategy) (ctx : Ctx) (u c l : Nat) :
    ∃ r, recommendActivitiesE s ctx u c l = Except.ok r ∧
      recommendActivities s ctx u c l = r := by
  cases s with
  | popular =>
    show ∃ r, Popular.recommend_activitiesE ctx u c l = Except.ok r ∧
      Popular.recommend_activities ctx u c l = r
    unfold Popular.recommend_activities Popular.recommend_activitiesE
    cases hb : Popular.recommend_activities_body ctx u c l with
    | ok out => exact ⟨out, rfl, rfl⟩
    | error e => exact ⟨[], rfl, rfl⟩
  | collaborative =>
    show ∃ r, Collaborative.recommend_activitiesE ctx u c l = Except.ok r ∧
      Collaborative.recommend_activities ctx u c l = r
    unfold Collaborative.recommend_activities Collaborative.recommend_activitiesE
    cases hb : Collaborative.recommend_activities_body ctx u c l with
    | ok out => exact ⟨out, rfl, rfl⟩
    | error e => exact ⟨[], rfl, rfl⟩
  | content_based =>
    show ∃ r, ContentBased.recommend_activitiesE ctx u c l = Except.ok r ∧
      ContentBased.recommend_activities ctx u c l = r
    unfold ContentBased.recommend_activities ContentBased.recommend_activitiesE
    cases hb : ContentBased.recommend_activities_body ctx u c l with
    | ok out => exact ⟨out, rfl, rfl⟩
    | error e => exact ⟨[], rfl, rfl⟩
  | interests_based =>
    show ∃ r, InterestsBased.recommend_activitiesE ctx u c l = Except.ok r ∧
      InterestsBased.recommend_activities ctx u c l = r
    unfold InterestsBased.recommend_activities InterestsBased.recommend_activitiesE
    cases hb : InterestsBased.recommend_activities_body ctx u c l with
    | ok out => exact ⟨out, rfl, rfl⟩
    | error e => exact ⟨[], rfl, rfl⟩
  | hybrid =>
    show ∃ r, Hybrid.recommend_activitiesE ctx u c l = Except.ok r ∧
      Hybrid.recommend_activities ctx u c l = r
    unfold Hybrid.recommend_activities Hybrid.recommend_activitiesE
    cases hb : Hybrid.recommend_activities_body ctx u c l with
    | ok out => exact ⟨out, rfl, rfl⟩
    | error e =>
      by_cases hir : InterestsBased.recommend_activities ctx u c l ≠ []
      · rw [if_pos hir]
        exact ⟨_, rfl, rfl⟩
      · rw [if_neg hir]
        exact ⟨_, rfl, rfl⟩

theorem interests_acts_length (ctx : Ctx) (u c l : Nat) :
    (InterestsBased.recommend_activities ctx u c l).length ≤ max l 1 := by
  rcases interests_acts_shape ctx u c l with h | ⟨sections, _, h⟩ |
    ⟨sections, stat, ascores, _, _, h⟩
  · rw [h]; simp
  · rw [h, List.length_map]
    exact le_trans (List.length_take_le l _) (le_max_left l 1)
  · rw [h]
    unfold InterestsBased.pad_interest_acts
    split
    · rename_i hlt
      exact le_trans (padLoop_length_le hlt) (le_max_left l 1)
    · exact le_trans emitLoop_length (by simp)

theorem interest_matches_value (ctx : Ctx) (u : Nat) (courses : List Entity)
    (t : Option (List (Nat × List String))) :
    ∀ p ∈ InterestsBased.calculate_interest_course_matches ctx u courses t,
      ∃ (cf : List (Nat × CourseFeatures)) (features : CourseFeatures),
        InterestsBased.interest_features_fold ctx t courses [] = Except.ok cf ∧
        (p.1, features) ∈ cf ∧
        InterestsBased.MIN_DESCRIPTION_LENGTH ≤ features.content.length ∧
        InterestsBased.interest_course_score ctx (ctx.user_interests u)
          (String.intercalate " " ((ctx.user_interests u).map ctx.clean_text)) features >
          InterestsBased.ITEM_SCORE_THRESHOLD ∧
        p.2 = min (InterestsBased.interest_course_score ctx (ctx.user_interests u)
          (String.intercalate " " ((ctx.user_interests u).map ctx.clean_text)) features) 5 := by
  intro p hp
  rcases interest_matches_shape ctx u courses t with h | ⟨cf, hcf, h⟩
  · rw [h] at hp; cases hp
  · rw [h] at hp
    have hmain : ∀ r ∈ cf.foldl (fun m p =>
        if p.2.content.length < InterestsBased.MIN_DESCRIPTION_LENGTH then m
        else
          if InterestsBased.interest_course_score ctx (ctx.user_interests u)
              (String.intercalate " " ((ctx.user_interests u).map ctx.clean_text)) p.2 >
              InterestsBased.ITEM_SCORE_THRESHOLD then
            aset m p.1 (min (InterestsBased.interest_course_score ctx (ctx.user_interests u)
              (String.intercalate " " ((ctx.user_interests u).map ctx.clean_text)) p.2) 5)
          else m) [],
        ∃ features, (r.1, features) ∈ cf ∧
          InterestsBased.MIN_DESCRIPTION_LENGTH ≤ features.content.length ∧
          InterestsBased.interest_course_score ctx (ctx.user_interests u)
            (String.intercalate " " ((ctx.user_interests u).map ctx.clean_text)) features >
            InterestsBased.ITEM_SCORE_THRESHOLD ∧
          r.2 = min (InterestsBased.interest_course_score ctx (ctx.user_interests u)
            (String.intercalate " " ((ctx.user_interests u).map ctx.clean_text)) features)
            5 := by
      refine foldl_preserve_mem (P := fun (m : List (Nat × ℚ)) => ∀ r ∈ m,
        ∃ (features : CourseFeatures), (r.1, features) ∈ cf ∧
          InterestsBased.MIN_DESCRIPTION_LENGTH ≤ features.content.length ∧
          InterestsBased.interest_course_score ctx (ctx.user_interests u)
            (String.intercalate " " ((ctx.user_interests u).map ctx.clean_text)) features >
            InterestsBased.ITEM_SCORE_THRESHOLD ∧
          r.2 = min (InterestsBased.interest_course_score ctx (ctx.user_interests u)
            (String.intercalate " " ((ctx.user_interests u).map ctx.clean_text)) features) 5)
        cf [] ?_ (by intro r hr; cases hr)
      intro m q hq hm r hr
      split at hr
      · exact hm r hr
      · rename_i hlen
        split at hr
        · rename_i hscore
          rcases mem_aset hr with rfl | hr'
          · exact ⟨q.2, hq, Nat.le_of_not_lt hlen, hscore, rfl⟩
          · exact hm r hr'
        · exact hm r hr
    rcases hmain p hp with ⟨features, h1, h2, h3, h4⟩
    exact ⟨cf, features, hcf, h1, h2, h3, h4⟩

/-! The claim theorems. -/

/-- C1: for every strategy, user and limit, no returned course
recommendation has entity id 1 (the root/site course), fallback paths
included. -/
theorem C1_no_site_course (s : Strategy) (ctx : Ctx) (u l : Nat) :
    ∀ r ∈ recommendCourses s ctx u l, r.entity.id ≠ some 1 := by
  intro r hr
  have hspec : ∃ i, r.entity.id = some i ∧ i ≠ 1 := by
    cases s with
    | popular =>
      rcases (popular_courses_spec ctx u l r hr).1 with ⟨i, h1, h2, _⟩
      exact ⟨i, h1, h2⟩
    | collaborative =>
      rcases (collab_courses_spec ctx u l r hr).1 with ⟨i, h1, h2, _⟩
      exact ⟨i, h1, h2⟩
    | content_based =>
      rcases (content_courses_spec ctx u l r hr).1 with ⟨i, h1, h2, _⟩
      exact ⟨i, h1, h2⟩
    | interests_based =>
      rcases (interests_courses_spec ctx u l r hr).1 with ⟨i, h1, h2, _⟩
      exact ⟨i, h1, h2⟩
    | hybrid =>
      rcases (hybrid_courses_spec ctx u l r hr).1 with ⟨i, h1, h2, _⟩
      exact ⟨i, h1, h2⟩
  rcases hspec with ⟨i, h1, h2⟩
  intro hcontra
  rw [h1] at hcontra
  injection hcontra with hcontra
  exact h2 hcontra

theorem C1_site_witness : Witness.collabItem1.entity.id ≠ some 1 :=
  C1_no_site_course Strategy.collaborative Witness.ctx1 10 5 Witness.collabItem1 (by with_unfolding_all decide)

/-- C2 (amended): course recommendations of every strategy exclude the
courses the user is enrolled in; collaborative and content-based activity
recommendations exclude every engaged (completed or viewed) activity;
popular activity recommendations and interests-based ones on the stated-
interests path exclude only the COMPLETED activities, and the popular
recommender can return a merely viewed activity (see the
counterexample). -/
theorem C2_no_engaged_entities :
    (∀ (s : Strategy) (ctx : Ctx) (u l : Nat), ∀ r ∈ recommendCourses s ctx u l,
      ∀ ucs, ctx.client.get_user_courses u = Except.ok ucs →
        ∀ i, r.entity.id = some i → i ∉ ucs.filterMap (fun c => c.id)) ∧
    (∀ (ctx : Ctx) (u c l : Nat), ∀ r ∈ Collaborative.recommend_activities ctx u c l,
      ∀ i, r.entity.id = some i →
        i ∉ (Collaborative.get_user_activities ctx u c).map (·.1)) ∧
    (∀ (ctx : Ctx) (u c l : Nat), ∀ r ∈ ContentBased.recommend_activities ctx u c l,
      ∀ stat, ctx.client.get_activities_completion_status u c = Except.ok stat →
        ∀ i, r.entity.id = some i → i ∉ ContentBased.engaged_of stat) ∧
    (∀ (ctx : Ctx) (u c l : Nat), ∀ r ∈ Popular.recommend_activities ctx u c l,
      ∀ stat, ctx.client.get_activities_completion_status u c = Except.ok stat →
        ∀ i, r.entity.id = some i → i ∉ completedActivityIds stat) ∧
    (∀ (ctx : Ctx) (u c l : Nat), ctx.user_interests u ≠ [] →
      ∀ r ∈ InterestsBased.recommend_activities ctx u c l,
        ∀ stat, ctx.client.get_activities_completion_status u c = Except.ok stat →
          ∀ i, r.entity.id = some i → i ∉ completedActivityIds stat) := by
  refine ⟨?_, ?_, ?_, ?_, ?_⟩
  · intro s ctx u l r hr ucs hucs i hi
    have hspec : ∃ i0, r.entity.id = some i0 ∧
        ∀ ucs0, ctx.client.get_user_courses u = Except.ok ucs0 →
          i0 ∉ ucs0.filterMap (fun c => c.id) := by
      cases s with
      | popular =>
        rcases (popular_courses_spec ctx u l r hr).1 with ⟨i0, h1, _, h3⟩
        exact ⟨i0, h1, h3⟩
      | collaborative =>
        rcases (collab_courses_spec ctx u l r hr).1 with ⟨i0, h1, _, h3⟩
        exact ⟨i0, h1, h3⟩
      | content_based =>
        rcases (content_courses_spec ctx u l r hr).1 with ⟨i0, h1, _, h3⟩
        exact ⟨i0, h1, h3⟩
      | interests_based =>
        rcases (interests_courses_spec ctx u l r hr).1 with ⟨i0, h1, _, h3⟩
        exact ⟨i0, h1, h3⟩
      | hybrid =>
        rcases (hybrid_courses_spec ctx u l r hr).1 with ⟨i0, h1, _, h3⟩
        exact ⟨i0, h1, h3⟩
    rcases hspec with ⟨i0, h1, h3⟩
    have : i = i0 := by
      have := h1.symm.trans hi
      injection this with h
      exact h.symm
    rw [this]
    exact h3 ucs hucs
  · intro ctx u c l r hr
    exact (collab_acts_spec ctx u c l r hr).1
  · intro ctx u c l r hr
    exact (content_acts_spec ctx u c l r hr).1
  · intro ctx u c l r hr
    exact (popular_acts_spec ctx u c l r hr).1
  · intro ctx u c l hui r hr
    exact ((interests_acts_spec ctx u c l r hr).1 hui).1

theorem C2_engaged_counterexample :
    (∃ r ∈ Popular.recommend_activities Witness.ctx2 10 2 5, r.entity.id = some 7) ∧
    Witness.ctx2.client.get_activities_completion_status 10 2 =
      Except.ok (some [{ cmid := some 7, state := some 0, viewed := some true }]) := by
  exact ⟨by with_unfolding_all decide, by with_unfolding_all decide⟩

/-- C3 (amended): the returned length is bounded by max(limit, 1) for every
strategy and both entity kinds; the bound limit itself fails at limit 0,
where the append-then-check loops emit one item before testing the limit
(see the counterexample). -/
theorem C3_limit_bound :
    (∀ (s : Strategy) (ctx : Ctx) (u l : Nat),
      (recommendCourses s ctx u l).length ≤ max l 1) ∧
    (∀ (s : Strategy) (ctx : Ctx) (u c l : Nat),
      (recommendActivities s ctx u c l).length ≤ max l 1) := by
  constructor
  · intro s ctx u l
    cases s with
    | popular => exact le_trans (popular_courses_length ctx u l) (le_max_left l 1)
    | collaborative => exact collab_courses_length ctx u l
    | content_based => exact content_courses_length ctx u l
    | interests_based => exact interests_courses_length ctx u l
    | hybrid => exact hybrid_courses_length ctx u l
  · intro s ctx u c l
    cases s with
    | popular => exact le_trans (popular_acts_length ctx u c l) (le_max_left l 1)
    | collaborative => exact collab_acts_length ctx u c l
    | content_based => exact content_acts_length ctx u c l
    | interests_based => exact interests_acts_length ctx u c l
    | hybrid => exact hybrid_acts_length ctx u c l

theorem C3_limit_counterexample :
    ¬((Collaborative.recommend_courses Witness.ctx1 10 0).length ≤ 0) := by with_unfolding_all decide

/-- C4: for every strategy and every client behavior the public entry
points return a list: the Except-level embeddings (the public methods with
their outermost catch made explicit) always yield ok, and the pure public
functions return exactly that payload. -/
theorem C4_total_interface :
    (∀ (s : Strategy) (ctx : Ctx) (u l : Nat),
      ∃ r, recommendCoursesE s ctx u l = Except.ok r ∧ recommendCourses s ctx u l = r) ∧
    (∀ (s : Strategy) (ctx : Ctx) (u c l : Nat),
      ∃ r, recommendActivitiesE s ctx u c l = Except.ok r ∧
        recommendActivities s ctx u c l = r) :=
  ⟨publicE_courses, publicE_acts⟩

/-- C5 (amended): popular, collaborative, interests-based (courses) and
hybrid recommendations always carry a non-empty reason string; content-
based recommendations and interests-based activity recommendations never
carry an EMPTY reason, but their raw fallback paths return entries with no
reason at all (see the counterexample), so the unconditional claim fails
there. -/
theorem C5_reasons :
    (∀ (ctx : Ctx) (u l : Nat), ∀ r ∈ Popular.recommend_courses ctx u l,
      ∃ s, r.recommendation_reason = some s ∧ s ≠ "") ∧
    (∀ (ctx : Ctx) (u c l : Nat), ∀ r ∈ Popular.recommend_activities ctx u c l,
      ∃ s, r.recommendation_reason = some s ∧ s ≠ "") ∧
    (∀ (ctx : Ctx) (u l : Nat), ∀ r ∈ Collaborative.recommend_courses ctx u l,
      ∃ s, r.recommendation_reason = some s ∧ s ≠ "") ∧
    (∀ (ctx : Ctx) (u c l : Nat), ∀ r ∈ Collaborative.recommend_activities ctx u c l,
      ∃ s, r.recommendation_reason = some s ∧ s ≠ "") ∧
    (∀ (ctx : Ctx) (u l : Nat), ∀ r ∈ InterestsBased.recommend_courses ctx u l,
      ∃ s, r.recommendation_reason = some s ∧ s ≠ "") ∧
    (∀ (ctx : Ctx) (u l : Nat), ∀ r ∈ Hybrid.recommend_courses ctx u l,
      ∃ s, r.recommendation_reason = some s ∧ s ≠ "") ∧
    (∀ (ctx : Ctx) (u c l : Nat), ∀ r ∈ Hybrid.recommend_activities ctx u c l,
      ∃ s, r.recommendation_reason = some s ∧ s ≠ "") ∧
    (∀ (ctx : Ctx) (u l : Nat), ∀ r ∈ ContentBased.recommend_courses ctx u l,
      r.recommendation_reason ≠ some "") ∧
    (∀ (ctx : Ctx) (u c l : Nat), ∀ r ∈ ContentBased.recommend_activities ctx u c l,
      r.recommendation_reason ≠ some "") ∧
    (∀ (ctx : Ctx) (u c l : Nat), ∀ r ∈ InterestsBased.recommend_activities ctx u c l,
      r.recommendation_reason ≠ some "" ∧
      (ctx.user_interests u ≠ [] → r.recommendation_reason ≠ none)) := by
  refine ⟨?_, ?_, ?_, ?_, ?_, ?_, ?_, ?_, ?_, ?_⟩
  · intro ctx u l r hr; exact (popular_courses_spec ctx u l r hr).2
  · intro ctx u c l r hr; exact (popular_acts_spec ctx u c l r hr).2
  · intro ctx u l r hr; exact (collab_courses_spec ctx u l r hr).2
  · intro ctx u c l r hr; exact (collab_acts_spec ctx u c l r hr).2
  · intro ctx u l r hr; exact (interests_courses_spec ctx u l r hr).2
  · intro ctx u l r hr; exact (hybrid_courses_spec ctx u l r hr).2
  · intro ctx u c l r hr; exact hybrid_acts_spec ctx u c l r hr
  · intro ctx u l r hr; exact (content_courses_spec ctx u l r hr).2
  · intro ctx u c l r hr; exact (content_acts_spec ctx u c l r hr).2
  · intro ctx u c l r hr
    exact ⟨(interests_acts_spec ctx u c l r hr).2,
      fun hui => ((interests_acts_spec ctx u c l r hr).1 hui).2⟩

theorem C5_reason_counterexample :
    ∃ r ∈ InterestsBased.recommend_activities Witness.ctx2 10 2 5,
      r.recommendation_reason = none := by with_unfolding_all decide

/-- C6: within any one returned list, the values present in the
strategy-specific score field are non-increasing in list order, and the
underlying sort (Python sorted, embedded as insertion sort on the score
pairs) is stable: a pair of entries in corpus order whose keys allow that
order survives sorting in that order. -/
theorem C6_ordering :
    (∀ (s : Strategy) (ctx : Ctx) (u l : Nat),
      ScoresDesc (s.courseScoreField) (recommendCourses s ctx u l)) ∧
    (∀ (s : Strategy) (ctx : Ctx) (u c l : Nat),
      ScoresDesc (s.activityScoreField) (recommendActivities s ctx u c l)) ∧
    (∀ (key : Nat × ℚ → ℚ) (l : List (Nat × ℚ)) (a b : Nat × ℚ),
      key b ≤ key a → [a, b].Sublist l → [a, b].Sublist (pySortedByDesc key l)) := by
  refine ⟨?_, ?_, ?_⟩
  · intro s ctx u l
    cases s with
    | popular => exact popular_courses_scoresDesc ctx u l
    | collaborative => exact collab_courses_scoresDesc ctx u l
    | content_based => exact content_courses_scoresDesc ctx u l
    | interests_based => exact interests_courses_scoresDesc ctx u l
    | hybrid => exact hybrid_courses_scoresDesc ctx u l
  · intro s ctx u c l
    cases s with
    | popular => exact popular_acts_scoresDesc ctx u c l
    | collaborative => exact collab_acts_scoresDesc ctx u c l
    | content_based => exact content_acts_scoresDesc ctx u c l
    | interests_based => exact interests_acts_scoresDesc ctx u c l
    | hybrid => exact hybrid_acts_scoresDesc ctx u c l
  · intro key l a b hab h
    exact pair_sublist_pySortedByDesc hab h

/-- C7: hybrid per-source normalization passes sources with no recognised
score key through unmodified, writes normalized scores inside [0, 1] when
a key is recognised, and is the identity on the observed scores when their
minimum is 0 and maximum is 1. -/
theorem C7_normalization :
    (∀ (recs : List Item), Hybrid.detect_score_key recs = none →
      Hybrid.normalize_source recs = recs) ∧
    (∀ (recs : List Item) (key : Hybrid.ScoreKey),
      Hybrid.detect_score_key recs = some key →
      ∀ b ∈ Hybrid.normalize_source recs,
        ∃ q, b.normalized_score = some q ∧ 0 ≤ q ∧ q ≤ 1) ∧
    (∀ (recs : List Item) (key : Hybrid.ScoreKey),
      Hybrid.detect_score_key recs = some key →
      pyMin (recs.map (fun r => (key.get r).getD 0)) 0 = 0 →
      pyMax (recs.map (fun r => (key.get r).getD 0)) 1 = 1 →
      Hybrid.normalize_source recs =
        recs.map (fun r => { r with normalized_score := some ((key.get r).getD 0) })) :=
  ⟨fun _ h => normalize_source_passthrough h,
   fun _ _ h => normalize_source_bounds h,
   fun _ _ h h0 h1 => normalize_source_id h h0 h1⟩

/-- C8 (amended): for a user with stated interests, every entry of the
interest score map comes from a course whose feature content is at least
10 characters, carries the capped score min(score, 5) where score exceeds
the strict 0.2 threshold, and score decomposes as 2.0 per verbatim
interest hit plus 1.5 per matching (interest, tag) PAIR - not per interest
as the spec words it (see the counterexample) - plus the weighted cosine
contribution. -/
theorem C8_interest_scoring (ctx : Ctx) (u : Nat) (courses : List Entity)
    (t : Option (List (Nat × List String))) (hui : ctx.user_interests u ≠ []) :
    ∀ p ∈ InterestsBased.calculate_interest_course_matches ctx u courses t,
      ∃ (cf : List (Nat × CourseFeatures)) (features : CourseFeatures),
        InterestsBased.interest_features_fold ctx t courses [] = Except.ok cf ∧
        (p.1, features) ∈ cf ∧
        InterestsBased.MIN_DESCRIPTION_LENGTH ≤ features.content.length ∧
        InterestsBased.interest_course_score ctx (ctx.user_interests u)
          (String.intercalate " " ((ctx.user_interests u).map ctx.clean_text)) features >
          InterestsBased.ITEM_SCORE_THRESHOLD ∧
        p.2 = min (InterestsBased.interest_course_score ctx (ctx.user_interests u)
          (String.intercalate " " ((ctx.user_interests u).map ctx.clean_text)) features)
          5 ∧
        InterestsBased.interest_course_score ctx (ctx.user_interests u)
          (String.intercalate " " ((ctx.user_interests u).map ctx.clean_text)) features =
          InterestsBased.DIRECT_INTEREST_MATCH_WEIGHT *
            (((ctx.user_interests u).filter (fun interest =>
              decide (ctx.clean_text interest ≠ "" ∧
                pyIn (ctx.clean_text interest) features.content))).length : ℚ) +
          InterestsBased.TAG_MATCH_WEIGHT *
            (((ctx.user_interests u).map (fun interest =>
              (((features.tags.filter (fun tag =>
                decide (ctx.clean_text interest ≠ "" ∧ ctx.clean_text tag ≠ "" ∧
                  (pyIn (ctx.clean_text interest) (ctx.clean_text tag) ∨
                   pyIn (ctx.clean_text tag) (ctx.clean_text interest))))).length : ℚ)))).sum) +
          (if features.content ≠ "" ∧
              String.intercalate " " ((ctx.user_interests u).map ctx.clean_text) ≠ "" then
            match ctx.pair_cosine
                (String.intercalate " " ((ctx.user_interests u).map ctx.clean_text))
                features.content with
            | Except.ok cosine_sim => cosine_sim * InterestsBased.CONTENT_SIMILARITY_WEIGHT
            | Except.error _ => 0
          else 0) := by
  intro p hp
  rcases interest_matches_value ctx u courses t p hp with ⟨cf, features, h1, h2, h3, h4, h5⟩
  exact ⟨cf, features, h1, h2, h3, h4, h5,
    interest_course_score_closed ctx (ctx.user_interests u)
      (String.intercalate " " ((ctx.user_interests u).map ctx.clean_text)) features⟩

theorem C8_scoring_counterexample :
    InterestsBased.calculate_interest_course_matches Witness.ctx8 10
        [Witness.course 2 0 "python programming"]
        (some [(2, ["python basics", "python advanced"])]) = [(2, 5)] ∧
    extract_course_features Witness.ctx8 (Witness.course 2 0 "python programming")
        (some [(2, ["python basics", "python advanced"])]) = Except.ok Witness.F8 ∧
    min (InterestsBased.interest_course_score_spec_per_interest Witness.ctx8 ["python"]
        "python" Witness.F8) 5 = 7/2 ∧
    (7 : ℚ)/2 ≠ 5 := by
  refine ⟨by with_unfolding_all decide, by with_unfolding_all decide,
    by with_unfolding_all decide, by norm_num⟩

/-- C9: the claim that a course whose feature content is shorter than 10
characters gets no content-similarity score is violated by the code: the
candidate list and the filtered text list are indexed inconsistently in
_calculate_course_content_similarity, so the short-content course 3
receives the similarity of the other candidate text. -/
theorem C9_short_content_scored :
    extract_course_features Witness.ctx9 (Witness.course 3 0 "ml") none =
      Except.ok { id := 3, content := "ml", category_id := 0,
                  category_name := "", tags := [] } ∧
    ("ml".length < ContentBased.MIN_DESCRIPTION_LENGTH) ∧
    ContentBased.calculate_course_content_similarity Witness.ctx9 10
      [Witness.course 2 0 "machine learning basics", Witness.course 3 0 "ml",
       Witness.course 4 0 "machine learning basics"] = [(3, 1)] := by
  refine ⟨by with_unfolding_all decide, by with_unfolding_all decide, by with_unfolding_all decide⟩

/-- C10: when collaborative activity recommendation finds similar users
but fewer scored activities than the limit, the result is the scored list
padded, preserving course-content order, with activities neither already
recommended nor already engaged, each carrying the reason text about
course structure and no collaborative score, and padding stops at the
limit or when the activities run out. -/
theorem C10_collab_activity_padding :
    (∀ (all : List Entity) (uids : List Nat) (recs : List Item) (limit : Nat),
      ∃ (pad : List Item) (ys : List Entity),
        Collaborative.pad_activity_recommendations all uids recs limit = recs ++ pad ∧
        ys.Sublist all ∧
        List.Forall₂ (fun a b => ∃ i, a.id = some i ∧
          i ∉ recs.filterMap (fun r => r.entity.id) ∧ i ∉ uids ∧
          b = { entity := a, recommendation_reason :=
            some "Additional suggestion based on course structure" }) ys pad ∧
        (∀ b ∈ pad, b.collaborative_score = none) ∧
        (recs.length < limit → (recs ++ pad).length ≤ limit) ∧
        (¬recs.length < limit → pad = [])) ∧
    (∀ (ctx : Ctx) (u c l : Nat),
      Collaborative.recommend_activities ctx u c l = [] ∨
      (∃ (sections : List CourseSection),
        ctx.client.get_course_contents c = Except.ok sections ∧
        Collaborative.recommend_activities ctx u c l =
          ((pySortedBy (fun a => a.name.getD "")
            ((flattenActivities sections).filter (fun a => a.id.all (fun i =>
              decide (i ∉ (Collaborative.get_user_activities ctx u c).map (·.1)))))).take
              l).map Collaborative.fallback_activity_dec) ∨
      (∃ (sections : List CourseSection) (recs0 : List Item),
        ctx.client.get_course_contents c = Except.ok sections ∧
        Collaborative.recommend_activities ctx u c l =
          Collaborative.pad_activity_recommendations (flattenActivities sections)
            ((Collaborative.get_user_activities ctx u c).map (·.1)) recs0 l)) := by
  constructor
  · intro all uids recs limit
    unfold Collaborative.pad_activity_recommendations
    split
    · rename_i hlt
      rcases @padLoop_eq_append Entity Item limit _ all recs with ⟨pad, ys, h1, h2, h3⟩
      refine ⟨pad, ys, h1, h2, ?_, ?_, ?_, ?_⟩
      · refine h3.imp ?_
        intro a b hab
        cases hid : a.id with
        | none => rw [hid] at hab; cases hab
        | some i =>
          rw [hid] at hab
          simp only at hab
          by_cases hcond : i ∉ recs.filterMap (fun r => r.entity.id) ∧ i ∉ uids
          · rw [if_pos hcond] at hab
            injection hab with hab
            exact ⟨i, rfl, hcond.1, hcond.2, hab.symm⟩
          · rw [if_neg hcond] at hab
            cases hab
      · intro b hb
        rcases exists_left_of_forall₂ h3 b hb with ⟨a, ha, hab⟩
        cases hid : a.id with
        | none => rw [hid] at hab; cases hab
        | some i =>
          rw [hid] at hab
          simp only at hab
          by_cases hcond : i ∉ recs.filterMap (fun r => r.entity.id) ∧ i ∉ uids
          · rw [if_pos hcond] at hab
            injection hab with hab
            rw [← hab]
          · rw [if_neg hcond] at hab
            cases hab
      · intro hlt2
        rw [← h1]
        exact padLoop_length_le hlt2
      · intro hge
        exact absurd hlt hge
    · rename_i hge
      refine ⟨[], [], by simp, List.nil_sublist all, List.Forall₂.nil, ?_, ?_, ?_⟩
      · intro b hb; cases hb
      · intro hlt; exact absurd hlt hge
      · intro _; rfl
  · intro ctx u c l
    rcases collab_acts_shape ctx u c l with h | ⟨sections, h1, h⟩ | ⟨sections, h1, h⟩
    · exact Or.inl h
    · exact Or.inr (Or.inl ⟨sections, h1, h⟩)
    · exact Or.inr (Or.inr ⟨sections, _, h1, h⟩)

theorem C8_scoring_witness :
    Witness.ctx8.user_interests 10 ≠ [] ∧
    ((2 : Nat), (5 : ℚ)) ∈ InterestsBased.calculate_interest_course_matches Witness.ctx8 10
      [Witness.course 2 0 "python programming"]
      (some [(2, ["python basics", "python advanced"])]) ∧
    (∃ (cf : List (Nat × CourseFeatures)) (features : CourseFeatures),
      InterestsBased.interest_features_fold Witness.ctx8
        (some [(2, ["python basics", "python advanced"])])
        [Witness.course 2 0 "python programming"] [] = Except.ok cf ∧
      (2, features) ∈ cf ∧
      InterestsBased.MIN_DESCRIPTION_LENGTH ≤ features.content.length ∧
      InterestsBased.interest_course_score Witness.ctx8 (Witness.ctx8.user_interests 10)
        (String.intercalate " " ((Witness.ctx8.user_interests 10).map Witness.ctx8.clean_text))
        features > InterestsBased.ITEM_SCORE_THRESHOLD ∧
      (5 : ℚ) = min (InterestsBased.interest_course_score Witness.ctx8
        (Witness.ctx8.user_interests 10)
        (String.intercalate " " ((Witness.ctx8.user_interests 10).map Witness.ctx8.clean_text))
        features) 5 ∧
      InterestsBased.interest_course_score Witness.ctx8 (Witness.ctx8.user_interests 10)
        (String.intercalate " " ((Witness.ctx8.user_interests 10).map Witness.ctx8.clean_text))
        features =
        InterestsBased.DIRECT_INTEREST_MATCH_WEIGHT *
          (((Witness.ctx8.user_interests 10).filter (fun interest =>
            decide (Witness.ctx8.clean_text interest ≠ "" ∧
              pyIn (Witness.ctx8.clean_text interest) features.content))).length : ℚ) +
        InterestsBased.TAG_MATCH_WEIGHT *
          (((Witness.ctx8.user_interests 10).map (fun interest =>
            (((features.tags.filter (fun tag =>
              decide (Witness.ctx8.clean_text interest ≠ "" ∧
                Witness.ctx8.clean_text tag ≠ "" ∧
                (pyIn (Witness.ctx8.clean_text interest) (Witness.ctx8.clean_text tag) ∨
                 pyIn (Witness.ctx8.clean_text tag)
                   (Witness.ctx8.clean_text interest))))).length : ℚ)))).sum) +
        (if features.content ≠ "" ∧
            String.intercalate " "
              ((Witness.ctx8.user_interests 10).map Witness.ctx8.clean_text) ≠ "" then
          match Witness.ctx8.pair_cosine
              (String.intercalate " "
                ((Witness.ctx8.user_interests 10).map Witness.ctx8.clean_text))
              features.content with
          | Except.ok cosine_sim => cosine_sim * InterestsBased.CONTENT_SIMILARITY_WEIGHT
          | Except.error _ => 0
        else 0)) :=
  ⟨by with_unfolding_all decide, by with_unfolding_all decide,
    C8_interest_scoring Witness.ctx8 10 [Witness.course 2 0 "python programming"]
      (some [(2, ["python basics", "python advanced"])]) (by with_unfolding_all decide)
      ((2 : Nat), (5 : ℚ)) (by with_unfolding_all decide)⟩

end RecEngine
